import Mathlib

/-!
Fulfillment service: the generic DAO

A shallow embedding of `internal/database/dao/generic_dao.go` and of the small
strategies of `internal/auth` that it calls.

Conventions of the embedding:

* Go `error` values are strings (`Error`); a `nil` error is the `ok` side of
  `Except`, or `none` where only an error is returned.
* A Go slice that may be `nil` is an `Option (List _)`, `none` being `nil`.
* `time.Time` values are whole seconds since the Unix epoch, that is the value of
  `Time.Unix()`; `0` is the `'epoch'` default of the `deletion_timestamp` column.
* A protocol buffers object of the type `O` managed by a DAO is its `id`, its optional
  `metadata` message and the `n` remaining declared fields, each set or unset.
* The transaction is explicit state: the two tables, the clock, and the record of the
  statements that were sent and of the event callbacks that were called.
* The exported methods `List`, `Get`, `Exists`, `Create`, `Update` and `Delete` take the
  transaction from the context and delegate to the methods embedded here.
* An object that is passed by pointer and could be written to is returned with the
  result, as the caller sees it after the call.
-/

namespace Osac

/-- Go `error` values. -/
abbrev Error := String

/-- Seconds since the Unix epoch, as returned by `time.Time.Unix()`. -/
abbrev Time := Int

/-- Value of a protocol buffers field other than `id` and `metadata`, compared with
`protoreflect.Value.Equal`. -/
abbrev Value := String

/-- Serialised payload stored in the `data` column. -/
abbrev Data := String

/-! ## Subjects and contexts -/

/-- Subject of `auth.Subject`: a user name and its groups. -/
structure Subject where
  user : String
  groups : List String
deriving DecidableEq, Repr

/-- The incoming metadata of a gRPC call (`metadata.MD`): the values of each header, under
its name in lower case, as `metadata.FromIncomingContext` hands it out. -/
abbrev MD := List (String × List String)

/-- The part of `context.Context` that the service reads: the subject, when one has been
attached, and the incoming metadata, when the context holds one
(`metadata.FromIncomingContext` reports whether it does). -/
structure Context where
  subject : Option Subject
  incoming : Option MD := none
deriving DecidableEq, Repr

/-! ## Objects -/

/-- The `metadata` message of an object (`metadataIface`). The timestamps are message
fields, unset when `none`. -/
structure Metadata where
  creationTimestamp : Option Time
  deletionTimestamp : Option Time
  finalizers : List String
  creators : List String
  tenants : List String
deriving DecidableEq, Repr

/-- The declared fields of an object other than `id` and `metadata`, in declaration order;
`none` is an unset field. -/
structure Payload (n : Nat) where
  values : List (Option Value)
  size : values.length = n
deriving DecidableEq, Repr

/-- An object managed by the DAO (`Object`): a message with an `id` field, a `metadata`
field and `n` further fields. -/
structure Object (n : Nat) where
  id : String
  metadata : Option Metadata
  payload : Payload n
deriving DecidableEq, Repr

/-- Field descriptors of an object, `x.Descriptor().Fields()`. -/
inductive Field (n : Nat) where
  | id
  | metadata
  | payload (i : Fin n)
deriving DecidableEq, Repr

/-- The field list walked by `fields.Get(i)` for `i` in `range fields.Len()`. -/
def Object.fields (n : Nat) : List (Field n) :=
  Field.id :: Field.metadata :: (List.finRange n).map Field.payload

/-- Value of the `i`-th payload field. -/
def Payload.get {n : Nat} (p : Payload n) (i : Fin n) : Option Value :=
  p.values.getD i.val none

/-- Presence test `x.Has(field)`; a string field is present when it is not empty, a
message field when it is set. A nil object has no field. -/
def Object.has {n : Nat} (x : Option (Object n)) (f : Field n) : Bool :=
  match x, f with
  | none, _ => false
  | some o, Field.id => decide (o.id ≠ "")
  | some o, Field.metadata => o.metadata.isSome
  | some o, Field.payload i => (o.payload.get i).isSome

/-- Field names of the metadata message that `equivalentMetadata` walks. -/
inductive MetadataField where
  | creationTimestamp
  | deletionTimestamp
  | finalizers
  | creators
  | tenants
deriving DecidableEq, Repr

/-- The fields of the metadata descriptor, in declaration order. -/
def Metadata.fields : List MetadataField :=
  [MetadataField.creationTimestamp, MetadataField.deletionTimestamp, MetadataField.finalizers,
   MetadataField.creators, MetadataField.tenants]

/-- Value of a metadata field as `x.Get(field)` returns it: a timestamp message, unset when
`none`, or a list of strings. -/
inductive MetadataValue where
  | timestamp (t : Option Time)
  | strings (l : List String)
deriving DecidableEq, Repr

/-- Accessor `x.Get(field)` on a metadata message; an invalid (nil) message yields the
default of the field. -/
def Metadata.getField (x : Option Metadata) : MetadataField → MetadataValue
  | MetadataField.creationTimestamp => MetadataValue.timestamp (x.bind fun m => m.creationTimestamp)
  | MetadataField.deletionTimestamp => MetadataValue.timestamp (x.bind fun m => m.deletionTimestamp)
  | MetadataField.finalizers => MetadataValue.strings ((x.map fun m => m.finalizers).getD [])
  | MetadataField.creators => MetadataValue.strings ((x.map fun m => m.creators).getD [])
  | MetadataField.tenants => MetadataValue.strings ((x.map fun m => m.tenants).getD [])

/-- Function `GenericDAO.equivalentMetadata`: every field except the creation and the
deletion timestamp has to be equal. -/
def equivalentMetadata (x y : Option Metadata) : Bool :=
  if x.isSome != y.isSome then
    false
  else
    Metadata.fields.all fun field =>
      if field = MetadataField.creationTimestamp ∨ field = MetadataField.deletionTimestamp then
        true
      else
        decide (Metadata.getField x field = Metadata.getField y field)

/-- One iteration of the loop of `equivalentMessages` for two valid messages. -/
def equivalentField {n : Nat} (x y : Object n) (field : Field n) : Bool :=
  let xPresent := Object.has (some x) field
  let yPresent := Object.has (some y) field
  if xPresent != yPresent then
    false
  else if !xPresent && !yPresent then
    true
  else
    match field with
    | Field.metadata =>
      equivalentMetadata x.metadata y.metadata
    | Field.id => decide (x.id = y.id)
    | Field.payload i => decide (x.payload.get i = y.payload.get i)

/-- Function `GenericDAO.equivalentMessages`. A nil object is an invalid message, which
has no field set. -/
def equivalentMessages {n : Nat} (x y : Option (Object n)) : Bool :=
  if x.isSome != y.isSome then
    false
  else
    match x, y with
    | some xo, some yo => (Object.fields n).all fun field => equivalentField xo yo field
    | _, _ => true

/-- Function `GenericDAO.equivalent`. -/
def equivalent {n : Nat} (x y : Option (Object n)) : Bool :=
  equivalentMessages x y

/-- Function `GenericDAO.getMetadata`. -/
def getMetadata {n : Nat} (object : Object n) : Option Metadata :=
  object.metadata

/-- Function `GenericDAO.setMetadata`. -/
def setMetadata {n : Nat} (object : Object n) (metadata : Option Metadata) : Object n :=
  { object with metadata := metadata }

/-- Setter `SetId` of an object. -/
def Object.setId {n : Nat} (object : Object n) (id : String) : Object n :=
  { object with id := id }

/-- Function `GenericDAO.cloneObject`, a deep copy. -/
def cloneObject {n : Nat} (object : Object n) : Object n :=
  object

/-- Function `GenericDAO.makeMetadata`. -/
def makeMetadata (creationTs deletionTs : Time) (finalizers creators tenants : List String) :
    Metadata :=
  { creationTimestamp := if creationTs ≠ 0 then some creationTs else none
    deletionTimestamp := if deletionTs ≠ 0 then some deletionTs else none
    finalizers := finalizers
    creators := creators
    tenants := tenants }

/-- Lexicographic order of two lists of code points. -/
def charsLe : List Char → List Char → Bool
  | [], _ => true
  | _ :: _, [] => false
  | a :: as, b :: bs => decide (a.toNat < b.toNat) || (decide (a.toNat = b.toNat) && charsLe as bs)

/-- The order `a <= b` of Go strings, which `sort.Strings` sorts by: the lexicographic order
of the bytes, which for UTF-8 text is the lexicographic order of the code points. -/
def stringLe (a b : String) : Bool :=
  charsLe a.data b.data

/-- Function `GenericDAO.getFinalizers`: the set of the finalizers as a sorted list. -/
def getFinalizers (metadata : Option Metadata) : List String :=
  match metadata with
  | none => []
  | some md => (md.finalizers.dedup).insertionSort (fun a b => stringLe a b = true)

/-! ## Tables, statements and the transaction -/

/-- A row of the table of an entity. -/
structure Row where
  id : String
  creationTimestamp : Time
  deletionTimestamp : Time
  finalizers : List String
  creators : List String
  tenants : List String
  data : Data
deriving DecidableEq, Repr

/-- A row of the companion `archived_` table, which has no finalizers column. -/
structure ArchivedRow where
  id : String
  creationTimestamp : Time
  deletionTimestamp : Time
  archivalTimestamp : Time
  creators : List String
  tenants : List String
  data : Data
deriving DecidableEq, Repr

/-- A value bound to a `$N` placeholder. -/
inductive Param where
  | text (s : String)
  | textArray (l : List String)
  | int (i : Int)
deriving DecidableEq, Repr

/-- The statements that the DAO sends, one constructor for each SQL text of
`generic_dao.go`, with the parts that vary: the table, the text of the `where` clause,
the `order by` clause, and the values bound to the placeholders. -/
inductive Statement where
  /-- Text `select count(*) from T [where F]`. -/
  | count (table filter : String) (parameters : List Param)
  /-- Text `select id, ... from T [where F] [order by O] offset $i limit $j`. -/
  | selectItems (table filter order : String) (offsetIndex limitIndex : Nat)
      (parameters : List Param)
  /-- Text `select creation_timestamp, ... from T where F`. -/
  | selectOne (table filter : String) (parameters : List Param)
  /-- Text `insert into T (id, finalizers, creators, tenants, data) values ($1, ..., $5)
  returning creation_timestamp, deletion_timestamp`. -/
  | insert (table id : String) (finalizers creators tenants : List String) (data : Data)
  /-- Text `update T set finalizers = $1, data = $2 where id = $3 returning
  creation_timestamp, deletion_timestamp, creators, tenants`. -/
  | update (table : String) (finalizers : List String) (data : Data) (id : String)
  /-- Text `update T set deletion_timestamp = now() where F returning ...`. -/
  | markDeleted (table filter : String) (parameters : List Param)
  /-- Text `insert into archived_T (id, creation_timestamp, deletion_timestamp, creators,
  tenants, data) values ($1, ..., $6)`. -/
  | insertArchived (table id : String) (creationTs deletionTs : Time)
      (creators tenants : List String) (data : Data)
  /-- Text `delete from T where id = $1`. -/
  | delete (table id : String)
deriving DecidableEq, Repr

/-- Whether a statement changes a table: an `UPDATE`, an `INSERT` or a `DELETE`. -/
def Statement.isMutation : Statement → Bool
  | Statement.count _ _ _ => false
  | Statement.selectItems _ _ _ _ _ _ => false
  | Statement.selectOne _ _ _ => false
  | Statement.insert _ _ _ _ _ _ => true
  | Statement.update _ _ _ _ => true
  | Statement.markDeleted _ _ _ => true
  | Statement.insertArchived _ _ _ _ _ _ _ => true
  | Statement.delete _ _ => true

/-- The contents of the table of the DAO and of its archive, and the value of `now()`
in the transaction. -/
structure Database where
  rows : List Row
  archived : List ArchivedRow
  now : Time
deriving DecidableEq, Repr

/-- The database server, seen from the DAO: how it evaluates a `where` text that the
filter translator produced, how it orders rows for an `order by` text, and which
statements it refuses (connection loss, constraint of another table, ...). -/
structure Engine where
  sqlExpr : String → List Param → Row → Bool
  sqlOrder : String → List Row → List Row
  failure : Statement → Option Error

/-- The array overlap operator `&&` of the tenancy filter. -/
def overlaps (a b : List String) : Bool :=
  a.any fun t => b.contains t

/-- Evaluation of the `where` text of a statement on a row. The texts that the DAO builds
itself are evaluated here; any other text came from the filter translator and is left to
the engine. An empty text means that there is no `where` clause. -/
def Engine.evalWhere (e : Engine) (filter : String) (parameters : List Param) (r : Row) :
    Bool :=
  if filter = "" then
    true
  else if filter = "id = $1" then
    match parameters with
    | Param.text id :: _ => decide (r.id = id)
    | _ => false
  else if filter = "tenants && $1" then
    match parameters with
    | Param.textArray ts :: _ => overlaps r.tenants ts
    | _ => false
  else if filter = "(id = $1) and tenants && $2" then
    match parameters with
    | Param.text id :: Param.textArray ts :: _ => decide (r.id = id) && overlaps r.tenants ts
    | _ => false
  else
    e.sqlExpr filter parameters r

/-- Value bound to the placeholder `$i`, read as a row count. -/
def paramCount (parameters : List Param) (i : Nat) : Nat :=
  match parameters.get? (i - 1) with
  | some (Param.int v) => v.toNat
  | _ => 0

/-- Event types of the DAO. -/
inductive EventType where
  | created
  | updated
  | deleted
deriving DecidableEq, Repr

/-- Event passed to the callbacks (`Event`). -/
structure Event (n : Nat) where
  table : String
  type : EventType
  object : Object n
deriving DecidableEq, Repr

/-- The transaction that a DAO operation runs in, with the record of what the operation
did: the statements sent, oldest first, and the callbacks called, as pairs of the position
of the callback in registration order and the event it received. `random` is the entropy
that identifiers are generated from. -/
structure State (n : Nat) where
  db : Database
  engine : Engine
  random : Nat
  statements : List Statement
  calls : List (Nat × Event n)

/-- Error of `pgx` for a row query without result, `pgx.ErrNoRows`. -/
def errNoRows : Error := "no rows in result set"

/-- Records a statement as sent. -/
def State.sent {n : Nat} (s : State n) (st : Statement) : State n :=
  { s with statements := s.statements ++ [st] }

/-- Runs `select count(*)` and scans the count. -/
def State.queryCount {n : Nat} (s : State n) (table filter : String) (parameters : List Param) :
    Except Error Nat × State n :=
  let st := Statement.count table filter parameters
  match s.engine.failure st with
  | some err => (Except.error err, s.sent st)
  | none =>
    (Except.ok (s.db.rows.filter fun r => s.engine.evalWhere filter parameters r).length,
      s.sent st)

/-- Runs the item query of `list`. -/
def State.queryItems {n : Nat} (s : State n) (table filter order : String)
    (offsetIndex limitIndex : Nat) (parameters : List Param) :
    Except Error (List Row) × State n :=
  let st := Statement.selectItems table filter order offsetIndex limitIndex parameters
  match s.engine.failure st with
  | some err => (Except.error err, s.sent st)
  | none =>
    let selected := s.db.rows.filter fun r => s.engine.evalWhere filter parameters r
    let ordered := if order = "" then selected else s.engine.sqlOrder order selected
    (Except.ok ((ordered.drop (paramCount parameters offsetIndex)).take
      (paramCount parameters limitIndex)), s.sent st)

/-- Runs the row query of `get`; `ok none` stands for `pgx.ErrNoRows`. -/
def State.queryOne {n : Nat} (s : State n) (table filter : String) (parameters : List Param) :
    Except Error (Option Row) × State n :=
  let st := Statement.selectOne table filter parameters
  match s.engine.failure st with
  | some err => (Except.error err, s.sent st)
  | none => (Except.ok (s.db.rows.find? fun r => s.engine.evalWhere filter parameters r), s.sent st)

/-- Runs the `insert` of `create` and scans the two returned timestamps, which are the
column defaults `now()` and `'epoch'`. The identifier is the primary key. -/
def State.insert {n : Nat} (s : State n) (table id : String)
    (finalizers creators tenants : List String) (data : Data) :
    Except Error (Time × Time) × State n :=
  let st := Statement.insert table id finalizers creators tenants data
  match s.engine.failure st with
  | some err => (Except.error err, s.sent st)
  | none =>
    if s.db.rows.any (fun r => decide (r.id = id)) then
      (Except.error "duplicate key value violates unique constraint", s.sent st)
    else
      let row : Row :=
        { id := id, creationTimestamp := s.db.now, deletionTimestamp := 0,
          finalizers := finalizers, creators := creators, tenants := tenants, data := data }
      (Except.ok (row.creationTimestamp, row.deletionTimestamp),
        { s.sent st with db := { s.db with rows := s.db.rows ++ [row] } })

/-- Runs the `update` of `update` and scans the returned columns of the row; fails with
`pgx.ErrNoRows` when no row has the identifier. -/
def State.update {n : Nat} (s : State n) (table : String) (finalizers : List String)
    (data : Data) (id : String) :
    Except Error (Time × Time × List String × List String) × State n :=
  let st := Statement.update table finalizers data id
  match s.engine.failure st with
  | some err => (Except.error err, s.sent st)
  | none =>
    match s.db.rows.find? fun r => decide (r.id = id) with
    | none => (Except.error errNoRows, s.sent st)
    | some r =>
      (Except.ok (r.creationTimestamp, r.deletionTimestamp, r.creators, r.tenants),
        { s.sent st with
          db := { s.db with
            rows := s.db.rows.map fun r =>
              if r.id = id then { r with finalizers := finalizers, data := data } else r } })

/-- Runs the `update` of `delete`, which sets the deletion timestamp of the selected row
to `now()`, and scans the returned row; `ok none` stands for `pgx.ErrNoRows`. -/
def State.markDeleted {n : Nat} (s : State n) (table filter : String) (parameters : List Param) :
    Except Error (Option Row) × State n :=
  let st := Statement.markDeleted table filter parameters
  match s.engine.failure st with
  | some err => (Except.error err, s.sent st)
  | none =>
    match s.db.rows.find? fun r => s.engine.evalWhere filter parameters r with
    | none => (Except.ok none, s.sent st)
    | some r =>
      (Except.ok (some { r with deletionTimestamp := s.db.now }),
        { s.sent st with
          db := { s.db with
            rows := s.db.rows.map fun r =>
              if s.engine.evalWhere filter parameters r then
                { r with deletionTimestamp := s.db.now }
              else r } })

/-- Runs the `insert` of `archive`; the archival timestamp is the column default `now()`. -/
def State.insertArchived {n : Nat} (s : State n) (table id : String)
    (creationTs deletionTs : Time) (creators tenants : List String) (data : Data) :
    Option Error × State n :=
  let st := Statement.insertArchived table id creationTs deletionTs creators tenants data
  match s.engine.failure st with
  | some err => (some err, s.sent st)
  | none =>
    let row : ArchivedRow :=
      { id := id, creationTimestamp := creationTs, deletionTimestamp := deletionTs,
        archivalTimestamp := s.db.now, creators := creators, tenants := tenants, data := data }
    (none, { s.sent st with db := { s.db with archived := s.db.archived ++ [row] } })

/-- Runs the `delete` of `archive`. -/
def State.deleteRow {n : Nat} (s : State n) (table id : String) : Option Error × State n :=
  let st := Statement.delete table id
  match s.engine.failure st with
  | some err => (some err, s.sent st)
  | none =>
    (none, { s.sent st with
      db := { s.db with rows := s.db.rows.filter fun r => !decide (r.id = id) } })

/-! ## Attribution and tenancy logic -/

/-- Interface `auth.AttributionLogic`. -/
structure AttributionLogic where
  determineAssignedCreators : Context → Except Error (Option (List String))

/-- Interface `auth.TenancyLogic`. -/
structure TenancyLogic where
  determineAssignedTenants : Context → Except Error (Option (List String))
  determineVisibleTenants : Context → Except Error (Option (List String))

/-- Type `EmptyAttributionLogic`: returns the nil list of creators. -/
def emptyAttributionLogic : AttributionLogic :=
  { determineAssignedCreators := fun _ => Except.ok none }

/-- Type `EmptyTenancyLogic`: returns the nil list for both questions. -/
def emptyTenancyLogic : TenancyLogic :=
  { determineAssignedTenants := fun _ => Except.ok none
    determineVisibleTenants := fun _ => Except.ok none }

/-- Variable `defaultTenants` of `default_tenancy_logic.go`. -/
def defaultTenants : List String := ["shared"]

/-- Type `DefaultTenancyLogic`. -/
def defaultTenancyLogic : TenancyLogic :=
  { determineAssignedTenants := fun _ => Except.ok (some defaultTenants)
    determineVisibleTenants := fun _ => Except.ok (some defaultTenants) }

/-- Length `len(x)` of a slice that may be nil. -/
def sliceLen {α : Type} (x : Option (List α)) : Nat :=
  match x with
  | none => 0
  | some l => l.length

/-- Elements of a slice that may be nil; this is also the slice that replacing nil by
the empty slice leaves. -/
def sliceItems {α : Type} (x : Option (List α)) : List α :=
  match x with
  | none => []
  | some l => l

/-! ## The generic DAO -/

/-- Type `EventCallback`: returns an error or nil. -/
abbrev EventCallback (n : Nat) := Context → Event n → Option Error

/-- Type `GenericDAO`. The JSON encoder and decoder of the payload and the filter
translator are collaborators that are configured into the DAO; `marshal` does not see the
`id` and `metadata` fields, which the encoder is built to ignore. -/
structure GenericDAO (n : Nat) where
  table : String
  defaultOrder : String
  defaultLimit : Int
  maxLimit : Int
  eventCallbacks : List (EventCallback n)
  attributionLogic : AttributionLogic
  tenancyLogic : TenancyLogic
  marshal : Payload n → Except Error Data
  unmarshal : Data → Except Error (Payload n)
  translate : Context → String → Except Error String

/-- Type `GenericDAOBuilder`. -/
structure GenericDAOBuilder (n : Nat) where
  logger : Bool
  table : String
  defaultOrder : String
  defaultLimit : Int
  maxLimit : Int
  eventCallbacks : List (EventCallback n)
  attributionLogic : Option AttributionLogic
  tenancyLogic : Option TenancyLogic
  marshal : Payload n → Except Error Data
  unmarshal : Data → Except Error (Payload n)
  translate : Context → String → Except Error String

/-- Function `NewGenericDAO`, for the given payload codec and filter translator. -/
def newGenericDAO {n : Nat} (marshal : Payload n → Except Error Data)
    (unmarshal : Data → Except Error (Payload n))
    (translate : Context → String → Except Error String) : GenericDAOBuilder n :=
  { logger := false, table := "", defaultOrder := "", defaultLimit := 100, maxLimit := 1000,
    eventCallbacks := [], attributionLogic := none, tenancyLogic := none,
    marshal := marshal, unmarshal := unmarshal, translate := translate }

/-- Method `GenericDAOBuilder.SetLogger`. -/
def GenericDAOBuilder.setLogger {n : Nat} (b : GenericDAOBuilder n) : GenericDAOBuilder n :=
  { b with logger := true }

/-- Method `GenericDAOBuilder.SetTable`. -/
def GenericDAOBuilder.setTable {n : Nat} (b : GenericDAOBuilder n) (value : String) :
    GenericDAOBuilder n :=
  { b with table := value }

/-- Method `GenericDAOBuilder.AddEventCallback`. -/
def GenericDAOBuilder.addEventCallback {n : Nat} (b : GenericDAOBuilder n)
    (value : EventCallback n) : GenericDAOBuilder n :=
  { b with eventCallbacks := b.eventCallbacks ++ [value] }

/-- Method `GenericDAOBuilder.Build`. -/
def GenericDAOBuilder.build {n : Nat} (b : GenericDAOBuilder n) : Except Error (GenericDAO n) :=
  if !b.logger then
    Except.error "logger is mandatory"
  else if b.table = "" then
    Except.error "table is mandatory"
  else if b.defaultLimit ≤ 0 then
    Except.error ("default limit must be a possitive integer, but it is " ++ toString b.defaultLimit)
  else if b.maxLimit ≤ 0 then
    Except.error ("max limit must be a possitive integer, but it is " ++ toString b.maxLimit)
  else if b.maxLimit < b.defaultLimit then
    Except.error ("max limit must be greater or equal to default limit, but max limit is " ++
      toString b.maxLimit ++ " and default limit is " ++ toString b.defaultLimit)
  else
    Except.ok
      { table := b.table
        defaultOrder := b.defaultOrder
        defaultLimit := b.defaultLimit
        maxLimit := b.maxLimit
        eventCallbacks := b.eventCallbacks
        attributionLogic := b.attributionLogic.getD emptyAttributionLogic
        tenancyLogic := b.tenancyLogic.getD emptyTenancyLogic
        marshal := b.marshal
        unmarshal := b.unmarshal
        translate := b.translate }

/-- The loop of `fireEvent` from the callback at position `i` on. -/
def fireEventLoop {n : Nat} (ctx : Context) (event : Event n) :
    List (EventCallback n) → Nat → State n → Option Error × State n
  | [], _, s => (none, s)
  | eventCallback :: rest, i, s =>
    let s := { s with calls := s.calls ++ [(i, event)] }
    match eventCallback ctx event with
    | some err => (some err, s)
    | none => fireEventLoop ctx event rest (i + 1) s

/-- Function `GenericDAO.fireEvent`. -/
def GenericDAO.fireEvent {n : Nat} (d : GenericDAO n) (ctx : Context) (event : Event n)
    (s : State n) : Option Error × State n :=
  let event := { event with table := d.table }
  fireEventLoop ctx event d.eventCallbacks 0 s

/-- The sixteen random bytes of a version 4 UUID, with the version and variant bits set. -/
def uuidBytes (random : Nat) : List Nat :=
  (List.range 16).map fun i =>
    let b := random / 256 ^ i % 256
    if i = 6 then b % 16 + 64 else if i = 8 then b % 64 + 128 else b

/-- Lower case hexadecimal encoding of a list of bytes. -/
def hexEncode (bytes : List Nat) : List Char :=
  bytes.flatMap fun b => [Nat.digitChar (b / 16 % 16), Nat.digitChar (b % 16)]

/-- The text form `xxxxxxxx-xxxx-xxxx-xxxx-xxxxxxxxxxxx` of a UUID. -/
def uuidString (bytes : List Nat) : String :=
  String.mk (hexEncode (bytes.take 4) ++ '-' :: hexEncode ((bytes.drop 4).take 2) ++
    '-' :: hexEncode ((bytes.drop 6).take 2) ++ '-' :: hexEncode ((bytes.drop 8).take 2) ++
    '-' :: hexEncode (bytes.drop 10))

/-- Function `GenericDAO.newId`, that is `uuid.NewString()`: consumes 128 bits of entropy. -/
def newId {n : Nat} (s : State n) : String × State n :=
  (uuidString (uuidBytes s.random), { s with random := s.random / 2 ^ 128 })

/-- Function `GenericDAO.newObject`. -/
def newObject (n : Nat) : Object n :=
  { id := "", metadata := none, payload := ⟨List.replicate n none, List.length_replicate n none⟩ }

/-- Function `GenericDAO.marshalData`. -/
def GenericDAO.marshalData {n : Nat} (d : GenericDAO n) (object : Object n) : Except Error Data :=
  d.marshal object.payload

/-- Function `GenericDAO.unmarshalData`: decodes the payload into the fields of the object. -/
def GenericDAO.unmarshalData {n : Nat} (d : GenericDAO n) (data : Data) (object : Object n) :
    Except Error (Object n) :=
  match d.unmarshal data with
  | Except.error err => Except.error err
  | Except.ok payload => Except.ok { object with payload := payload }

/-- Function `GenericDAO.addTenancyFilter`. Returns the error and the contents of the
buffer and of the parameter list after the call. -/
def GenericDAO.addTenancyFilter {n : Nat} (d : GenericDAO n) (ctx : Context) (buffer : String)
    (parameters : List Param) : Option Error × String × List Param :=
  match d.tenancyLogic.determineVisibleTenants ctx with
  | Except.error err => (some err, buffer, parameters)
  | Except.ok tenants =>
    if sliceLen tenants = 0 then
      (none, buffer, parameters)
    else
      let parameters := parameters ++ [Param.textArray (sliceItems tenants)]
      let filter := "tenants && $" ++ toString parameters.length
      if buffer.utf8ByteSize = 0 then
        (none, filter, parameters)
      else
        (none, "(" ++ buffer ++ ") and " ++ filter, parameters)

/-- The steps that `list`, `get` and `delete` share after a row was scanned: a new object
with the decoded payload, the identifier and the metadata made of the dedicated columns. -/
def GenericDAO.scanObject {n : Nat} (d : GenericDAO n) (id : String) (r : Row) :
    Except Error (Object n) :=
  let object := newObject n
  match d.unmarshalData r.data object with
  | Except.error err => Except.error err
  | Except.ok object =>
    let metadata := makeMetadata r.creationTimestamp r.deletionTimestamp r.finalizers r.creators
      r.tenants
    let object := object.setId id
    Except.ok (setMetadata object (some metadata))

/-- Conversion `int32(x)` of a Go `int`. -/
def toInt32 (x : Int) : Int :=
  (x + 2 ^ 31) % 2 ^ 32 - 2 ^ 31

/-- Type `ListRequest`. -/
structure ListRequest where
  offset : Int
  limit : Int
  filter : String
deriving DecidableEq, Repr

/-- Type `ListResponse`. -/
structure ListResponse (n : Nat) where
  size : Int
  total : Int
  items : List (Object n)
deriving DecidableEq, Repr

/-- The loop over `itemsRows` of `list`. -/
def GenericDAO.scanItems {n : Nat} (d : GenericDAO n) : List Row → Except Error (List (Object n))
  | [] => Except.ok []
  | r :: rest =>
    match d.scanObject r.id r with
    | Except.error err => Except.error err
    | Except.ok item =>
      match GenericDAO.scanItems d rest with
      | Except.error err => Except.error err
      | Except.ok items => Except.ok (item :: items)

/-- The offset that `list` binds. -/
def listOffset (request : ListRequest) : Int :=
  max request.offset 0

/-- The limit that `list` binds. -/
def GenericDAO.listLimit {n : Nat} (d : GenericDAO n) (request : ListRequest) : Int :=
  if request.limit < 0 then
    0
  else if request.limit = 0 then
    d.defaultLimit
  else if request.limit > d.maxLimit then
    d.maxLimit
  else
    request.limit

/-- Function `GenericDAO.list`. -/
def GenericDAO.list {n : Nat} (d : GenericDAO n) (ctx : Context) (request : ListRequest)
    (s : State n) : Except Error (ListResponse n) × State n :=
  match (if request.filter ≠ "" then d.translate ctx request.filter else Except.ok "") with
  | Except.error err => (Except.error err, s)
  | Except.ok filterBuffer =>
    match d.addTenancyFilter ctx filterBuffer [] with
    | (some err, _, _) => (Except.error err, s)
    | (none, filterBuffer, parameters) =>
      let order := if d.defaultOrder ≠ "" then d.defaultOrder else ""
      match s.queryCount d.table filterBuffer parameters with
      | (Except.error err, s) => (Except.error err, s)
      | (Except.ok total, s) =>
        let offset := listOffset request
        let parameters := parameters ++ [Param.int offset]
        let offsetIndex := parameters.length
        let limit := d.listLimit request
        let parameters := parameters ++ [Param.int limit]
        let limitIndex := parameters.length
        match s.queryItems d.table filterBuffer order offsetIndex limitIndex parameters with
        | (Except.error err, s) => (Except.error err, s)
        | (Except.ok itemsRows, s) =>
          match d.scanItems itemsRows with
          | Except.error err => (Except.error err, s)
          | Except.ok items =>
            (Except.ok { size := toInt32 items.length, total := toInt32 total, items := items }, s)

/-- Function `GenericDAO.get`; `ok none` is the nil result without error. -/
def GenericDAO.get {n : Nat} (d : GenericDAO n) (ctx : Context) (id : String) (s : State n) :
    Except Error (Option (Object n)) × State n :=
  if id = "" then
    (Except.error "object identifier is mandatory", s)
  else
    match d.addTenancyFilter ctx "id = $1" [Param.text id] with
    | (some err, _, _) => (Except.error err, s)
    | (none, filterBuffer, parameters) =>
      match s.queryOne d.table filterBuffer parameters with
      | (Except.error err, s) => (Except.error err, s)
      | (Except.ok none, s) => (Except.ok none, s)
      | (Except.ok (some row), s) =>
        match d.scanObject id row with
        | Except.error err => (Except.error err, s)
        | Except.ok object => (Except.ok (some object), s)

/-- Function `GenericDAO.exists`. -/
def GenericDAO.exists {n : Nat} (d : GenericDAO n) (ctx : Context) (id : String) (s : State n) :
    Except Error Bool × State n :=
  if id = "" then
    (Except.error "object identifier is mandatory", s)
  else
    match d.addTenancyFilter ctx "id = $1" [Param.text id] with
    | (some err, _, _) => (Except.error err, s)
    | (none, filterBuffer, parameters) =>
      match s.queryCount d.table filterBuffer parameters with
      | (Except.error err, s) => (Except.error err, s)
      | (Except.ok count, s) => (Except.ok (decide (count > 0)), s)

/-- Function `GenericDAO.archive`. -/
def GenericDAO.archive {n : Nat} (d : GenericDAO n) (id : String) (creationTs deletionTs : Time)
    (creators tenants : List String) (data : Data) (s : State n) : Option Error × State n :=
  match s.insertArchived d.table id creationTs deletionTs creators tenants data with
  | (some err, s) => (some err, s)
  | (none, s) => s.deleteRow d.table id

/-- What a call that receives an object returns: the result or the error, the object
that the caller passed as the caller sees it after the call, and the transaction. -/
structure Outcome (n : Nat) (α : Type) where
  result : Except Error α
  object : Object n
  state : State n

/-- Function `GenericDAO.create`. -/
def GenericDAO.create {n : Nat} (d : GenericDAO n) (ctx : Context) (object : Object n)
    (s : State n) : Outcome n (Object n) :=
  let generated := if object.id = "" then newId s else (object.id, s)
  let id := generated.1
  let s := generated.2
  let metadata := getMetadata object
  let finalizers := getFinalizers metadata
  match d.attributionLogic.determineAssignedCreators ctx with
  | Except.error err => ⟨Except.error err, object, s⟩
  | Except.ok creators =>
    let creators := sliceItems creators
    match d.tenancyLogic.determineAssignedTenants ctx with
    | Except.error err => ⟨Except.error err, object, s⟩
    | Except.ok tenants =>
      let tenants := sliceItems tenants
      match d.marshalData object with
      | Except.error err => ⟨Except.error err, object, s⟩
      | Except.ok data =>
        match s.insert d.table id finalizers creators tenants data with
        | (Except.error err, s) => ⟨Except.error err, object, s⟩
        | (Except.ok (creationTs, deletionTs), s) =>
          let created := cloneObject object
          let metadata := makeMetadata creationTs deletionTs finalizers creators tenants
          let created := created.setId id
          let created := setMetadata created (some metadata)
          match d.fireEvent ctx { table := "", type := EventType.created, object := created } s with
          | (some err, s) => ⟨Except.error err, object, s⟩
          | (none, s) => ⟨Except.ok created, object, s⟩

/-- Function `GenericDAO.update`; `ok none` is the nil result without error. -/
def GenericDAO.update {n : Nat} (d : GenericDAO n) (ctx : Context) (object : Object n)
    (s : State n) : Outcome n (Option (Object n)) :=
  let id := object.id
  if id = "" then
    ⟨Except.error "object identifier is mandatory", object, s⟩
  else
    match d.get ctx id s with
    | (Except.error err, s) => ⟨Except.error err, object, s⟩
    | (Except.ok current, s) =>
      if equivalent current (some object) then
        ⟨Except.ok none, object, s⟩
      else
        let metadata := getMetadata object
        let finalizers := getFinalizers metadata
        match d.marshalData object with
        | Except.error err => ⟨Except.error err, object, s⟩
        | Except.ok data =>
          match s.update d.table finalizers data id with
          | (Except.error err, s) => ⟨Except.error err, object, s⟩
          | (Except.ok (creationTs, deletionTs, creators, tenants), s) =>
            let updated := cloneObject object
            let metadata := makeMetadata creationTs deletionTs finalizers creators tenants
            let updated := updated.setId id
            let updated := setMetadata updated (some metadata)
            match d.fireEvent ctx { table := "", type := EventType.updated, object := updated } s
            with
            | (some err, s) => ⟨Except.error err, object, s⟩
            | (none, s) =>
              if deletionTs ≠ 0 ∧ finalizers.length = 0 then
                match d.archive id creationTs deletionTs creators tenants data s with
                | (some err, s) => ⟨Except.error err, object, s⟩
                | (none, s) => ⟨Except.ok (some updated), object, s⟩
              else
                ⟨Except.ok (some updated), object, s⟩

/-- Function `GenericDAO.delete`. -/
def GenericDAO.delete {n : Nat} (d : GenericDAO n) (ctx : Context) (id : String) (s : State n) :
    Option Error × State n :=
  if id = "" then
    (some "object identifier is mandatory", s)
  else
    match d.addTenancyFilter ctx "id = $1" [Param.text id] with
    | (some err, _, _) => (some err, s)
    | (none, filterBuffer, parameters) =>
      match s.markDeleted d.table filterBuffer parameters with
      | (Except.error err, s) => (some err, s)
      | (Except.ok none, s) => (none, s)
      | (Except.ok (some row), s) =>
        match d.scanObject id row with
        | Except.error err => (some err, s)
        | Except.ok object =>
          match d.fireEvent ctx { table := "", type := EventType.deleted, object := object } s with
          | (some err, s) => (some err, s)
          | (none, s) =>
            if row.finalizers.length = 0 then
              d.archive id row.creationTimestamp row.deletionTimestamp row.creators row.tenants
                row.data s
            else
              (none, s)

/-! ## Definitions used to state the properties -/

/-- A metadata message without its creation and deletion timestamps. -/
def Metadata.eraseTimestamps (m : Metadata) : Metadata :=
  { m with creationTimestamp := none, deletionTimestamp := none }

/-- An object whose metadata, when set, has lost its creation and deletion timestamps. -/
def Object.eraseTimestamps {n : Nat} (o : Object n) : Object n :=
  { o with metadata := o.metadata.map Metadata.eraseTimestamps }

/-- Reference definition of the tenancy filter: no filtering for an empty or nil visible
set; otherwise the visible tenants become the parameter at position `len(p) + 1` and the
clause with that placeholder is the whole filter, or is and-ed to the previous filter in
parentheses. -/
def tenancyFilterReference (visible : Option (List String)) (b : String) (p : List Param) :
    String × List Param :=
  match visible with
  | none => (b, p)
  | some [] => (b, p)
  | some (t :: ts) =>
    (if b = "" then "tenants && $" ++ toString (p.length + 1)
      else "(" ++ b ++ ") and tenants && $" ++ toString (p.length + 1),
     p ++ [Param.textArray (t :: ts)])

/-- A payload codec for objects with one payload field: the field is stored as it is, an
unset field as the empty text. -/
def demoMarshal : Payload 1 → Except Error Data :=
  fun p => Except.ok ((p.get 0).getD "")

/-- The decoder that goes with `demoMarshal`. -/
def demoUnmarshal : Data → Except Error (Payload 1) :=
  fun data => Except.ok ⟨[if data = "" then none else some data], rfl⟩

/-- A DAO for the table `vms` with the default tenancy logic and no callbacks. -/
def demoDAO : GenericDAO 1 :=
  { table := "vms", defaultOrder := "", defaultLimit := 100, maxLimit := 1000,
    eventCallbacks := [], attributionLogic := emptyAttributionLogic,
    tenancyLogic := defaultTenancyLogic, marshal := demoMarshal, unmarshal := demoUnmarshal,
    translate := fun _ filter => Except.ok filter }

/-- An engine that refuses no statement. -/
def demoEngine : Engine :=
  { sqlExpr := fun _ _ _ => true, sqlOrder := fun _ rows => rows, failure := fun _ => none }

/-- A context without subject. -/
def demoContext : Context := { subject := none }

/-- The builder of a DAO for the table `vms` with the defaults of `NewGenericDAO`. -/
def demoBuilder : GenericDAOBuilder 1 :=
  ((newGenericDAO demoMarshal demoUnmarshal fun _ filter => Except.ok filter).setLogger).setTable
    "vms"

/-- The DAO that `demoBuilder` builds: the empty attribution and tenancy logic. -/
def demoBuiltDAO : GenericDAO 1 :=
  { table := "vms", defaultOrder := "", defaultLimit := 100, maxLimit := 1000,
    eventCallbacks := [], attributionLogic := emptyAttributionLogic,
    tenancyLogic := emptyTenancyLogic, marshal := demoMarshal, unmarshal := demoUnmarshal,
    translate := fun _ filter => Except.ok filter }

/-- A live row without finalizers, of the tenant `shared`. -/
def demoRowA : Row :=
  { id := "a", creationTimestamp := 10, deletionTimestamp := 0, finalizers := [],
    creators := ["alice"], tenants := ["shared"], data := "small" }

/-- A live row that holds the finalizer `hold`, of the tenant `shared`. -/
def demoRowB : Row :=
  { id := "b", creationTimestamp := 20, deletionTimestamp := 0, finalizers := ["hold"],
    creators := ["bob"], tenants := ["shared"], data := "large" }

/-- A transaction that sees the rows `a` and `b` at time 50. -/
def demoState : State 1 :=
  { db := { rows := [demoRowA, demoRowB], archived := [], now := 50 }, engine := demoEngine,
    random := 0, statements := [], calls := [] }

/-- The object that the row `a` decodes to. -/
def demoObjectA : Object 1 :=
  { id := "a"
    metadata := some { creationTimestamp := some 10, deletionTimestamp := none, finalizers := [],
                       creators := ["alice"], tenants := ["shared"] }
    payload := ⟨[some "small"], rfl⟩ }

/-- The object that the row `b` decodes to. -/
def demoObjectB : Object 1 :=
  { id := "b"
    metadata := some { creationTimestamp := some 20, deletionTimestamp := none,
                       finalizers := ["hold"], creators := ["bob"], tenants := ["shared"] }
    payload := ⟨[some "large"], rfl⟩ }

/-- The answer of `list` on `demoState`. -/
def demoListResponse : ListResponse 1 :=
  { size := 2, total := 2, items := [demoObjectA, demoObjectB] }

/-- A callback that accepts every event. -/
def demoCallbackOk : EventCallback 1 := fun _ _ => none

/-- A callback that refuses every event. -/
def demoCallbackFail : EventCallback 1 := fun _ _ => some "boom"

/-- Three callbacks, the second of which fails. -/
def demoCallbacks : List (EventCallback 1) := [demoCallbackOk, demoCallbackFail, demoCallbackOk]

/-- The DAO that `demoBuilder` builds after the three callbacks were added. -/
def demoCallbackDAO : GenericDAO 1 :=
  { demoBuiltDAO with eventCallbacks := demoCallbacks }

/-- Whether a row can be seen by a caller whose visible tenants are `visible`: there is no
restriction for an empty or nil set, otherwise the tenants of the row have to overlap it. -/
def visibleTo (visible : Option (List String)) (r : Row) : Bool :=
  sliceLen visible == 0 || overlaps r.tenants (sliceItems visible)

/-- The DAO `demoDAO` with two callbacks that accept every event. -/
def demoNotifyingDAO : GenericDAO 1 :=
  { demoDAO with eventCallbacks := [demoCallbackOk, demoCallbackOk] }

/-- An object to create: no identifier, metadata with finalizers in disorder and with
creators and tenants of its own. -/
def demoNewObject : Object 1 :=
  { id := ""
    metadata := some { creationTimestamp := some 1, deletionTimestamp := some 2,
                       finalizers := ["z", "hold", "z"], creators := ["mallory"],
                       tenants := ["other"] }
    payload := ⟨[some "medium"], rfl⟩ }

/-- What `create` returns for `demoNewObject` at time 50 with the entropy 0. -/
def demoCreatedObject : Object 1 :=
  { id := "00000000-0000-4000-8000-000000000000"
    metadata := some { creationTimestamp := some 50, deletionTimestamp := none,
                       finalizers := ["hold", "z"], creators := [], tenants := ["shared"] }
    payload := ⟨[some "medium"], rfl⟩ }

/-- The stored object `a` with other timestamps in its metadata. -/
def demoTouchedObjectA : Object 1 :=
  { id := "a"
    metadata := some { creationTimestamp := some 77, deletionTimestamp := some 88, finalizers := [],
                       creators := ["alice"], tenants := ["shared"] }
    payload := ⟨[some "small"], rfl⟩ }

/-- The table contents after `update T set finalizers = $1, data = $2 where id = $3`. -/
def Database.updateRow (db : Database) (id : String) (finalizers : List String) (data : Data) :
    Database :=
  { db with rows := db.rows.map fun r =>
      if r.id = id then { r with finalizers := finalizers, data := data } else r }

/-- The table contents after `delete from T where id = $1`. -/
def Database.removeRow (db : Database) (id : String) : Database :=
  { db with rows := db.rows.filter fun r => !decide (r.id = id) }

/-- The table contents after a row was inserted into the archive. -/
def Database.addArchived (db : Database) (a : ArchivedRow) : Database :=
  { db with archived := db.archived ++ [a] }

/-- The archive row that `archive` writes for a live row, with the payload `data`. -/
def Row.toArchived (r : Row) (data : Data) (now : Time) : ArchivedRow :=
  { id := r.id, creationTimestamp := r.creationTimestamp,
    deletionTimestamp := r.deletionTimestamp, archivalTimestamp := now, creators := r.creators,
    tenants := r.tenants, data := data }

/-- The object that `update` returns for the incoming object `o` when the row `r` was
updated: a copy of `o` with the metadata made of the columns of the row and of the
finalizers that were written. -/
def updatedObject {n : Nat} (o : Object n) (r : Row) : Object n :=
  setMetadata ((cloneObject o).setId o.id)
    (some (makeMetadata r.creationTimestamp r.deletionTimestamp (getFinalizers (getMetadata o))
      r.creators r.tenants))

/-- A row that is pending deletion since time 30 and still holds the finalizer `hold`. -/
def demoRowC : Row :=
  { id := "c", creationTimestamp := 25, deletionTimestamp := 30, finalizers := ["hold"],
    creators := ["carol"], tenants := ["shared"], data := "large" }

/-- A transaction that sees the rows `a` and `c` at time 50. -/
def demoPendingState : State 1 :=
  { db := { rows := [demoRowA, demoRowC], archived := [], now := 50 }, engine := demoEngine,
    random := 0, statements := [], calls := [] }

/-- The object `c` as it is sent to remove its finalizer. -/
def demoReleasedObjectC : Object 1 :=
  { id := "c"
    metadata := some { creationTimestamp := none, deletionTimestamp := none, finalizers := [],
                       creators := [], tenants := [] }
    payload := ⟨[some "large"], rfl⟩ }

/-- What `update` returns when the finalizer of the row `c` is removed. -/
def demoArchivedObjectC : Object 1 :=
  { id := "c"
    metadata := some { creationTimestamp := some 25, deletionTimestamp := some 30,
                       finalizers := [], creators := ["carol"], tenants := ["shared"] }
    payload := ⟨[some "large"], rfl⟩ }

/-- The table contents after `update T set deletion_timestamp = now() where F`, for the
filter on the identifier and on the visible tenants. -/
def Database.markDeleted (db : Database) (id : String) (visible : Option (List String)) :
    Database :=
  { db with rows := db.rows.map fun r =>
      if decide (r.id = id) && visibleTo visible r then { r with deletionTimestamp := db.now }
      else r }

/-- An operation of the DAO with its context and argument. -/
inductive Operation (n : Nat) where
  | list (ctx : Context) (request : ListRequest)
  | get (ctx : Context) (id : String)
  | create (ctx : Context) (object : Object n)
  | update (ctx : Context) (object : Object n)
  | delete (ctx : Context) (id : String)

/-- The transaction after an operation, whatever it returned. -/
def Operation.run {n : Nat} (d : GenericDAO n) : Operation n → State n → State n
  | Operation.list ctx request, s => (d.list ctx request s).2
  | Operation.get ctx id, s => (d.get ctx id s).2
  | Operation.create ctx object, s => (d.create ctx object s).state
  | Operation.update ctx object, s => (d.update ctx object s).state
  | Operation.delete ctx id, s => (d.delete ctx id s).2

/-- The transaction after a sequence of operations. An operation that failed and whose
changes were rolled back is an operation that is not in the sequence. -/
def runOperations {n : Nat} (d : GenericDAO n) (ops : List (Operation n)) (s : State n) :
    State n :=
  ops.foldl (fun s op => op.run d s) s

/-- The invariant of the immutable columns of the object `id`: the identifiers of the live
table are unique, the archive has only grown since it was `base`, and either the live row
of the object has the creation timestamp, creators and tenants it was created with, or a
row of this identifier has been archived since. -/
def ImmutableColumns (id : String) (ct : Time) (cr tn : List String) (base : List ArchivedRow)
    (db : Database) : Prop :=
  (db.rows.map Row.id).Nodup ∧ ∃ extra, db.archived = base ++ extra ∧
    ((∃ r ∈ db.rows, r.id = id ∧ r.creationTimestamp = ct ∧ r.creators = cr ∧ r.tenants = tn) ∨
      ∃ a ∈ extra, a.id = id)

/-- Operations that follow the creation of `demoCreatedObject`: the row `a` is deleted and
archived, the row `b` is read. -/
def demoOperations : List (Operation 1) :=
  [Operation.delete demoContext "a", Operation.get demoContext "b"]

/-- An update of the created object that carries creators, tenants and timestamps of its
own and another payload. -/
def demoIncomingObject : Object 1 :=
  { id := "00000000-0000-4000-8000-000000000000"
    metadata := some { creationTimestamp := some 3, deletionTimestamp := some 4,
                       finalizers := ["hold"], creators := ["mallory"], tenants := ["other"] }
    payload := ⟨[some "huge"], rfl⟩ }

/-- What `update` returns for `demoIncomingObject`. -/
def demoUpdatedObject : Object 1 :=
  { id := "00000000-0000-4000-8000-000000000000"
    metadata := some { creationTimestamp := some 50, deletionTimestamp := none,
                       finalizers := ["hold"], creators := [], tenants := ["shared"] }
    payload := ⟨[some "huge"], rfl⟩ }

/-- An attribution logic that names the user of the subject of the context as the creator. -/
def demoSubjectAttributionLogic : AttributionLogic :=
  { determineAssignedCreators := fun ctx =>
      Except.ok (some ((ctx.subject.map fun subject => [subject.user]).getD [])) }

/-- The DAO `demoDAO` with the attribution to the subject. -/
def demoAttributingDAO : GenericDAO 1 :=
  { demoDAO with attributionLogic := demoSubjectAttributionLogic }

/-- The context of a call by `alice`. -/
def demoContextAlice : Context := { subject := some { user := "alice", groups := [] } }

/-- The context of a call by `bob`. -/
def demoContextBob : Context := { subject := some { user := "bob", groups := [] } }

/-- An object with the identifier `x` and without metadata. -/
def demoObjectX : Object 1 :=
  { id := "x", metadata := none, payload := ⟨[some "tiny"], rfl⟩ }

/-- The object `x` with another payload. -/
def demoChangedObjectX : Object 1 :=
  { id := "x", metadata := none, payload := ⟨[some "wide"], rfl⟩ }

/-- What `create` returns to `alice` for `demoObjectX`. -/
def demoCreatedObjectX : Object 1 :=
  { id := "x"
    metadata := some { creationTimestamp := some 50, deletionTimestamp := none, finalizers := [],
                       creators := ["alice"], tenants := ["shared"] }
    payload := ⟨[some "tiny"], rfl⟩ }

/-- After the creation by `alice`: the object `x` is deleted, which archives it, and `bob`
creates an object with the same identifier. -/
def demoRecreation : List (Operation 1) :=
  [Operation.delete demoContextAlice "x", Operation.create demoContextBob demoObjectX]

/-- What `update` returns for `demoChangedObjectX` after `demoRecreation`. -/
def demoRecreatedObjectX : Object 1 :=
  { id := "x"
    metadata := some { creationTimestamp := some 50, deletionTimestamp := none, finalizers := [],
                       creators := ["bob"], tenants := ["shared"] }
    payload := ⟨[some "wide"], rfl⟩ }

/-! ## External authentication function -/

/-- Function `MD.Get`: the values of a header, none when the header is absent. The name is
asked for in lower case, the way the metadata holds it. -/
def mdGet (md : MD) (k : String) : List String :=
  match md.find? (fun p => p.1 = k) with
  | some p => p.2
  | none => []

/-- Function `unicode.IsSpace`: the white space characters of Unicode. -/
def isSpace (r : Char) : Bool :=
  let n := r.toNat
  n = 0x09 || n = 0x0A || n = 0x0B || n = 0x0C || n = 0x0D || n = 0x20 || n = 0x85 || n = 0xA0 ||
    n = 0x1680 || (0x2000 ≤ n && n ≤ 0x200A) || n = 0x2028 || n = 0x2029 || n = 0x202F ||
    n = 0x205F || n = 0x3000

/-- Function `strings.TrimSpace`: the text without its leading and trailing white space. -/
def trimSpace (s : String) : String :=
  String.mk ((s.data.dropWhile isSpace).reverse.dropWhile isSpace).reverse

/-- Reference description of trimming, independent of how it is computed: the text `t` is
the text `s` without a prefix and a suffix made of white space only, and `t` neither
starts nor ends with a white space character. -/
def IsTrimOf (s t : String) : Prop :=
  (∃ pre post : List Char, s.data = pre ++ t.data ++ post ∧
    (∀ c ∈ pre, isSpace c = true) ∧ (∀ c ∈ post, isSpace c = true)) ∧
  (∀ c, t.data.head? = some c → isSpace c = false) ∧
  (∀ c, t.data.getLast? = some c → isSpace c = false)

/-- Function `ContextWithSubject`: the context with the subject attached. -/
def contextWithSubject (ctx : Context) (subject : Subject) : Context :=
  { ctx with subject := some subject }

/-- Constant `grpcExternalAuthnSubjectHeader`: the name of the header that holds the subject. -/
def grpcExternalAuthnSubjectHeader : String := "x-subject"

/-- Type `GrpcExternalAuthnFuncBuilder`: whether a logger was given and the expressions
that describe the public methods. -/
structure GrpcExternalAuthnFuncBuilder where
  logger : Bool
  publicMethods : List String

/-- Type `grpcExternalAuthnFunc`. A compiled regular expression is its `MatchString`. The
variable `Guest` and the decoder `json.Unmarshal` into a fresh `Subject` are declared outside
of this code and are taken as they come. -/
structure GrpcExternalAuthnFunc where
  publicMethods : List (String → Bool)
  guest : Subject
  unmarshal : String → Option Subject

/-- Function `NewGrpcExternalAuthnFunc`. -/
def newGrpcExternalAuthnFunc : GrpcExternalAuthnFuncBuilder :=
  { logger := false, publicMethods := [] }

/-- Function `GrpcExternalAuthnFuncBuilder.SetLogger`. -/
def GrpcExternalAuthnFuncBuilder.setLogger (b : GrpcExternalAuthnFuncBuilder) :
    GrpcExternalAuthnFuncBuilder :=
  { b with logger := true }

/-- Function `GrpcExternalAuthnFuncBuilder.AddPublicMethodRegex`. -/
def GrpcExternalAuthnFuncBuilder.addPublicMethodRegex (b : GrpcExternalAuthnFuncBuilder)
    (value : String) : GrpcExternalAuthnFuncBuilder :=
  { b with publicMethods := b.publicMethods ++ [value] }

/-- Function `GrpcExternalAuthnFuncBuilder.Build`, given `regexp.Compile`: the expressions are
compiled in order and the first failure is the result. -/
def GrpcExternalAuthnFuncBuilder.build (b : GrpcExternalAuthnFuncBuilder)
    (compile : String → Except Error (String → Bool)) (guest : Subject)
    (unmarshal : String → Option Subject) : Except Error GrpcExternalAuthnFunc :=
  if b.logger = false then Except.error "logger is mandatory"
  else
    match b.publicMethods.mapM compile with
    | Except.error err => Except.error err
    | Except.ok publicMethods =>
      Except.ok { publicMethods := publicMethods, guest := guest, unmarshal := unmarshal }

/-- Function `grpcExternalAuthnFunc.isPublicMethod`. -/
def GrpcExternalAuthnFunc.isPublicMethod (f : GrpcExternalAuthnFunc) (method : String) : Bool :=
  f.publicMethods.any fun publicMethod => publicMethod method

/-- Function `grpcExternalAuthnFunc.call`: the resulting context, nil when there is an error,
and the error. -/
def GrpcExternalAuthnFunc.call (f : GrpcExternalAuthnFunc) (ctx : Context) (method : String) :
    Option Context × Option Error :=
  match ctx.incoming with
  | none => (none, some "missing authentication header")
  | some md =>
    let values := mdGet md grpcExternalAuthnSubjectHeader
    let count := values.length
    if count = 0 ∧ f.isPublicMethod method = true then
      (some (contextWithSubject ctx f.guest), none)
    else if count ≠ 1 then
      (none, some "too many values for authentication header")
    else
      let value := values.headD ""
      match f.unmarshal value with
      | none => (none, some "failed to decode authentication header")
      | some decoded =>
        let subject : Subject :=
          { user := trimSpace decoded.user, groups := decoded.groups.map trimSpace }
        if subject.user.utf8ByteSize = 0 then
          (none, some "subject name is empty")
        else
          (some (contextWithSubject ctx subject), none)

/-- A function for which the methods of `/my_package/` are public. -/
def demoAuthnFunc : GrpcExternalAuthnFunc :=
  { publicMethods := [fun method => "/my_package/".data.isPrefixOf method.data]
    guest := { user := "guest", groups := [] }
    unmarshal := fun value =>
      if value = "\x7b\"user\":\" my_user \",\"groups\":[\" my_group \",\"\"]\x7d" then
        some { user := " my_user ", groups := [" my_group ", ""] }
      else none }

/-- An incoming call without headers. -/
def demoCallNoHeader : Context := { subject := none, incoming := some [] }

/-- An incoming call with two values of the header. -/
def demoCallTwoValues : Context :=
  { subject := none, incoming := some [("x-subject", ["first value", "second value"])] }

/-- An incoming call with one value of the header. -/
def demoCallOneValue : Context :=
  { subject := none
    incoming :=
      some [("x-subject", ["\x7b\"user\":\" my_user \",\"groups\":[\" my_group \",\"\"]\x7d"])] }

/-- The context of a call by `my_user`. -/
def demoContextMyUser : Context := { subject := some { user := "my_user", groups := [] } }

/-! ## Servers: status, requests and responses -/

/-- The status codes of gRPC (`codes.Code`). -/
inductive Code where
  | OK | Canceled | Unknown | InvalidArgument | DeadlineExceeded | NotFound | AlreadyExists
  | PermissionDenied | ResourceExhausted | FailedPrecondition | Aborted | OutOfRange
  | Unimplemented | Internal | Unavailable | DataLoss | Unauthenticated
deriving DecidableEq, Repr

/-- An error made by `grpcstatus.Errorf`: a code and a message. -/
structure Status where
  code : Code
  message : String
deriving DecidableEq, Repr

/-- The request of `Create`. -/
structure CreateRequest (α : Type) where
  object : Option α
deriving DecidableEq, Repr

/-- The response of `Create`. -/
structure CreateResponse (α : Type) where
  object : Option α
deriving DecidableEq, Repr

/-- The request of `Update`: the object and the update mask, a list of paths, when one is
supplied. -/
structure UpdateRequest (α : Type) where
  object : Option α
  updateMask : Option (List String)
deriving DecidableEq, Repr

/-- The response of `Update`. -/
structure UpdateResponse (α : Type) where
  object : Option α
deriving DecidableEq, Repr

/-- The request of `Get`. -/
structure GetRequest where
  id : String
deriving DecidableEq, Repr

/-- The response of `Get`. -/
structure GetResponse (α : Type) where
  object : Option α
deriving DecidableEq, Repr

/-- The results `(response, err)` of a method of a server, and the state of the world behind
the server (the database) after the call. -/
structure Reply (W ρ : Type) where
  response : Option ρ
  err : Option Status
  world : W
deriving DecidableEq, Repr

/-- Type `GenericServer`, which the servers delegate to. It is declared outside of this
code: its methods are taken as they come. -/
structure GenericServer (W α : Type) where
  create : Context → CreateRequest α → W → Reply W (CreateResponse α)
  update : Context → UpdateRequest α → W → Reply W (UpdateResponse α)

/-- The template parameters of an object (`map[string]*anypb.Any`), by name. -/
abbrev TemplateParameters := List (String × String)

/-- The definition of a parameter of a template. -/
structure TemplateParameterDefinition where
  name : String
  required : Bool
  type : String
  default : Option String
deriving DecidableEq, Repr

/-- Function `HasDeletionTimestamp` of the metadata that `GetMetadata` returns. -/
def hasDeletionTimestamp (metadata : Option Metadata) : Bool :=
  match metadata with
  | none => false
  | some md => md.deletionTimestamp.isSome

/-- The value `m[k]` of a Go map with string keys, given as the list of its entries: `none`
stands for the nil that a missing key gives. -/
def mapGet {β : Type} (m : List (String × β)) (k : String) : Option β :=
  match m with
  | [] => none
  | (key, value) :: rest => if key = k then some value else mapGet rest k

/-! ## Private clusters server -/

/-- A condition of a cluster. The type is the number of the enum value; the declared values
are not negative, and `uint` leaves such a number as it is. -/
structure ClusterCondition where
  type : Nat
  status : Nat
  message : String
deriving DecidableEq, Repr

/-- A node set of a cluster or of a cluster template. -/
structure ClusterNodeSet where
  hostClass : String
  size : Int
deriving DecidableEq, Repr

/-- The spec of a cluster. The node sets are the entries of a Go map, by key. -/
structure ClusterSpec where
  template : String
  templateParameters : TemplateParameters
  nodeSets : List (String × ClusterNodeSet)
deriving DecidableEq, Repr

/-- The status of a cluster. -/
structure ClusterStatus where
  conditions : List ClusterCondition
deriving DecidableEq, Repr

/-- Message `privatev1.Cluster`. -/
structure Cluster where
  id : String
  metadata : Option Metadata
  spec : Option ClusterSpec
  status : Option ClusterStatus
deriving DecidableEq, Repr

/-- Message `privatev1.ClusterTemplate`. -/
structure ClusterTemplate where
  id : String
  metadata : Option Metadata
  parameters : List TemplateParameterDefinition
  nodeSets : List (String × ClusterNodeSet)
deriving DecidableEq, Repr

/-- Type `PrivateClustersServer`. The generic server, the `Get` of the DAO of the templates,
the name of a condition type (`String` of the enum) and the two functions of `utils` for the
template parameters are declared outside of this code and are taken as they come. -/
structure PrivateClustersServer (W : Type) where
  generic : GenericServer W Cluster
  templatesGet : Context → String → W → Except Error (Option ClusterTemplate) × W
  conditionTypeName : Nat → String
  validateClusterTemplateParameters : ClusterTemplate → TemplateParameters → Option Status
  processTemplateParametersWithDefaults :
    ClusterTemplate → TemplateParameters → TemplateParameters

/-- The loop of `validateNoDuplicateConditions`, with the bit set as the list of the numbers
that are set. -/
def validateNoDuplicateConditionsLoop (conditionTypeName : Nat → String) :
    List ClusterCondition → List Nat → Option Status
  | [], _ => none
  | condition :: rest, conditionTypes =>
    if condition.type ∈ conditionTypes then
      some
        { code := Code.InvalidArgument
          message := "condition '" ++ conditionTypeName condition.type ++ "' is duplicated" }
    else
      validateNoDuplicateConditionsLoop conditionTypeName rest (condition.type :: conditionTypes)

/-- The conditions `object.GetStatus().GetConditions()` of a cluster that may be nil. -/
def clusterConditions (object : Option Cluster) : List ClusterCondition :=
  match object with
  | none => []
  | some cluster =>
    match cluster.status with
    | none => []
    | some status => status.conditions

/-- Function `PrivateClustersServer.validateNoDuplicateConditions`. -/
def PrivateClustersServer.validateNoDuplicateConditions {W : Type} (s : PrivateClustersServer W)
    (object : Option Cluster) : Option Status :=
  validateNoDuplicateConditionsLoop s.conditionTypeName (clusterConditions object) []

/-- Function `english.WordSeries` of the library `go-humanize`: the words separated by
commas, with the conjunction before the last one. -/
def wordSeries (words : List String) (conjunction : String) : String :=
  match words with
  | [] => ""
  | [word] => word
  | _ => ", ".intercalate words.dropLast ++ " " ++ conjunction ++ " " ++ words.getLastD ""

/-- Function `sort.Strings`. -/
def sortStrings (l : List String) : List String :=
  l.insertionSort fun a b => stringLe a b = true

/-- The text `'%s'` of a key. -/
def quoted (key : String) : String :=
  "'" ++ key ++ "'"

/-- The first loop over the node sets of the cluster in `validateAndTransformCluster`:
every key has to be a key of the template. -/
def checkNodeSetsExist (templateId : String) (templateNodeSets : List (String × ClusterNodeSet)) :
    List (String × ClusterNodeSet) → Option Status
  | [] => none
  | (clusterNodeSetKey, _) :: rest =>
    match mapGet templateNodeSets clusterNodeSetKey with
    | none =>
      let templateNodeSetKeys := (sortStrings (templateNodeSets.map Prod.fst)).map quoted
      some
        { code := Code.InvalidArgument
          message :=
            "node set '" ++ clusterNodeSetKey ++ "' doesn't exist, valid values for template '" ++
              templateId ++ "' are " ++ wordSeries templateNodeSetKeys "and" }
    | some _ => checkNodeSetsExist templateId templateNodeSets rest

/-- The second loop: a host class that is given has to be the one of the template. -/
def checkHostClasses (templateId : String) (templateNodeSets : List (String × ClusterNodeSet)) :
    List (String × ClusterNodeSet) → Option Status
  | [] => none
  | (clusterNodeSetKey, clusterNodeSet) :: rest =>
    let clusterHostClass := clusterNodeSet.hostClass
    if clusterHostClass = "" then checkHostClasses templateId templateNodeSets rest
    else
      let templateHostClass :=
        match mapGet templateNodeSets clusterNodeSetKey with
        | none => ""
        | some templateNodeSet => templateNodeSet.hostClass
      if clusterHostClass ≠ templateHostClass then
        some
          { code := Code.InvalidArgument
            message :=
              "host class for node set '" ++ clusterNodeSetKey ++ "' should be empty or '" ++
                templateHostClass ++ "', like in template '" ++ templateId ++
                "', but it is '" ++ clusterHostClass ++ "'" }
      else checkHostClasses templateId templateNodeSets rest

/-- The third loop: every size has to be positive. -/
def checkSizes : List (String × ClusterNodeSet) → Option Status
  | [] => none
  | (clusterNodeSetKey, clusterNodeSet) :: rest =>
    let clusterNodeSetSize := clusterNodeSet.size
    if clusterNodeSetSize ≤ 0 then
      some
        { code := Code.InvalidArgument
          message :=
            "size for node set '" ++ clusterNodeSetKey ++
              "' should be greater than zero, but it is " ++ toString clusterNodeSetSize }
    else checkSizes rest

/-- The three loops of `validateAndTransformCluster` over the node sets of the cluster, one
after the other. -/
def checkNodeSets (templateId : String) (templateNodeSets clusterNodeSets :
    List (String × ClusterNodeSet)) : Option Status :=
  match checkNodeSetsExist templateId templateNodeSets clusterNodeSets with
  | some err => some err
  | none =>
    match checkHostClasses templateId templateNodeSets clusterNodeSets with
    | some err => some err
    | none => checkSizes clusterNodeSets

/-- The node sets that `validateAndTransformCluster` puts in the cluster: those of the
template, with the size of the cluster where the cluster has the key. -/
def actualNodeSets (templateNodeSets clusterNodeSets : List (String × ClusterNodeSet)) :
    List (String × ClusterNodeSet) :=
  templateNodeSets.map fun entry =>
    (entry.1,
      { hostClass := entry.2.hostClass
        size :=
          match mapGet clusterNodeSets entry.1 with
          | some clusterNodeSet => clusterNodeSet.size
          | none => entry.2.size })

/-- The error of a validation, the object that was passed by pointer as the validation leaves
it, and the state of the world. -/
structure Validation (W α : Type) where
  err : Option Status
  object : Option α
  world : W
deriving DecidableEq, Repr

/-- Function `PrivateClustersServer.validateAndTransformCluster`. -/
def PrivateClustersServer.validateAndTransformCluster {W : Type} (s : PrivateClustersServer W)
    (ctx : Context) (cluster : Option Cluster) (w : W) : Validation W Cluster :=
  match cluster with
  | none => ⟨some { code := Code.InvalidArgument, message := "object is mandatory" }, none, w⟩
  | some c =>
    let templateId := match c.spec with
      | none => ""
      | some spec => spec.template
    if templateId = "" then
      ⟨some { code := Code.InvalidArgument, message := "template is mandatory" }, some c, w⟩
    else
      match s.templatesGet ctx templateId w with
      | (Except.error _, w1) =>
        ⟨some
            { code := Code.Internal
              message := "failed to get template '" ++ templateId ++ "'" },
          some c, w1⟩
      | (Except.ok none, w1) =>
        ⟨some
            { code := Code.InvalidArgument
              message := "template '" ++ templateId ++ "' doesn't exist" },
          some c, w1⟩
      | (Except.ok (some template), w1) =>
        if hasDeletionTimestamp template.metadata = true then
          ⟨some
              { code := Code.InvalidArgument
                message := "template '" ++ templateId ++ "' has been deleted" },
            some c, w1⟩
        else
          let templateNodeSets := template.nodeSets
          let clusterNodeSets := match c.spec with
            | none => []
            | some spec => spec.nodeSets
          match checkNodeSets templateId templateNodeSets clusterNodeSets with
          | some err => ⟨some err, some c, w1⟩
          | none =>
            let c1 : Cluster :=
              { c with
                spec := c.spec.map fun spec =>
                  { spec with nodeSets := actualNodeSets templateNodeSets clusterNodeSets } }
            let clusterParameters := match c1.spec with
              | none => []
              | some spec => spec.templateParameters
            match s.validateClusterTemplateParameters template clusterParameters with
            | some err => ⟨some err, some c1, w1⟩
            | none =>
              let actualClusterParameters :=
                s.processTemplateParametersWithDefaults template clusterParameters
              ⟨none,
                some
                  { c1 with
                    spec := c1.spec.map fun spec =>
                      { spec with templateParameters := actualClusterParameters } },
                w1⟩

/-- Function `PrivateClustersServer.Create`: the reply, and the object of the request as the
call leaves it. -/
def PrivateClustersServer.create {W : Type} (s : PrivateClustersServer W) (ctx : Context)
    (request : CreateRequest Cluster) (w : W) :
    Reply W (CreateResponse Cluster) × Option Cluster :=
  match s.validateNoDuplicateConditions request.object with
  | some err => (⟨none, some err, w⟩, request.object)
  | none =>
    let validation := s.validateAndTransformCluster ctx request.object w
    match validation.err with
    | some err => (⟨none, some err, validation.world⟩, validation.object)
    | none =>
      (s.generic.create ctx { request with object := validation.object } validation.world,
        validation.object)

/-- Function `PrivateClustersServer.Update`. -/
def PrivateClustersServer.update {W : Type} (s : PrivateClustersServer W) (ctx : Context)
    (request : UpdateRequest Cluster) (w : W) : Reply W (UpdateResponse Cluster) :=
  match s.validateNoDuplicateConditions request.object with
  | some err => ⟨none, some err, w⟩
  | none => s.generic.update ctx request w

/-- A generic server that keeps a journal of its calls and replies with the object of the
request. -/
def demoGenericServer (α : Type) : GenericServer (List String) α :=
  { create := fun _ request w => ⟨some { object := request.object }, none, w ++ ["create"]⟩
    update := fun _ request w => ⟨some { object := request.object }, none, w ++ ["update"]⟩ }

/-- A cluster template with three node sets. -/
def demoClusterTemplate : ClusterTemplate :=
  { id := "t1", metadata := none, parameters := []
    nodeSets := [("worker", ⟨"acme", 3⟩), ("compute", ⟨"gpu", 2⟩), ("infra", ⟨"acme", 1⟩)] }

/-- A cluster template that has been deleted and is kept by a finalizer. -/
def demoDeletedClusterTemplate : ClusterTemplate :=
  { id := "t0"
    metadata :=
      some
        { creationTimestamp := some 1, deletionTimestamp := some 5, finalizers := ["keep"]
          creators := [], tenants := ["shared"] }
    parameters := []
    nodeSets := [("worker", ⟨"acme", 3⟩)] }

/-- A private clusters server over the two templates, which accepts all template
parameters. -/
def demoClustersServer : PrivateClustersServer (List String) :=
  { generic := demoGenericServer Cluster
    templatesGet := fun _ id w =>
      (Except.ok
        (if id = "t1" then some demoClusterTemplate
        else if id = "t0" then some demoDeletedClusterTemplate else none), w)
    conditionTypeName := fun n =>
      if n = 1 then "CLUSTER_CONDITION_TYPE_PROGRESSING"
      else if n = 2 then "CLUSTER_CONDITION_TYPE_READY"
      else if n = 3 then "CLUSTER_CONDITION_TYPE_FAILED"
      else toString n
    validateClusterTemplateParameters := fun _ _ => none
    processTemplateParametersWithDefaults := fun _ parameters => parameters }

/-- A cluster whose conditions repeat the types 2 and 1, in that order. -/
def demoDuplicatedCluster : Cluster :=
  { id := "c1", metadata := none
    spec := some { template := "t1", templateParameters := [], nodeSets := [] }
    status := some { conditions := [⟨1, 1, ""⟩, ⟨2, 2, ""⟩, ⟨3, 2, ""⟩, ⟨2, 1, ""⟩, ⟨1, 2, ""⟩] } }

/-- The spec of a cluster of the template `t1` that gives the size of the workers. -/
def demoClusterSpec : ClusterSpec :=
  { template := "t1", templateParameters := [], nodeSets := [("worker", ⟨"", 5⟩)] }

/-- A cluster with the spec `demoClusterSpec`. -/
def demoCluster : Cluster :=
  { id := "c2", metadata := none, spec := some demoClusterSpec, status := none }

/-- The spec of a cluster of the template `t1` with a node set that the template does not
have. -/
def demoUnknownKeySpec : ClusterSpec :=
  { template := "t1", templateParameters := [], nodeSets := [("foo", ⟨"", 1⟩)] }

/-- A cluster with the spec `demoUnknownKeySpec`. -/
def demoUnknownKeyCluster : Cluster :=
  { id := "c3", metadata := none, spec := some demoUnknownKeySpec, status := none }

/-- A cluster of the deleted template `t0`. -/
def demoClusterOfDeletedTemplate : Cluster :=
  { id := "c4", metadata := none
    spec := some { template := "t0", templateParameters := [], nodeSets := [] }
    status := none }

/-! ## Virtual machines -/

/-- Enum `privatev1.VirtualMachineState`: the values that this code names. The zero value,
which a status without a state has, is `VIRTUAL_MACHINE_STATE_UNSPECIFIED`. -/
inductive VirtualMachineState where
  | VIRTUAL_MACHINE_STATE_UNSPECIFIED
  | VIRTUAL_MACHINE_STATE_PROGRESSING
  | VIRTUAL_MACHINE_STATE_READY
  | VIRTUAL_MACHINE_STATE_FAILED
deriving DecidableEq, Repr

/-- Enum `sharedv1.ConditionStatus`. -/
inductive ConditionStatus where
  | CONDITION_STATUS_UNSPECIFIED
  | CONDITION_STATUS_TRUE
  | CONDITION_STATUS_FALSE
deriving DecidableEq, Repr

/-- Message `privatev1.VirtualMachineCondition`. The type is the number of the enum value. -/
structure VirtualMachineCondition where
  type : Int
  status : ConditionStatus
  message : String
  lastTransitionTime : Option Time
deriving DecidableEq, Repr

/-- The spec of a virtual machine. -/
structure VirtualMachineSpec where
  template : String
  templateParameters : TemplateParameters
deriving DecidableEq, Repr

/-- The status of a virtual machine. -/
structure VirtualMachineStatus where
  state : VirtualMachineState
  hub : String
  conditions : List VirtualMachineCondition
deriving DecidableEq, Repr

/-- Message `privatev1.VirtualMachine`. -/
structure VirtualMachine where
  id : String
  metadata : Option Metadata
  spec : Option VirtualMachineSpec
  status : Option VirtualMachineStatus
deriving DecidableEq, Repr

/-- Message `privatev1.VirtualMachineTemplate`. -/
structure VirtualMachineTemplate where
  id : String
  metadata : Option Metadata
  parameters : List TemplateParameterDefinition
deriving DecidableEq, Repr

/-! ## Private virtual machines server -/

/-- Type `PrivateVirtualMachinesServer`. The generic server, the `Get` of the DAO of the
templates and the two functions of `utils` for the template parameters are declared outside
of this code and are taken as they come. -/
structure PrivateVirtualMachinesServer (W : Type) where
  generic : GenericServer W VirtualMachine
  templatesGet : Context → String → W → Except Error (Option VirtualMachineTemplate) × W
  validateVirtualMachineTemplateParameters :
    VirtualMachineTemplate → TemplateParameters → Option Status
  processTemplateParametersWithDefaults :
    VirtualMachineTemplate → TemplateParameters → TemplateParameters

/-- Function `PrivateVirtualMachinesServer.validateTemplate`. -/
def PrivateVirtualMachinesServer.validateTemplate {W : Type} (s : PrivateVirtualMachinesServer W)
    (ctx : Context) (vm : Option VirtualMachine) (w : W) : Validation W VirtualMachine :=
  match vm with
  | none =>
    ⟨some { code := Code.InvalidArgument, message := "virtual machine is mandatory" }, none, w⟩
  | some v =>
    match v.spec with
    | none =>
      ⟨some { code := Code.InvalidArgument, message := "virtual machine spec is mandatory" },
        some v, w⟩
    | some spec =>
      let templateID := spec.template
      if templateID = "" then
        ⟨some { code := Code.InvalidArgument, message := "template ID is mandatory" }, some v, w⟩
      else
        match s.templatesGet ctx templateID w with
        | (Except.error _, w1) =>
          ⟨some
              { code := Code.Internal
                message := "failed to retrieve template '" ++ templateID ++ "'" },
            some v, w1⟩
        | (Except.ok none, w1) =>
          ⟨some
              { code := Code.InvalidArgument
                message := "template '" ++ templateID ++ "' does not exist" },
            some v, w1⟩
        | (Except.ok (some template), w1) =>
          let vmParameters := spec.templateParameters
          match s.validateVirtualMachineTemplateParameters template vmParameters with
          | some err => ⟨some err, some v, w1⟩
          | none =>
            let actualVmParameters :=
              s.processTemplateParametersWithDefaults template vmParameters
            ⟨none,
              some { v with spec := some { spec with templateParameters := actualVmParameters } },
              w1⟩

/-- Function `PrivateVirtualMachinesServer.Create`: the reply, and the object of the request
as the call leaves it. -/
def PrivateVirtualMachinesServer.create {W : Type} (s : PrivateVirtualMachinesServer W)
    (ctx : Context) (request : CreateRequest VirtualMachine) (w : W) :
    Reply W (CreateResponse VirtualMachine) × Option VirtualMachine :=
  let validation := s.validateTemplate ctx request.object w
  match validation.err with
  | some err => (⟨none, some err, validation.world⟩, validation.object)
  | none =>
    (s.generic.create ctx { request with object := validation.object } validation.world,
      validation.object)

/-- Function `PrivateVirtualMachinesServer.Update`: the reply, and the object of the request
as the call leaves it. -/
def PrivateVirtualMachinesServer.update {W : Type} (s : PrivateVirtualMachinesServer W)
    (ctx : Context) (request : UpdateRequest VirtualMachine) (w : W) :
    Reply W (UpdateResponse VirtualMachine) × Option VirtualMachine :=
  let validation := s.validateTemplate ctx request.object w
  match validation.err with
  | some err => (⟨none, some err, validation.world⟩, validation.object)
  | none =>
    (s.generic.update ctx { request with object := validation.object } validation.world,
      validation.object)

/-! ## Public virtual machines server -/

/-- Interface `privatev1.VirtualMachinesServer`, as far as the public server calls it. -/
structure PrivateServer (W Priv : Type) where
  get : Context → GetRequest → W → Reply W (GetResponse Priv)
  update : Context → UpdateRequest Priv → W → Reply W (UpdateResponse Priv)

/-- Type `GenericMapper`, declared outside of this code: `Copy(ctx, from, to)` writes into
`to`, and the result here is `to` after the call, or the error. -/
structure GenericMapper (α β : Type) where
  copy : Context → α → β → Except Error β

/-- Type `VirtualMachinesServer`, over the public and the private message. The type
`VirtualMachineTemplatesServer` has the same code with the names of the templates. The
identifier of a public message and the empty public message are taken as they come. -/
structure VirtualMachinesServer (W Pub Priv : Type) where
  privateServer : PrivateServer W Priv
  inMapper : GenericMapper Pub (Option Priv)
  outMapper : GenericMapper (Option Priv) Pub
  getId : Pub → String
  newPublic : Pub

/-- Function `VirtualMachinesServer.Update`. -/
def VirtualMachinesServer.update {W Pub Priv : Type} (s : VirtualMachinesServer W Pub Priv)
    (ctx : Context) (request : UpdateRequest Pub) (w : W) : Reply W (UpdateResponse Pub) :=
  match request.object with
  | none => ⟨none, some { code := Code.InvalidArgument, message := "object is mandatory" }, w⟩
  | some publicVirtualMachine =>
    let id := s.getId publicVirtualMachine
    if id = "" then
      ⟨none,
        some { code := Code.InvalidArgument, message := "object identifier is mandatory" }, w⟩
    else
      let getReply := s.privateServer.get ctx { id := id } w
      match getReply.err with
      | some err => ⟨none, some err, getReply.world⟩
      | none =>
        let existingPrivateVirtualMachine :=
          match getReply.response with
          | none => none
          | some getResponse => getResponse.object
        match s.inMapper.copy ctx publicVirtualMachine existingPrivateVirtualMachine with
        | Except.error _ =>
          ⟨none,
            some { code := Code.Internal, message := "failed to process virtual machine" },
            getReply.world⟩
        | Except.ok merged =>
          let updateReply :=
            s.privateServer.update ctx { object := merged, updateMask := none } getReply.world
          match updateReply.err with
          | some err => ⟨none, some err, updateReply.world⟩
          | none =>
            let updatedPrivateVirtualMachine :=
              match updateReply.response with
              | none => none
              | some privateResponse => privateResponse.object
            match s.outMapper.copy ctx updatedPrivateVirtualMachine s.newPublic with
            | Except.error _ =>
              ⟨none,
                some { code := Code.Internal, message := "failed to process virtual machine" },
                updateReply.world⟩
            | Except.ok updatedPublicVirtualMachine =>
              ⟨some { object := some updatedPublicVirtualMachine }, none, updateReply.world⟩

/-- A virtual machine template that has been deleted and is kept by a finalizer. -/
def demoDeletedVirtualMachineTemplate : VirtualMachineTemplate :=
  { id := "vt0"
    metadata :=
      some
        { creationTimestamp := some 1, deletionTimestamp := some 5, finalizers := ["keep"]
          creators := [], tenants := ["shared"] }
    parameters := [] }

/-- A private virtual machines server over the deleted template, which accepts all template
parameters. -/
def demoPrivateVirtualMachinesServer : PrivateVirtualMachinesServer (List String) :=
  { generic := demoGenericServer VirtualMachine
    templatesGet := fun _ id w =>
      (Except.ok (if id = "vt0" then some demoDeletedVirtualMachineTemplate else none), w)
    validateVirtualMachineTemplateParameters := fun _ _ => none
    processTemplateParametersWithDefaults := fun _ parameters => parameters }

/-- The spec of a virtual machine of the deleted template `vt0`. -/
def demoVirtualMachineSpec : VirtualMachineSpec :=
  { template := "vt0", templateParameters := [("cpu", "1")] }

/-- A virtual machine of the deleted template `vt0`. -/
def demoVirtualMachine : VirtualMachine :=
  { id := "vm-1", metadata := none, spec := some demoVirtualMachineSpec
    status :=
      some
        { state := VirtualMachineState.VIRTUAL_MACHINE_STATE_READY, hub := "hub-1"
          conditions := [] } }

/-- A public message for the demonstration: the identifier and the spec. -/
structure DemoPublicVirtualMachine where
  id : String
  spec : Option VirtualMachineSpec
deriving DecidableEq, Repr

/-- The paths of a mask merged from the incoming spec onto the stored one, for the two
paths of the spec. -/
def demoMergeSpec (paths : List String) (incoming stored : Option VirtualMachineSpec) :
    Option VirtualMachineSpec :=
  match incoming, stored with
  | some i, some s =>
    some
      { template := if "spec.template" ∈ paths then i.template else s.template
        templateParameters :=
          if "spec.template_parameters" ∈ paths then i.templateParameters
          else s.templateParameters }
  | _, _ => stored

/-- A private server over a list of stored virtual machines. Its `Update` merges the listed
paths when the request has a mask and replaces the stored object when it has none. -/
def demoPrivateServer : PrivateServer (List VirtualMachine) VirtualMachine :=
  { get := fun _ request w =>
      match w.find? fun vm => vm.id = request.id with
      | some vm => ⟨some { object := some vm }, none, w⟩
      | none => ⟨none, some { code := Code.NotFound, message := "not found" }, w⟩
    update := fun _ request w =>
      match request.object with
      | none => ⟨none, some { code := Code.InvalidArgument, message := "object is mandatory" }, w⟩
      | some incoming =>
        match w.find? fun vm => vm.id = incoming.id with
        | none => ⟨none, some { code := Code.NotFound, message := "not found" }, w⟩
        | some stored =>
          let written : VirtualMachine :=
            match request.updateMask with
            | none => incoming
            | some paths => { stored with spec := demoMergeSpec paths incoming.spec stored.spec }
          ⟨some { object := some written }, none,
            w.map fun vm => if vm.id = incoming.id then written else vm⟩ }

/-- A public server over `demoPrivateServer`, with mappers that copy the identifier and the
spec, which the two messages share. -/
def demoPublicServer :
    VirtualMachinesServer (List VirtualMachine) DemoPublicVirtualMachine VirtualMachine :=
  { privateServer := demoPrivateServer
    inMapper :=
      { copy := fun _ source target =>
          Except.ok
            (some
              { id := source.id
                metadata := target.bind fun vm => vm.metadata
                spec := source.spec
                status := target.bind fun vm => vm.status }) }
    outMapper :=
      { copy := fun _ source target =>
          Except.ok
            (match source with
            | none => target
            | some vm => { id := vm.id, spec := vm.spec }) }
    getId := fun vm => vm.id
    newPublic := { id := "", spec := none } }

/-- The incoming public object: another template and other parameters for `vm-1`. -/
def demoIncomingVirtualMachine : DemoPublicVirtualMachine :=
  { id := "vm-1", spec := some { template := "vt1", templateParameters := [("cpu", "9")] } }

/-! ## Reconciler of virtual machines -/

/-- An object of a hub (`unstructured.Unstructured`), with the parts that this code sets:
the kind, the names, the labels and the fields `templateID` and `templateParameters` of the
spec. -/
structure KubeObject where
  kind : String
  ns : String
  name : String
  generateName : String
  labels : List (String × String)
  spec : Option (String × String)
deriving DecidableEq, Repr

/-- An entry of the cache of hubs: the namespace and the client, a handle. -/
structure HubEntry where
  ns : String
  client : Nat
deriving DecidableEq, Repr

/-- Type `function` of the reconciler, over the state `W` of the world behind its clients.
The clients, the cache of hubs, `rand.IntN`, the conversion of the template parameters, the
table `VirtualMachineConditionType_name` of the numbers and names of the condition types, the
kind `gvks.VirtualMachine` and the label `labels.VirtualMachineUuid` are declared outside of
this code and are taken as they come. -/
structure ReconcilerFunction (W : Type) where
  conditionTypeName : List (Int × String)
  virtualMachineKind : String
  virtualMachineUuid : String
  vmsUpdate : VirtualMachine → W → Option Error × W
  hubsList : W → Except Error (List String) × W
  randIntN : Nat → W → Nat × W
  hubCacheGet : String → W → Except Error HubEntry × W
  kubeList : Nat → String → String → W → Except Error (List KubeObject) × W
  kubeCreate : Nat → KubeObject → W → Option Error × W
  kubePatch : Nat → KubeObject → KubeObject → W → Option Error × W
  kubeDelete : Nat → KubeObject → W → Option Error × W
  convertTemplateParametersToJSON : TemplateParameters → Except Error String

/-- Type `task`: the virtual machine, which the task changes in place, and the hub. -/
structure Task where
  vm : VirtualMachine
  hubId : String
  hubNamespace : String
  hubClient : Nat
deriving DecidableEq, Repr

/-- Constant `objectPrefix`. -/
def objectPrefix : String := "vm-"

/-- The status `vm.GetStatus()` with its zero values when there is none. -/
def vmStatus (vm : VirtualMachine) : VirtualMachineStatus :=
  match vm.status with
  | none =>
    { state := VirtualMachineState.VIRTUAL_MACHINE_STATE_UNSPECIFIED, hub := "", conditions := [] }
  | some status => status

/-- Function `task.setConditionDefaults`, on the status, which is present when it is
called. -/
def setConditionDefaults (status : VirtualMachineStatus) (value : Int) : VirtualMachineStatus :=
  let exists_ := status.conditions.any fun current => current.type = value
  if exists_ = false then
    { status with
      conditions :=
        status.conditions ++
          [{ type := value, status := ConditionStatus.CONDITION_STATUS_FALSE, message := ""
             lastTransitionTime := none }] }
  else status

/-- Function `task.setDefaults`. The loop over the table visits the numbers in the order of
the list. -/
def setDefaults (conditionTypeName : List (Int × String)) (vm : VirtualMachine) :
    VirtualMachine :=
  let status0 := vmStatus vm
  let status1 : VirtualMachineStatus :=
    if status0.state = VirtualMachineState.VIRTUAL_MACHINE_STATE_UNSPECIFIED then
      { status0 with state := VirtualMachineState.VIRTUAL_MACHINE_STATE_PROGRESSING }
    else status0
  let status2 :=
    conditionTypeName.foldl
      (fun status entry => if entry.1 ≠ 0 then setConditionDefaults status entry.1 else status)
      status1
  { vm with status := some status2 }

/-- Function `task.selectHub`. -/
def Task.selectHub {W : Type} (t : Task) (r : ReconcilerFunction W) (w : W) :
    Option Error × Task × W :=
  let t1 := { t with hubId := (vmStatus t.vm).hub }
  let chosen : Option Error × Task × W :=
    if t1.hubId = "" then
      match r.hubsList w with
      | (Except.error err, w1) => (some err, t1, w1)
      | (Except.ok items, w1) =>
        if items.length = 0 then (some "there are no hubs", t1, w1)
        else
          let (index, w2) := r.randIntN items.length w1
          (none, { t1 with hubId := items.getD index "" }, w2)
    else (none, t1, w)
  match chosen with
  | (some err, t2, w2) => (some err, t2, w2)
  | (none, t2, w2) =>
    match r.hubCacheGet t2.hubId w2 with
    | (Except.error err, w3) => (some err, t2, w3)
    | (Except.ok hubEntry, w3) =>
      (none, { t2 with hubNamespace := hubEntry.ns, hubClient := hubEntry.client }, w3)

/-- Function `task.getHub`. -/
def Task.getHub {W : Type} (t : Task) (r : ReconcilerFunction W) (w : W) :
    Option Error × Task × W :=
  let t1 := { t with hubId := (vmStatus t.vm).hub }
  match r.hubCacheGet t1.hubId w with
  | (Except.error err, w1) => (some err, t1, w1)
  | (Except.ok hubEntry, w1) =>
    (none, { t1 with hubNamespace := hubEntry.ns, hubClient := hubEntry.client }, w1)

/-- Function `task.getKubeObject`. -/
def Task.getKubeObject {W : Type} (t : Task) (r : ReconcilerFunction W) (w : W) :
    Except Error (Option KubeObject) × W :=
  match r.kubeList t.hubClient t.hubNamespace t.vm.id w with
  | (Except.error err, w1) => (Except.error err, w1)
  | (Except.ok items, w1) =>
    let count := items.length
    if count > 1 then
      (Except.error
        ("expected at most one virtual machine with identifier '" ++ t.vm.id ++
          "' but found " ++ toString count), w1)
    else (Except.ok items.head?, w1)

/-- Function `task.update`. -/
def Task.update {W : Type} (t : Task) (r : ReconcilerFunction W) (w : W) :
    Option Error × Task × W :=
  let t0 := { t with vm := setDefaults r.conditionTypeName t.vm }
  if (vmStatus t0.vm).state ≠ VirtualMachineState.VIRTUAL_MACHINE_STATE_PROGRESSING then
    (none, t0, w)
  else
    match t0.selectHub r w with
    | (some err, t1, w1) => (some err, t1, w1)
    | (none, t1, w1) =>
      let t2 :=
        { t1 with vm := { t1.vm with status := some { vmStatus t1.vm with hub := t1.hubId } } }
      match t2.getKubeObject r w1 with
      | (Except.error err, w2) => (some err, t2, w2)
      | (Except.ok object, w2) =>
        let parameters := match t2.vm.spec with
          | none => []
          | some spec => spec.templateParameters
        let template := match t2.vm.spec with
          | none => ""
          | some spec => spec.template
        match r.convertTemplateParametersToJSON parameters with
        | Except.error err => (some err, t2, w2)
        | Except.ok templateParameters =>
          let spec := (template, templateParameters)
          match object with
          | none =>
            let created : KubeObject :=
              { kind := r.virtualMachineKind, ns := t2.hubNamespace, name := ""
                generateName := objectPrefix
                labels := [(r.virtualMachineUuid, t2.vm.id)], spec := some spec }
            let (err, w3) := r.kubeCreate t2.hubClient created w2
            (err, t2, w3)
          | some existing =>
            let update := { existing with spec := some spec }
            let (err, w3) := r.kubePatch t2.hubClient update existing w2
            (err, t2, w3)

/-- Function `task.delete`. -/
def Task.delete {W : Type} (t : Task) (r : ReconcilerFunction W) (w : W) :
    Option Error × Task × W :=
  let t0 := { t with hubId := (vmStatus t.vm).hub }
  if t0.hubId = "" then (none, t0, w)
  else
    match t0.getHub r w with
    | (some err, t1, w1) => (some err, t1, w1)
    | (none, t1, w1) =>
      match t1.getKubeObject r w1 with
      | (Except.error err, w2) => (some err, t1, w2)
      | (Except.ok none, w2) => (none, t1, w2)
      | (Except.ok (some object), w2) =>
        let (err, w3) := r.kubeDelete t1.hubClient object w2
        (err, t1, w3)

/-- Function `function.run`: the error, the virtual machine as the call leaves it, and the
state of the world. -/
def ReconcilerFunction.run {W : Type} (r : ReconcilerFunction W) (vm : VirtualMachine) (w : W) :
    Option Error × VirtualMachine × W :=
  let t : Task := { vm := vm, hubId := "", hubNamespace := "", hubClient := 0 }
  let done :=
    if hasDeletionTimestamp vm.metadata = true then t.delete r w else t.update r w
  match done with
  | (some err, t1, w1) => (some err, t1.vm, w1)
  | (none, t1, w1) =>
    let (err, w2) := r.vmsUpdate t1.vm w1
    (err, t1.vm, w2)

/-- The calls that the demonstration reconciler writes in its journal. -/
inductive DemoCall where
  | vmsUpdate (vm : VirtualMachine)
  | hubsList
  | hubCacheGet (id : String)
  | kubeList (client : Nat)
  | kubeCreate (client : Nat)
  | kubePatch (client : Nat)
  | kubeDelete (client : Nat)
deriving DecidableEq, Repr

/-- A reconciler with three condition types, one hub and no objects in it, whose world is
the journal of the calls. -/
def demoReconciler : ReconcilerFunction (List DemoCall) :=
  { conditionTypeName :=
      [(2, "VIRTUAL_MACHINE_CONDITION_TYPE_READY"),
        (0, "VIRTUAL_MACHINE_CONDITION_TYPE_UNSPECIFIED"),
        (1, "VIRTUAL_MACHINE_CONDITION_TYPE_PROGRESSING")]
    virtualMachineKind := "VirtualMachine"
    virtualMachineUuid := "virtualmachine-uuid"
    vmsUpdate := fun vm w => (none, w ++ [DemoCall.vmsUpdate vm])
    hubsList := fun w => (Except.ok ["hub-1"], w ++ [DemoCall.hubsList])
    randIntN := fun _ w => (0, w)
    hubCacheGet := fun id w =>
      (Except.ok { ns := "vms", client := 7 }, w ++ [DemoCall.hubCacheGet id])
    kubeList := fun client _ _ w => (Except.ok [], w ++ [DemoCall.kubeList client])
    kubeCreate := fun client _ w => (none, w ++ [DemoCall.kubeCreate client])
    kubePatch := fun client _ _ w => (none, w ++ [DemoCall.kubePatch client])
    kubeDelete := fun client _ w => (none, w ++ [DemoCall.kubeDelete client])
    convertTemplateParametersToJSON := fun _ => Except.ok "\x7b\x7d" }

/-- A virtual machine in the state `FAILED`, with one condition and no hub. -/
def demoFailedVirtualMachine : VirtualMachine :=
  { id := "vm-2", metadata := none, spec := some demoVirtualMachineSpec
    status :=
      some
        { state := VirtualMachineState.VIRTUAL_MACHINE_STATE_FAILED, hub := ""
          conditions :=
            [{ type := 1, status := ConditionStatus.CONDITION_STATUS_TRUE, message := "sent"
               lastTransitionTime := some 3 }] } }

/-- A virtual machine without status. -/
def demoNewVirtualMachine : VirtualMachine :=
  { id := "vm-3", metadata := none, spec := some demoVirtualMachineSpec, status := none }

/-- The task of `run` for the virtual machine without status. -/
def demoTask : Task :=
  { vm := demoNewVirtualMachine, hubId := "", hubNamespace := "", hubClient := 0 }

/-- A hub for the demonstration: the objects that it holds and the journal of the calls. -/
structure DemoHub where
  objects : List KubeObject
  calls : List DemoCall
deriving DecidableEq, Repr

/-- A reconciler over a hub that keeps the objects that are created in it: the listing
returns the objects of the namespace with the label of the virtual machine, and a patch
replaces the object of the same name. -/
def demoHubReconciler : ReconcilerFunction DemoHub :=
  { conditionTypeName :=
      [(2, "VIRTUAL_MACHINE_CONDITION_TYPE_READY"),
        (0, "VIRTUAL_MACHINE_CONDITION_TYPE_UNSPECIFIED"),
        (1, "VIRTUAL_MACHINE_CONDITION_TYPE_PROGRESSING")]
    virtualMachineKind := "VirtualMachine"
    virtualMachineUuid := "virtualmachine-uuid"
    vmsUpdate := fun vm w => (none, { w with calls := w.calls ++ [DemoCall.vmsUpdate vm] })
    hubsList := fun w => (Except.ok ["hub-1"], { w with calls := w.calls ++ [DemoCall.hubsList] })
    randIntN := fun _ w => (0, w)
    hubCacheGet := fun id w =>
      (Except.ok { ns := "vms", client := 7 },
        { w with calls := w.calls ++ [DemoCall.hubCacheGet id] })
    kubeList := fun client ns id w =>
      (Except.ok
        (w.objects.filter fun object =>
          decide (object.ns = ns) && decide (("virtualmachine-uuid", id) ∈ object.labels)),
        { w with calls := w.calls ++ [DemoCall.kubeList client] })
    kubeCreate := fun client object w =>
      (none,
        { objects := w.objects ++ [{ object with name := object.generateName ++ "1" }]
          calls := w.calls ++ [DemoCall.kubeCreate client] })
    kubePatch := fun client update _ w =>
      (none,
        { objects := w.objects.map fun object =>
            if object.name = update.name then update else object
          calls := w.calls ++ [DemoCall.kubePatch client] })
    kubeDelete := fun client object w =>
      (none,
        { objects := w.objects.filter fun other => decide (other.name ≠ object.name)
          calls := w.calls ++ [DemoCall.kubeDelete client] })
    convertTemplateParametersToJSON := fun _ => Except.ok "\x7b\x7d" }

/-- The first reconciliation of the virtual machine without status, on the empty hub. -/
def demoFirstRun : Option Error × VirtualMachine × DemoHub :=
  demoHubReconciler.run demoNewVirtualMachine { objects := [], calls := [] }

/-- The second reconciliation, of the virtual machine that the first one stored, on the hub
as the first one left it. -/
def demoSecondRun : Option Error × VirtualMachine × DemoHub :=
  demoHubReconciler.run demoFirstRun.2.1 demoFirstRun.2.2

/-- The task of the second reconciliation. -/
def demoSecondTask : Task :=
  { vm := demoFirstRun.2.1, hubId := "", hubNamespace := "", hubClient := 0 }

/-- The task `demoTask` after the selection of the hub on the empty hub. -/
def demoSelected : Option Error × Task × DemoHub :=
  ({ demoTask with vm := setDefaults demoHubReconciler.conditionTypeName demoTask.vm } :
    Task).selectHub demoHubReconciler { objects := [], calls := [] }

/-- The task `demoSecondTask` after the selection of the hub. -/
def demoSecondSelected : Option Error × Task × DemoHub :=
  ({ demoSecondTask with
      vm := setDefaults demoHubReconciler.conditionTypeName demoSecondTask.vm } :
    Task).selectHub demoHubReconciler demoFirstRun.2.2

/-- A tenancy logic for the tenant `other`. -/
def demoOtherTenancyLogic : TenancyLogic :=
  { determineAssignedTenants := fun _ => Except.ok (some ["other"])
    determineVisibleTenants := fun _ => Except.ok (some ["other"]) }

/-- The DAO `demoNotifyingDAO` for a caller of the tenant `other`. -/
def demoOtherDAO : GenericDAO 1 :=
  { demoNotifyingDAO with tenancyLogic := demoOtherTenancyLogic }

/-- An object with the identifier of the row `a`, another payload and a finalizer. -/
def demoForeignObject : Object 1 :=
  { id := "a"
    metadata := some { creationTimestamp := none, deletionTimestamp := none,
                       finalizers := ["grab"], creators := [], tenants := [] }
    payload := ⟨[some "huge"], rfl⟩ }

/-- The private clusters server `demoClustersServer` with a validation that refuses the
template parameters. -/
def demoStrictClustersServer : PrivateClustersServer (List String) :=
  { demoClustersServer with
    validateClusterTemplateParameters := fun _ _ =>
      some { code := Code.InvalidArgument, message := "parameters are not valid" } }

/-! ## Operator: the virtual machine object of the hub -/

/-- Type `metav1.Condition`, with the fields that this code reads and writes. The status is
a `metav1.ConditionStatus`, a string. -/
structure MetaCondition where
  type : String
  status : String
  lastTransitionTime : Time
  reason : String
  message : String
deriving DecidableEq, Repr

/-- Constant `metav1.ConditionTrue`. -/
def conditionTrue : String := "True"

/-- Constant `metav1.ConditionFalse`. -/
def conditionFalse : String := "False"

/-- Constant `metav1.ConditionUnknown`. -/
def conditionUnknown : String := "Unknown"

/-- Constant `v1alpha1.VirtualMachineConditionAccepted`. -/
def virtualMachineConditionAccepted : String := "Accepted"

/-- Constant `v1alpha1.VirtualMachineConditionProgressing`. -/
def virtualMachineConditionProgressing : String := "Progressing"

/-- Constant `v1alpha1.VirtualMachineConditionAvailable`. -/
def virtualMachineConditionAvailable : String := "Available"

/-- Constant `v1alpha1.VirtualMachineConditionDeleting`. -/
def virtualMachineConditionDeleting : String := "Deleting"

/-- Constant `v1alpha1.VirtualMachinePhaseProgressing`. -/
def virtualMachinePhaseProgressing : String := "Progressing"

/-- Constant `v1alpha1.VirtualMachinePhaseFailed`. -/
def virtualMachinePhaseFailed : String := "Failed"

/-- Constant `v1alpha1.VirtualMachinePhaseReady`. -/
def virtualMachinePhaseReady : String := "Ready"

/-- Constant `v1alpha1.VirtualMachinePhaseDeleting`. -/
def virtualMachinePhaseDeleting : String := "Deleting"

/-- Constant `v1alpha1.ReasonInitialized`. -/
def reasonInitialized : String := "Initialized"

/-- Constant `v1alpha1.ReasonAsExpected`. -/
def reasonAsExpected : String := "AsExpected"

/-- Type `v1alpha1.VirtualMachineSpec`. -/
structure V1alpha1.VirtualMachineSpec where
  templateID : String
  templateParameters : String
deriving DecidableEq, Repr

/-- Type `v1alpha1.VirtualMachineReferenceType`. -/
structure V1alpha1.VirtualMachineReferenceType where
  ns : String
  kubeVirtVirtalMachineName : String
  serviceAccountName : String
  roleBindingName : String
deriving DecidableEq, Repr

/-- Type `v1alpha1.VirtualMachineStatus`. The conditions are a slice that may be nil and the
reference is a pointer that may be nil. -/
structure V1alpha1.VirtualMachineStatus where
  phase : String
  conditions : Option (List MetaCondition)
  virtualMachineReference : Option V1alpha1.VirtualMachineReferenceType
deriving DecidableEq, Repr

/-- Type `v1alpha1.VirtualMachine`, with the parts of the object metadata that this code
reads and writes. -/
structure V1alpha1.VirtualMachine where
  name : String
  ns : String
  labels : List (String × String)
  annotations : List (String × String)
  finalizers : List String
  deletionTimestamp : Option Time
  spec : V1alpha1.VirtualMachineSpec
  status : V1alpha1.VirtualMachineStatus
deriving DecidableEq, Repr

/-- Function `DeletionTimestamp.IsZero`: the timestamp is not set. A timestamp that is set
is a moment after the zero time. -/
def V1alpha1.VirtualMachine.deletionTimestampIsZero (vm : V1alpha1.VirtualMachine) : Bool :=
  vm.deletionTimestamp.isNone

/-- The loop of `SetStatusCondition`: the first condition of the type is replaced, and the
result tells whether one was found. -/
def replaceCondition (condition : MetaCondition) : List MetaCondition → List MetaCondition × Bool
  | [] => ([], false)
  | existing :: rest =>
    if existing.type = condition.type then (condition :: rest, true)
    else ((replaceCondition condition rest).1.cons existing, (replaceCondition condition rest).2)

/-- Function `VirtualMachine.SetStatusCondition`, given what `metav1.Now` returns. -/
def V1alpha1.VirtualMachine.setStatusCondition (vm : V1alpha1.VirtualMachine)
    (conditionType status reason message : String) (now : Time) : V1alpha1.VirtualMachine :=
  let condition : MetaCondition :=
    { type := conditionType, status := status, lastTransitionTime := now, reason := reason
      message := message }
  let conditions := sliceItems vm.status.conditions
  let replaced := replaceCondition condition conditions
  if replaced.2 = false then
    { vm with status := { vm.status with conditions := some (conditions ++ [condition]) } }
  else
    { vm with status := { vm.status with conditions := some replaced.1 } }

/-- Function `VirtualMachine.GetStatusCondition`. -/
def V1alpha1.VirtualMachine.getStatusCondition (vm : V1alpha1.VirtualMachine)
    (conditionType : String) : Option MetaCondition :=
  match vm.status.conditions with
  | none => none
  | some conditions => conditions.find? fun condition => condition.type = conditionType

/-- Function `VirtualMachine.SetVirtualMachineReferenceKubeVirtVirtalMachineName`. -/
def V1alpha1.VirtualMachine.setVirtualMachineReferenceKubeVirtVirtalMachineName
    (vm : V1alpha1.VirtualMachine) (name : String) : V1alpha1.VirtualMachine :=
  let reference : V1alpha1.VirtualMachineReferenceType :=
    match vm.status.virtualMachineReference with
    | none =>
      { ns := "", kubeVirtVirtalMachineName := "", serviceAccountName := ""
        roleBindingName := "" }
    | some reference => reference
  { vm with
    status :=
      { vm.status with
        virtualMachineReference := some { reference with kubeVirtVirtalMachineName := name } } }

/-- Type `ctrl.Result`, with the delay in nanoseconds. -/
structure Result where
  requeue : Bool
  requeueAfter : Int
deriving DecidableEq, Repr

/-- What `Client.Get` finds: the object, nothing (an error that `IgnoreNotFound` drops), or
another error. -/
inductive Fetched (α : Type) where
  | found (object : α)
  | notFound
  | failed (err : Error)
deriving DecidableEq, Repr

/-! ## Operator: feedback reconciler of virtual machines -/

/-- Type `VirtualMachineFeedbackReconciler`, over the state `W` of the world behind its
clients. The clients, `timestamppb.Now`, the label `cloudkitVirtualMachineIDLabel` and the
numbers of the condition types `PROGRESSING` and `READY` are declared outside of this code
and are taken as they come. -/
structure VirtualMachineFeedbackReconciler (W : Type) where
  hubGet : String → W → Fetched V1alpha1.VirtualMachine × W
  virtualMachinesGet : String → W → Except Error VirtualMachine × W
  virtualMachinesUpdate : VirtualMachine → W → Option Error × W
  now : W → Time × W
  cloudkitVirtualMachineIDLabel : String
  conditionTypeProgressing : Int
  conditionTypeReady : Int

/-- Function `findVirtualMachineCondition`: the position of the first condition of the
kind, which is added at the end with the status `FALSE` when there is none. -/
def findVirtualMachineCondition (status : VirtualMachineStatus) (kind : Int) :
    Nat × VirtualMachineStatus :=
  match status.conditions.findIdx? fun current => current.type = kind with
  | some index => (index, status)
  | none =>
    (status.conditions.length,
      { status with
        conditions :=
          status.conditions ++
            [{ type := kind, status := ConditionStatus.CONDITION_STATUS_FALSE, message := ""
               lastTransitionTime := none }] })

/-- Function `mapConditionStatus`. -/
def mapConditionStatus (status : String) : ConditionStatus :=
  if status = conditionFalse then ConditionStatus.CONDITION_STATUS_FALSE
  else if status = conditionTrue then ConditionStatus.CONDITION_STATUS_TRUE
  else ConditionStatus.CONDITION_STATUS_UNSPECIFIED

/-- The body that the four functions `syncCondition...` share: the condition of the kind
gets the mapped status and the message, and the time of `timestamppb.Now` when the status
changes. -/
def syncConditionOnto {W : Type} (r : VirtualMachineFeedbackReconciler W) (kind : Int)
    (condition : MetaCondition) (status : VirtualMachineStatus) (w : W) :
    VirtualMachineStatus × W :=
  let found := findVirtualMachineCondition status kind
  let index := found.1
  let status := found.2
  let oldStatus :=
    match status.conditions.get? index with
    | none => ConditionStatus.CONDITION_STATUS_UNSPECIFIED
    | some vmCondition => vmCondition.status
  let newStatus := mapConditionStatus condition.status
  let status : VirtualMachineStatus :=
    { status with
      conditions :=
        status.conditions.modify
          (fun vmCondition =>
            { vmCondition with status := newStatus, message := condition.message })
          index }
  if newStatus ≠ oldStatus then
    let (now, w1) := r.now w
    ({ status with
        conditions :=
          status.conditions.modify
            (fun vmCondition => { vmCondition with lastTransitionTime := some now }) index },
      w1)
  else (status, w)

/-- Function `syncConditionAccepted`. -/
def syncConditionAccepted {W : Type} (r : VirtualMachineFeedbackReconciler W)
    (condition : MetaCondition) (status : VirtualMachineStatus) (w : W) :
    VirtualMachineStatus × W :=
  syncConditionOnto r r.conditionTypeProgressing condition status w

/-- Function `syncConditionProgressing`. -/
def syncConditionProgressing {W : Type} (r : VirtualMachineFeedbackReconciler W)
    (condition : MetaCondition) (status : VirtualMachineStatus) (w : W) :
    VirtualMachineStatus × W :=
  syncConditionOnto r r.conditionTypeProgressing condition status w

/-- Function `syncConditionAvailable`. -/
def syncConditionAvailable {W : Type} (r : VirtualMachineFeedbackReconciler W)
    (condition : MetaCondition) (status : VirtualMachineStatus) (w : W) :
    VirtualMachineStatus × W :=
  syncConditionOnto r r.conditionTypeReady condition status w

/-- Function `syncConditionDeleting`. -/
def syncConditionDeleting {W : Type} (r : VirtualMachineFeedbackReconciler W)
    (condition : MetaCondition) (status : VirtualMachineStatus) (w : W) :
    VirtualMachineStatus × W :=
  syncConditionOnto r r.conditionTypeProgressing condition status w

/-- Function `syncCondition`: a condition of another type is left out. It returns no
error. -/
def syncCondition {W : Type} (r : VirtualMachineFeedbackReconciler W)
    (condition : MetaCondition) (status : VirtualMachineStatus) (w : W) :
    VirtualMachineStatus × W :=
  if condition.type = virtualMachineConditionAccepted then
    syncConditionAccepted r condition status w
  else if condition.type = virtualMachineConditionProgressing then
    syncConditionProgressing r condition status w
  else if condition.type = virtualMachineConditionAvailable then
    syncConditionAvailable r condition status w
  else if condition.type = virtualMachineConditionDeleting then
    syncConditionDeleting r condition status w
  else (status, w)

/-- Function `syncConditions`: the conditions of the object of the hub, in their order. -/
def syncConditions {W : Type} (r : VirtualMachineFeedbackReconciler W) :
    List MetaCondition → VirtualMachineStatus → W → VirtualMachineStatus × W
  | [], status, w => (status, w)
  | condition :: rest, status, w =>
    let synced := syncCondition r condition status w
    syncConditions r rest synced.1 synced.2

/-- Function `syncPhase`. It returns no error. -/
def syncPhase (phase : String) (status : VirtualMachineStatus) : VirtualMachineStatus :=
  if phase = virtualMachinePhaseProgressing then
    { status with state := VirtualMachineState.VIRTUAL_MACHINE_STATE_PROGRESSING }
  else if phase = virtualMachinePhaseFailed then
    { status with state := VirtualMachineState.VIRTUAL_MACHINE_STATE_FAILED }
  else if phase = virtualMachinePhaseReady then
    { status with state := VirtualMachineState.VIRTUAL_MACHINE_STATE_READY }
  else status

/-- Function `virtualMachineFeedbackReconcilerTask.handleUpdate`, on the status of the
virtual machine of the task, which `fetchVirtualMachine` has made present: the status as
the task leaves it. The result is the zero `ctrl.Result` and there is no error. -/
def feedbackHandleUpdate {W : Type} (r : VirtualMachineFeedbackReconciler W)
    (object : V1alpha1.VirtualMachine) (status : VirtualMachineStatus) (w : W) :
    VirtualMachineStatus × W :=
  let synced := syncConditions r (sliceItems object.status.conditions) status w
  (syncPhase object.status.phase synced.1, synced.2)

/-- Function `fetchVirtualMachine`. -/
def VirtualMachineFeedbackReconciler.fetchVirtualMachine {W : Type}
    (r : VirtualMachineFeedbackReconciler W) (id : String) (w : W) :
    Except Error VirtualMachine × W :=
  match r.virtualMachinesGet id w with
  | (Except.error err, w1) => (Except.error err, w1)
  | (Except.ok vm, w1) =>
    let spec : VirtualMachineSpec :=
      match vm.spec with
      | none => { template := "", templateParameters := [] }
      | some spec => spec
    (Except.ok { vm with spec := some spec, status := some (vmStatus vm) }, w1)

/-- Function `saveVirtualMachine`, with `equal` as the equality of the two messages. -/
def VirtualMachineFeedbackReconciler.saveVirtualMachine {W : Type}
    (r : VirtualMachineFeedbackReconciler W) (before after : VirtualMachine) (w : W) :
    Option Error × W :=
  if after ≠ before then r.virtualMachinesUpdate after w
  else (none, w)

/-- Function `VirtualMachineFeedbackReconciler.Reconcile`, with `clone` as the copy of the
message: the error and the state of the world. The result is the zero `ctrl.Result` on
every path. -/
def VirtualMachineFeedbackReconciler.reconcile {W : Type}
    (r : VirtualMachineFeedbackReconciler W) (request : String) (w : W) : Option Error × W :=
  match r.hubGet request w with
  | (Fetched.failed err, w1) => (some err, w1)
  | (Fetched.notFound, w1) => (none, w1)
  | (Fetched.found object, w1) =>
    match mapGet object.labels r.cloudkitVirtualMachineIDLabel with
    | none => (none, w1)
    | some vmID =>
      if object.deletionTimestampIsZero = false then (none, w1)
      else
        match r.fetchVirtualMachine vmID w1 with
        | (Except.error err, w2) => (some err, w2)
        | (Except.ok vm, w2) =>
          let handled := feedbackHandleUpdate r object (vmStatus vm) w2
          let after : VirtualMachine := { vm with status := some handled.1 }
          r.saveVirtualMachine vm after handled.2

/-- The world of the demonstration of the feedback reconciler: the object of the hub, the
virtual machine that the fulfillment service stores, the clock and the journal of the
updates. -/
structure DemoFeedbackWorld where
  object : V1alpha1.VirtualMachine
  stored : VirtualMachine
  clock : Time
  updates : List VirtualMachine
deriving DecidableEq, Repr

/-- A feedback reconciler over `DemoFeedbackWorld`: `Update` stores the virtual machine, and
the clock advances by one second at every reading. -/
def demoFeedbackReconciler : VirtualMachineFeedbackReconciler DemoFeedbackWorld :=
  { hubGet := fun _ w => (Fetched.found w.object, w)
    virtualMachinesGet := fun _ w => (Except.ok w.stored, w)
    virtualMachinesUpdate := fun vm w =>
      (none, { w with stored := vm, updates := w.updates ++ [vm] })
    now := fun w => (w.clock, { w with clock := w.clock + 1 })
    cloudkitVirtualMachineIDLabel := "cloudkit.openshift.io/virtualmachine-uuid"
    conditionTypeProgressing := 1
    conditionTypeReady := 2 }

/-- The four conditions as `initializeStatusConditions` of the operator sets them, at the
time 100. -/
def demoInitialConditions : List MetaCondition :=
  [{ type := "Accepted", status := "True", lastTransitionTime := 100, reason := "Initialized"
     message := "" },
   { type := "Deleting", status := "False", lastTransitionTime := 100, reason := "Initialized"
     message := "" },
   { type := "Progressing", status := "True", lastTransitionTime := 100
     reason := "Initialized", message := "" },
   { type := "Available", status := "False", lastTransitionTime := 100
     reason := "Initialized", message := "" }]

/-- An object of the hub for the virtual machine `vm-3`, in the phase `Progressing`, with
the four conditions. -/
def demoHubObject : V1alpha1.VirtualMachine :=
  { name := "vm-abc", ns := "vms"
    labels := [("cloudkit.openshift.io/virtualmachine-uuid", "vm-3")], annotations := []
    finalizers := [], deletionTimestamp := none
    spec := { templateID := "vt0", templateParameters := "" }
    status :=
      { phase := "Progressing", conditions := some demoInitialConditions
        virtualMachineReference := none } }

/-- The world before the first run: the stored virtual machine has no status yet. -/
def demoFeedbackWorld : DemoFeedbackWorld :=
  { object := demoHubObject, stored := demoNewVirtualMachine, clock := 200, updates := [] }

/-- A status without conditions. -/
def demoEmptyStatus : VirtualMachineStatus :=
  { state := VirtualMachineState.VIRTUAL_MACHINE_STATE_UNSPECIFIED, hub := "", conditions := [] }

/-- Conditions of the hub in another order: `Progressing` and `Available` first, then
`Deleting`. -/
def demoReorderedConditions : List MetaCondition :=
  [{ type := "Progressing", status := "True", lastTransitionTime := 100
     reason := "Progressing", message := "provisioning" },
   { type := "Available", status := "True", lastTransitionTime := 100
     reason := "AsExpected", message := "ready" },
   { type := "Deleting", status := "False", lastTransitionTime := 100
     reason := "Initialized", message := "not deleting" }]

/-! ## Operator: webhook of the cluster orders -/

/-- Type `InflightRequest`. Moments (`time.Time`) and durations (`time.Duration`) of the
operator are numbers of nanoseconds. -/
structure InflightRequest where
  createTime : Int
deriving DecidableEq, Repr

/-- Type `cloudkitv1alpha1.ClusterOrder`, which is declared outside of this code: the name
and the rest of the object. -/
structure ClusterOrder where
  name : String
  content : String
deriving DecidableEq, Repr

/-- A request of `net/http`: the method, the address, the body and the content type. -/
structure HttpRequest where
  method : String
  url : String
  body : String
  contentType : String
deriving DecidableEq, Repr

/-- What the webhook functions use from outside, over the state `W` of the world: the clock
(`time.Now`, `time.Since`), `json.Marshal`, `http.NewRequest` and `Client.Do`, which gives
the status code of the response. -/
structure WebhookEnv (W : Type) where
  now : W → Int × W
  marshal : ClusterOrder → Except Error String
  newRequest : String → String → String → Except Error HttpRequest
  doRequest : HttpRequest → W → Except Error Int × W

/-- The variable `inflightRequests`, the requests that were handed to `Client.Do`, in
order, and the state of the world. -/
structure WebhookState (W : Type) where
  inflightRequests : List (String × InflightRequest)
  sent : List HttpRequest
  world : W
deriving DecidableEq, Repr

/-- The assignment `m[k] = v` of a Go map with string keys, given as the list of its
entries. -/
def mapSet {β : Type} (m : List (String × β)) (k : String) (v : β) : List (String × β) :=
  if (mapGet m k).isSome then m.map fun entry => if entry.1 = k then (k, v) else entry
  else m ++ [(k, v)]

/-- The statement `delete(m, k)` of a Go map with string keys. -/
def mapDelete {β : Type} (m : List (String × β)) (k : String) : List (String × β) :=
  m.filter fun entry => decide (entry.1 ≠ k)

/-- The first loop of `purgeExpiredRequests`: the names of the requests that are older than
the interval, each with its own reading of the clock. -/
def expiredRequests {W : Type} (env : WebhookEnv W) (minimumRequestInterval : Int) :
    List (String × InflightRequest) → W → List String × W
  | [], w => ([], w)
  | (clusterOrderName, request) :: rest, w =>
    let reading := env.now w
    let delta := reading.1 - request.createTime
    let others := expiredRequests env minimumRequestInterval rest reading.2
    (if delta > minimumRequestInterval then clusterOrderName :: others.1 else others.1,
      others.2)

/-- Function `purgeExpiredRequests`. -/
def purgeExpiredRequests {W : Type} (env : WebhookEnv W) (minimumRequestInterval : Int)
    (s : WebhookState W) : WebhookState W :=
  let expired := expiredRequests env minimumRequestInterval s.inflightRequests s.world
  { s with
    inflightRequests := expired.1.foldl mapDelete s.inflightRequests
    world := expired.2 }

/-- Function `checkForExistingRequest`. -/
def checkForExistingRequest {W : Type} (env : WebhookEnv W) (clusterOrderName : String)
    (minimumRequestInterval : Int) (s : WebhookState W) : Int × WebhookState W :=
  let checked : Int × W :=
    match mapGet s.inflightRequests clusterOrderName with
    | some request =>
      let reading := env.now s.world
      let delta := reading.1 - request.createTime
      (if delta ≥ minimumRequestInterval then 0 else delta, reading.2)
    | none => (0, s.world)
  (checked.1, purgeExpiredRequests env minimumRequestInterval { s with world := checked.2 })

/-- Function `addInflightRequest`. -/
def addInflightRequest {W : Type} (env : WebhookEnv W) (clusterOrderName : String)
    (minimumRequestInterval : Int) (s : WebhookState W) : WebhookState W :=
  let reading := env.now s.world
  purgeExpiredRequests env minimumRequestInterval
    { s with
      inflightRequests := mapSet s.inflightRequests clusterOrderName { createTime := reading.1 }
      world := reading.2 }

/-- Function `triggerWebHook`: the duration and the error that it returns, and the state
after the call. -/
def triggerWebHook {W : Type} (env : WebhookEnv W) (url : String) (order : ClusterOrder)
    (minimumRequestInterval : Int) (s : WebhookState W) :
    (Int × Option Error) × WebhookState W :=
  let checked := checkForExistingRequest env order.name minimumRequestInterval s
  let delta := checked.1
  let s1 := checked.2
  if delta ≠ 0 then ((delta, none), s1)
  else
    match env.marshal order with
    | Except.error err => ((0, some ("failed to marshal JSON: " ++ err)), s1)
    | Except.ok jsonData =>
      match env.newRequest "POST" url jsonData with
      | Except.error err => ((0, some ("failed to create request: " ++ err)), s1)
      | Except.ok created =>
        let req := { created with contentType := "application/json" }
        match env.doRequest req s1.world with
        | (Except.error err, w1) =>
          ((0, some ("failed to send request: " ++ err)),
            { s1 with sent := s1.sent ++ [req], world := w1 })
        | (Except.ok statusCode, w1) =>
          if statusCode < 200 ∨ statusCode ≥ 300 then
            ((0, some ("received non-success status code: " ++ toString statusCode)),
              { s1 with sent := s1.sent ++ [req], world := w1 })
          else
            ((0, none),
              addInflightRequest env order.name minimumRequestInterval
                { s1 with sent := s1.sent ++ [req], world := w1 })

/-- An environment whose world is the reading of the clock, which stands still, and whose
requests are answered with the status code 200. -/
def demoWebhookEnv : WebhookEnv Int :=
  { now := fun w => (w, w)
    marshal := fun order => Except.ok order.content
    newRequest := fun method url body =>
      Except.ok { method := method, url := url, body := body, contentType := "" }
    doRequest := fun _ w => (Except.ok 200, w) }

/-- A cluster order. -/
def demoClusterOrder : ClusterOrder :=
  { name := "order-1", content := "\x7b\"name\":\"order-1\"\x7d" }

/-- The state three seconds after a request for `order-1` was made at the moment 0. -/
def demoWebhookState : WebhookState Int :=
  { inflightRequests := [("order-1", { createTime := 0 })], sent := [], world := 3000000000 }

/-- The state at the very moment 0 at which a request for `order-1` was made. -/
def demoWebhookStateAtOnce : WebhookState Int :=
  { inflightRequests := [("order-1", { createTime := 0 })], sent := [], world := 0 }

/-! ## Operator: reconciler of virtual machines -/

/-- Type `kubevirtv1.VirtualMachine`, which is declared outside of this code: the name and
the conditions, each a type and a status. -/
structure KubeVirtVirtualMachine where
  name : String
  conditions : List (String × String)
deriving DecidableEq, Repr

/-- What a handler of the reconciler leaves when it returns: the result, the error, the
instance, which it changes in place, and the state of the world. -/
structure Handled (W : Type) where
  result : Result
  err : Option Error
  object : V1alpha1.VirtualMachine
  world : W
deriving DecidableEq, Repr

/-- Type `VirtualMachineReconciler`, over the state `W` of the world behind its clients.
The client (`Get`, `Update`, which leaves the instance as the server answers it, `List` of
the namespaces and of the KubeVirt virtual machines of the instance, `Status().Update`),
the component `newNamespace` with `controllerutil.CreateOrUpdate`,
`WebhookClient.TriggerWebhook`, `metav1.Now` and the names of the finalizer, of the
annotation of the management state and of its values are declared outside of this code and
are taken as they come. -/
structure VirtualMachineReconciler (W : Type) where
  createVMWebhook : String
  deleteVMWebhook : String
  virtualMachineNamespace : String
  clientGet : String → W → Fetched V1alpha1.VirtualMachine × W
  clientUpdate : V1alpha1.VirtualMachine → W → Except Error V1alpha1.VirtualMachine × W
  statusUpdate : V1alpha1.VirtualMachine → W → Option Error × W
  listNamespaces : V1alpha1.VirtualMachine → W → Except Error (List String) × W
  listKubeVirtVMs :
    V1alpha1.VirtualMachine → String → W → Except Error (List KubeVirtVirtualMachine) × W
  newNamespace : V1alpha1.VirtualMachine → W → Except Error String × W
  createOrUpdate : String → W → Option Error × W
  triggerWebhook : String → V1alpha1.VirtualMachine → W → (Int × Option Error) × W
  now : W → Time × W
  cloudkitVirtualMachineFinalizer : String
  cloudkitVirtualMachineManagementStateAnnotation : String
  managementStateUnmanaged : String
  managementStateManual : String

/-- Function `initializeStatusCondition`. -/
def VirtualMachineReconciler.initializeStatusCondition {W : Type}
    (r : VirtualMachineReconciler W) (object : V1alpha1.VirtualMachine)
    (conditionType status reason : String) (w : W) : V1alpha1.VirtualMachine × W :=
  let object : V1alpha1.VirtualMachine :=
    match object.status.conditions with
    | none => { object with status := { object.status with conditions := some [] } }
    | some _ => object
  match object.getStatusCondition conditionType with
  | some _ => (object, w)
  | none =>
    let reading := r.now w
    (object.setStatusCondition conditionType status reason "" reading.1, reading.2)

/-- Function `initializeStatusConditions`. -/
def VirtualMachineReconciler.initializeStatusConditions {W : Type}
    (r : VirtualMachineReconciler W) (object : V1alpha1.VirtualMachine) (w : W) :
    V1alpha1.VirtualMachine × W :=
  let accepted :=
    r.initializeStatusCondition object virtualMachineConditionAccepted conditionTrue
      reasonInitialized w
  let deleting :=
    r.initializeStatusCondition accepted.1 virtualMachineConditionDeleting conditionFalse
      reasonInitialized accepted.2
  let progressing :=
    r.initializeStatusCondition deleting.1 virtualMachineConditionProgressing conditionTrue
      reasonInitialized deleting.2
  r.initializeStatusCondition progressing.1 virtualMachineConditionAvailable conditionFalse
    reasonInitialized progressing.2

/-- Function `findNamespace`: the name of the namespace, when there is one. -/
def VirtualMachineReconciler.findNamespace {W : Type} (r : VirtualMachineReconciler W)
    (object : V1alpha1.VirtualMachine) (w : W) : Except Error (Option String) × W :=
  match r.listNamespaces object w with
  | (Except.error err, w1) => (Except.error err, w1)
  | (Except.ok items, w1) =>
    if items.length > 1 then
      (Except.error
        ("found too many (" ++ toString items.length ++ ") matching namespaces for " ++
          object.name), w1)
    else if items.length = 0 then (Except.ok none, w1)
    else (Except.ok items.head?, w1)

/-- Function `findKubeVirtVMs`, as `handleUpdate` uses it: the error is dropped. -/
def VirtualMachineReconciler.findKubeVirtVMs {W : Type} (r : VirtualMachineReconciler W)
    (object : V1alpha1.VirtualMachine) (nsName : String) (w : W) :
    Option KubeVirtVirtualMachine × W :=
  match r.listKubeVirtVMs object nsName w with
  | (Except.error _, w1) => (none, w1)
  | (Except.ok items, w1) =>
    if items.length > 1 then (none, w1)
    else if items.length = 0 then (none, w1)
    else (items.head?, w1)

/-- Function `kvVMHasConditionWithStatus`, for a virtual machine that is not nil. -/
def kvVMHasConditionWithStatus (vm : KubeVirtVirtualMachine) (cond status : String) : Bool :=
  match vm.conditions.find? fun c => c.1 = cond with
  | none => false
  | some c => c.2 = status

/-- Function `handleKubeVirtVM`, with `kubevirtv1.VirtualMachineReady` and
`corev1.ConditionTrue` as the texts `Ready` and `True`. It returns no error. -/
def VirtualMachineReconciler.handleKubeVirtVM {W : Type} (r : VirtualMachineReconciler W)
    (object : V1alpha1.VirtualMachine) (kv : KubeVirtVirtualMachine) (w : W) :
    V1alpha1.VirtualMachine × W :=
  let object := object.setVirtualMachineReferenceKubeVirtVirtalMachineName kv.name
  let accepted := r.now w
  let object :=
    object.setStatusCondition virtualMachineConditionAccepted conditionTrue reasonAsExpected ""
      accepted.1
  if kvVMHasConditionWithStatus kv "Ready" "True" = true then
    let available := r.now accepted.2
    let object :=
      object.setStatusCondition virtualMachineConditionAvailable conditionTrue
        reasonAsExpected "" available.1
    ({ object with status := { object.status with phase := virtualMachinePhaseReady } },
      available.2)
  else (object, accepted.2)

/-- The end of `handleUpdate` and of `handleDelete`: the webhook is triggered unless there
is no address or the management state is manual. The error that is returned is nil on
every path. -/
def VirtualMachineReconciler.webhook {W : Type} (r : VirtualMachineReconciler W)
    (url : String) (object : V1alpha1.VirtualMachine) (w : W) : Result × W :=
  if url ≠ "" then
    if mapGet object.annotations r.cloudkitVirtualMachineManagementStateAnnotation =
        some r.managementStateManual then
      ({ requeue := false, requeueAfter := 0 }, w)
    else
      match r.triggerWebhook url object w with
      | ((_, some _), w1) => ({ requeue := true, requeueAfter := 0 }, w1)
      | ((remainingTime, none), w1) =>
        if remainingTime ≠ 0 then ({ requeue := false, requeueAfter := remainingTime }, w1)
        else ({ requeue := false, requeueAfter := 0 }, w1)
  else ({ requeue := false, requeueAfter := 0 }, w)

/-- Function `VirtualMachineReconciler.handleUpdate`. There is no result when the function
panics, which it does when it asks the namespace that was not found for its name. -/
def VirtualMachineReconciler.handleUpdate {W : Type} (r : VirtualMachineReconciler W)
    (object : V1alpha1.VirtualMachine) (w : W) : Option (Handled W) :=
  let initialized := r.initializeStatusConditions object w
  let object : V1alpha1.VirtualMachine :=
    { initialized.1 with
      status := { initialized.1.status with phase := virtualMachinePhaseProgressing } }
  let w := initialized.2
  let finalized : Except Error V1alpha1.VirtualMachine × W :=
    if r.cloudkitVirtualMachineFinalizer ∈ object.finalizers then (Except.ok object, w)
    else
      r.clientUpdate
        { object with finalizers := object.finalizers ++ [r.cloudkitVirtualMachineFinalizer] } w
  match finalized with
  | (Except.error err, w) => some ⟨{ requeue := false, requeueAfter := 0 }, some err, object, w⟩
  | (Except.ok object, w) =>
    match r.newNamespace object w with
    | (Except.error err, w) =>
      some ⟨{ requeue := false, requeueAfter := 0 }, some err, object, w⟩
    | (Except.ok resource, w) =>
      match r.createOrUpdate resource w with
      | (some err, w) => some ⟨{ requeue := false, requeueAfter := 0 }, some err, object, w⟩
      | (none, w) =>
        let accepted := r.now w
        let object :=
          object.setStatusCondition virtualMachineConditionAccepted conditionTrue
            reasonAsExpected "" accepted.1
        match r.findNamespace object accepted.2 with
        | (Except.error err, w) =>
          some ⟨{ requeue := false, requeueAfter := 0 }, some err, object, w⟩
        | (Except.ok none, _) => none
        | (Except.ok (some nsName), w) =>
          let found := r.findKubeVirtVMs object nsName w
          let handled : V1alpha1.VirtualMachine × W :=
            match found.1 with
            | none => (object, found.2)
            | some kv => r.handleKubeVirtVM object kv found.2
          if handled.1.status.phase = virtualMachinePhaseReady then
            some ⟨{ requeue := false, requeueAfter := 0 }, none, handled.1, handled.2⟩
          else
            let called := r.webhook r.createVMWebhook handled.1 handled.2
            some ⟨called.1, none, handled.1, called.2⟩

/-- Function `VirtualMachineReconciler.handleDelete`. -/
def VirtualMachineReconciler.handleDelete {W : Type} (r : VirtualMachineReconciler W)
    (object : V1alpha1.VirtualMachine) (w : W) : Option (Handled W) :=
  let object : V1alpha1.VirtualMachine :=
    { object with status := { object.status with phase := virtualMachinePhaseDeleting } }
  if r.cloudkitVirtualMachineFinalizer ∉ object.finalizers then
    some ⟨{ requeue := false, requeueAfter := 0 }, none, object, w⟩
  else
    match r.findNamespace object w with
    | (Except.error err, w) =>
      some ⟨{ requeue := false, requeueAfter := 0 }, some err, object, w⟩
    | (Except.ok (some _), w) =>
      let called := r.webhook r.deleteVMWebhook object w
      some ⟨called.1, none, object, called.2⟩
    | (Except.ok none, w) =>
      match
        r.clientUpdate
          { object with
            finalizers :=
              object.finalizers.filter fun f => decide (f ≠ r.cloudkitVirtualMachineFinalizer) }
          w with
      | (Except.error err, w) =>
        some ⟨{ requeue := false, requeueAfter := 0 }, some err, object, w⟩
      | (Except.ok object, w) => some ⟨{ requeue := false, requeueAfter := 0 }, none, object, w⟩

/-- An argument of `equality.Semantic.DeepEqual`, which takes values of any type: a status
or a pointer to a status. -/
inductive StatusArgument where
  | value (status : V1alpha1.VirtualMachineStatus)
  | pointer (status : V1alpha1.VirtualMachineStatus)
deriving DecidableEq, Repr

/-- Function `equality.Semantic.DeepEqual` of the library `apimachinery` on these
arguments: two values of different types are not equal, and two statuses are equal when
their fields are, a nil slice being equal to an empty one. -/
def semanticDeepEqual (a b : StatusArgument) : Bool :=
  match a, b with
  | StatusArgument.value x, StatusArgument.value y =>
    decide (x.phase = y.phase ∧ sliceItems x.conditions = sliceItems y.conditions ∧
      x.virtualMachineReference = y.virtualMachineReference)
  | StatusArgument.pointer x, StatusArgument.pointer y =>
    decide (x.phase = y.phase ∧ sliceItems x.conditions = sliceItems y.conditions ∧
      x.virtualMachineReference = y.virtualMachineReference)
  | _, _ => false

/-- Function `VirtualMachineReconciler.Reconcile`: the result, the error and the state of
the world, when the function returns. The copy `oldstatus` is a pointer to a status and
`instance.Status` is a status. -/
def VirtualMachineReconciler.reconcile {W : Type} (r : VirtualMachineReconciler W)
    (req : String) (w : W) : Option ((Result × Option Error) × W) :=
  match r.clientGet req w with
  | (Fetched.failed err, w1) => some (({ requeue := false, requeueAfter := 0 }, some err), w1)
  | (Fetched.notFound, w1) => some (({ requeue := false, requeueAfter := 0 }, none), w1)
  | (Fetched.found object, w1) =>
    if mapGet object.annotations r.cloudkitVirtualMachineManagementStateAnnotation =
        some r.managementStateUnmanaged then
      some (({ requeue := false, requeueAfter := 0 }, none), w1)
    else
      let oldstatus := StatusArgument.pointer object.status
      let handled :=
        if object.deletionTimestampIsZero = true then r.handleUpdate object w1
        else r.handleDelete object w1
      match handled with
      | none => none
      | some done =>
        match done.err with
        | some err => some ((done.result, some err), done.world)
        | none =>
          if semanticDeepEqual (StatusArgument.value done.object.status) oldstatus = false then
            match r.statusUpdate done.object done.world with
            | (some err, w2) => some ((done.result, some err), w2)
            | (none, w2) => some ((done.result, none), w2)
          else some ((done.result, none), done.world)

/-- The world of the demonstration of the reconciler of the operator: the object that the
client reads, the clock and the journal of the calls. -/
structure DemoOperatorWorld where
  object : V1alpha1.VirtualMachine
  clock : Time
  calls : List String
deriving DecidableEq, Repr

/-- A reconciler of the operator whose webhook client gives a fixed answer, with one
namespace and no KubeVirt virtual machine for the instance. -/
def demoVirtualMachineReconciler (answer : Int × Option Error) :
    VirtualMachineReconciler DemoOperatorWorld :=
  { createVMWebhook := "http://create"
    deleteVMWebhook := "http://delete"
    virtualMachineNamespace := "vms"
    clientGet := fun _ w => (Fetched.found w.object, w)
    clientUpdate := fun object w => (Except.ok object, { w with calls := w.calls ++ ["update"] })
    statusUpdate := fun object w =>
      (none, { w with object := object, calls := w.calls ++ ["status update"] })
    listNamespaces := fun _ w => (Except.ok ["vm-abc-ns"], w)
    listKubeVirtVMs := fun _ _ w => (Except.ok [], w)
    newNamespace := fun _ w => (Except.ok "namespace", w)
    createOrUpdate := fun _ w => (none, w)
    triggerWebhook := fun url _ w => (answer, { w with calls := w.calls ++ ["webhook " ++ url] })
    now := fun w => (w.clock, { w with clock := w.clock + 1 })
    cloudkitVirtualMachineFinalizer := "cloudkit.openshift.io/virtualmachine"
    cloudkitVirtualMachineManagementStateAnnotation := "cloudkit.openshift.io/management-state"
    managementStateUnmanaged := "unmanaged"
    managementStateManual := "manual" }

/-- The object `demoHubObject` with the finalizer of the operator. -/
def demoManagedObject : V1alpha1.VirtualMachine :=
  { demoHubObject with finalizers := ["cloudkit.openshift.io/virtualmachine"] }

/-- The object `demoManagedObject` while it is deleted: in the phase `Deleting`, with the
finalizer. -/
def demoDeletingObject : V1alpha1.VirtualMachine :=
  { demoManagedObject with
    deletionTimestamp := some 150
    status := { demoManagedObject.status with phase := "Deleting" } }

/-- The world in which the client reads `demoManagedObject`. -/
def demoOperatorWorld : DemoOperatorWorld :=
  { object := demoManagedObject, clock := 200, calls := [] }

/-- The world in which the client reads `demoDeletingObject`. -/
def demoDeletingWorld : DemoOperatorWorld :=
  { object := demoDeletingObject, clock := 200, calls := [] }

/-! ## Properties of the equivalence test -/

theorem Payload.ext_get {n : Nat} (p q : Payload n) (h : ∀ i : Fin n, p.get i = q.get i) :
    p = q := by
  obtain ⟨pv, ps⟩ := p
  obtain ⟨qv, qs⟩ := q
  have hv : pv = qv := by
    apply List.ext_getElem (by rw [ps, qs])
    intro i h1 h2
    have hi : i < n := by rw [← ps]; exact h1
    have := h ⟨i, hi⟩
    simpa [Payload.get, List.getD, List.getElem?_eq_getElem h1, List.getElem?_eq_getElem h2]
      using this
  subst hv
  rfl

theorem equivalentField_id {n : Nat} (x y : Object n) :
    equivalentField x y Field.id = true ↔ x.id = y.id := by
  by_cases hx : x.id = "" <;> by_cases hy : y.id = "" <;>
    simp [equivalentField, Object.has, hx, hy]
  · exact fun h => hy h.symm

theorem equivalentMetadata_some (xm ym : Metadata) :
    equivalentMetadata (some xm) (some ym) = true ↔
      xm.eraseTimestamps = ym.eraseTimestamps := by
  obtain ⟨xc, xd, xf, xcr, xt⟩ := xm
  obtain ⟨yc, yd, yf, ycr, yt⟩ := ym
  simp [equivalentMetadata, Metadata.fields, Metadata.getField, Metadata.eraseTimestamps]

theorem equivalentField_metadata {n : Nat} (x y : Object n) :
    equivalentField x y Field.metadata = true ↔
      x.metadata.map Metadata.eraseTimestamps = y.metadata.map Metadata.eraseTimestamps := by
  cases hx : x.metadata <;> cases hy : y.metadata <;>
    simp [equivalentField, Object.has, hx, hy, equivalentMetadata_some]

theorem equivalentField_payload {n : Nat} (x y : Object n) (i : Fin n) :
    equivalentField x y (Field.payload i) = true ↔ x.payload.get i = y.payload.get i := by
  cases hx : x.payload.get i <;> cases hy : y.payload.get i <;>
    simp [equivalentField, Object.has, hx, hy]

/-- C7: `equivalent x y` holds exactly when the two objects are equal once the creation
and deletion timestamps of their metadata are erased: pairs that are equal except maybe in
those two timestamps are equivalent, and pairs that differ anywhere else (id, finalizers,
creators, tenants, a payload field, or whether the metadata is set) are not. -/
theorem equivalent_iff_eq_eraseTimestamps {n : Nat} (x y : Object n) :
    equivalent (some x) (some y) = true ↔ x.eraseTimestamps = y.eraseTimestamps := by
  obtain ⟨xi, xm, xp⟩ := x
  obtain ⟨yi, ym, yp⟩ := y
  simp only [equivalent, equivalentMessages, Object.fields, Object.eraseTimestamps,
    Option.isSome_some, bne_self_eq_false, Bool.false_eq_true, if_false, List.all_cons,
    Bool.and_eq_true, equivalentField_id, equivalentField_metadata, List.all_eq_true,
    List.mem_map, List.mem_finRange, true_and, forall_exists_index, forall_apply_eq_imp_iff,
    equivalentField_payload, Object.mk.injEq]
  constructor
  · rintro ⟨h1, h2, h3⟩
    exact ⟨h1, h2, Payload.ext_get _ _ h3⟩
  · rintro ⟨h1, h2, h3⟩
    exact ⟨h1, h2, fun i => by rw [h3]⟩

/-! ## Properties of the tenancy filter -/

theorem utf8ByteSize_eq_zero_iff (b : String) : b.utf8ByteSize = 0 ↔ b = "" := by
  obtain ⟨cs⟩ := b
  cases cs with
  | nil => simp [String.utf8ByteSize, String.utf8ByteSize.go]
  | cons c cs =>
    have := Char.utf8Size_pos c
    simp [String.utf8ByteSize, String.utf8ByteSize.go, String.ext_iff]
    omega

theorem tenancy_clause_append (b : String) (k : Nat) :
    "(" ++ b ++ ") and " ++ ("tenants && $" ++ toString k) =
      "(" ++ b ++ ") and tenants && $" ++ toString k := by
  have h : ") and tenants && $" = ") and " ++ "tenants && $" := by decide
  rw [h]
  simp only [String.append_assoc]

theorem addTenancyFilter_eq_reference_aux {n : Nat} (d : GenericDAO n) (ctx : Context)
    (visible : Option (List String)) (b : String) (p : List Param)
    (h : d.tenancyLogic.determineVisibleTenants ctx = Except.ok visible) :
    d.addTenancyFilter ctx b p = (none, tenancyFilterReference visible b p) := by
  unfold GenericDAO.addTenancyFilter
  rw [h]
  match visible with
  | none => simp [sliceLen, tenancyFilterReference]
  | some [] => simp [sliceLen, tenancyFilterReference]
  | some (t :: ts) =>
    by_cases hb : b = ""
    · simp [sliceLen, tenancyFilterReference, sliceItems, utf8ByteSize_eq_zero_iff, hb]
    · simp [sliceLen, tenancyFilterReference, sliceItems, utf8ByteSize_eq_zero_iff, hb,
        tenancy_clause_append]

/-- C5: when the tenancy logic answers with the visible set `visible`, `addTenancyFilter`
returns no error and leaves the buffer and the parameters as the reference definition says;
for a non-empty visible set the tenants are the last parameter and the number behind the
`$` of the clause is their 1-based position in the parameter list. -/
theorem addTenancyFilter_eq_reference {n : Nat} (d : GenericDAO n) (ctx : Context)
    (visible : Option (List String)) (b : String) (p : List Param)
    (h : d.tenancyLogic.determineVisibleTenants ctx = Except.ok visible) :
    d.addTenancyFilter ctx b p = (none, tenancyFilterReference visible b p) ∧
    (sliceLen visible ≠ 0 →
      (∃ previous, (d.addTenancyFilter ctx b p).2.1 =
        previous ++ "tenants && $" ++ toString (p.length + 1)) ∧
      (d.addTenancyFilter ctx b p).2.2.length = p.length + 1 ∧
      (d.addTenancyFilter ctx b p).2.2.get? (p.length + 1 - 1) =
        some (Param.textArray (sliceItems visible))) := by
  have key := addTenancyFilter_eq_reference_aux d ctx visible b p h
  refine ⟨key, ?_⟩
  intro hne
  rw [key]
  match visible, hne with
  | some (t :: ts), _ =>
    refine ⟨?_, by simp [tenancyFilterReference], by simp [tenancyFilterReference, sliceItems]⟩
    by_cases hb : b = ""
    · exact ⟨"", by simp [tenancyFilterReference, hb]⟩
    · refine ⟨"(" ++ b ++ ") and ", ?_⟩
      simp only [tenancyFilterReference, hb, if_false]
      rw [← tenancy_clause_append]
      simp only [String.append_assoc]

/-- C5, at an instance: the default tenancy logic with the filter `id = $1`. -/
theorem addTenancyFilter_eq_reference_witness :
    demoDAO.tenancyLogic.determineVisibleTenants demoContext = Except.ok (some ["shared"]) ∧
    demoDAO.addTenancyFilter demoContext "id = $1" [Param.text "x"] =
      (none, "(id = $1) and tenants && $2", [Param.text "x", Param.textArray ["shared"]]) :=
  ⟨rfl, (addTenancyFilter_eq_reference demoDAO demoContext (some ["shared"]) "id = $1"
    [Param.text "x"] rfl).1.trans (by decide)⟩

/-! ## Properties of `list` -/

theorem build_limits {n : Nat} (b : GenericDAOBuilder n) (d : GenericDAO n)
    (hb : b.build = Except.ok d) :
    0 < d.defaultLimit ∧ 0 < d.maxLimit ∧ d.defaultLimit ≤ d.maxLimit ∧
      d.eventCallbacks = b.eventCallbacks ∧ d.table = b.table := by
  unfold GenericDAOBuilder.build at hb
  split_ifs at hb with h1 h2 h3 h4 h5
  simp only [Except.ok.injEq] at hb
  subst hb
  exact ⟨by simpa using h3, by simpa using h4, by simpa using h5, rfl, rfl⟩

theorem queryCount_cases {n : Nat} (s : State n) (table filter : String) (ps : List Param) :
    (∃ err, s.queryCount table filter ps =
      (Except.error err, s.sent (Statement.count table filter ps))) ∨
    s.queryCount table filter ps =
      (Except.ok (s.db.rows.filter fun r => s.engine.evalWhere filter ps r).length,
        s.sent (Statement.count table filter ps)) := by
  cases hf : s.engine.failure (Statement.count table filter ps) with
  | some err => exact Or.inl ⟨err, by simp [State.queryCount, hf]⟩
  | none => exact Or.inr (by simp [State.queryCount, hf])

theorem queryItems_cases {n : Nat} (s : State n) (table filter order : String) (i j : Nat)
    (ps : List Param) :
    (∃ err, s.queryItems table filter order i j ps =
      (Except.error err, s.sent (Statement.selectItems table filter order i j ps))) ∨
    (∃ rows, s.queryItems table filter order i j ps =
      (Except.ok rows, s.sent (Statement.selectItems table filter order i j ps))) := by
  cases hf : s.engine.failure (Statement.selectItems table filter order i j ps) with
  | some err => exact Or.inl ⟨err, by simp [State.queryItems, hf]⟩
  | none => exact Or.inr ⟨_, by simp only [State.queryItems, hf]; rfl⟩

theorem list_statements {n : Nat} (d : GenericDAO n) (ctx : Context)
    (request : ListRequest) (s s' : State n) (response : ListResponse n)
    (h : d.list ctx request s = (Except.ok response, s')) :
    ∃ filter parameters,
      s'.statements = s.statements ++
        [Statement.count d.table filter parameters,
         Statement.selectItems d.table filter d.defaultOrder (parameters.length + 1)
           (parameters.length + 2)
           (parameters ++ [Param.int (max request.offset 0), Param.int (d.listLimit request)])] ∧
      response.total = toInt32
        ((s.db.rows.filter fun r => s.engine.evalWhere filter parameters r).length) := by
  unfold GenericDAO.list at h
  split at h
  · simp at h
  · split at h
    · simp at h
    · rename_i fb0 hf e fb ps hat
      have ho : (if d.defaultOrder ≠ "" then d.defaultOrder else "") = d.defaultOrder := by
        by_cases hd : d.defaultOrder = "" <;> simp [hd]
      rw [ho] at h
      rcases queryCount_cases s d.table fb ps with ⟨err, h1⟩ | h1
      · rw [h1] at h; simp at h
      · rw [h1] at h
        simp only at h
        rcases queryItems_cases (s.sent (Statement.count d.table fb ps)) d.table fb d.defaultOrder
          (ps ++ [Param.int (listOffset request)]).length
          (ps ++ [Param.int (listOffset request)] ++ [Param.int (d.listLimit request)]).length
          (ps ++ [Param.int (listOffset request)] ++ [Param.int (d.listLimit request)])
          with ⟨err, h2⟩ | ⟨rows, h2⟩
        · rw [h2] at h; simp at h
        · rw [h2] at h
          simp only at h
          split at h
          · simp at h
          · simp only [Prod.mk.injEq, Except.ok.injEq] at h
            obtain ⟨hr, hs⟩ := h
            subst hr hs
            refine ⟨fb, ps, ?_, rfl⟩
            simp [State.sent, listOffset]

/-- C6: a successful `list` sends two statements. The count statement carries the filter
and its parameters only, neither offset nor limit, and its result, converted to `int32`,
is the `total` of the response (the count itself when it fits in 31 bits). The item
statement binds, behind the same parameters, the offset `max(request.Offset, 0)` and the
limit, which is 0 for a negative requested limit, the default limit for 0, the maximum
limit above the maximum, and the requested limit otherwise. -/
theorem list_offset_limit_total {n : Nat} (b : GenericDAOBuilder n) (d : GenericDAO n)
    (ctx : Context) (request : ListRequest) (s : State n) (response : ListResponse n)
    (hb : b.build = Except.ok d)
    (h : (d.list ctx request s).1 = Except.ok response) :
    ∃ (filter : String) (parameters : List Param) (limit : Int),
      (d.list ctx request s).2.statements = s.statements ++
        [Statement.count d.table filter parameters,
         Statement.selectItems d.table filter d.defaultOrder (parameters.length + 1)
           (parameters.length + 2)
           (parameters ++ [Param.int (max request.offset 0), Param.int limit])] ∧
      (request.limit < 0 → limit = 0) ∧
      (request.limit = 0 → limit = d.defaultLimit) ∧
      (request.limit > d.maxLimit → limit = d.maxLimit) ∧
      (0 < request.limit → request.limit ≤ d.maxLimit → limit = request.limit) ∧
      response.total = toInt32
        ((s.db.rows.filter fun r => s.engine.evalWhere filter parameters r).length) ∧
      ((s.db.rows.filter fun r => s.engine.evalWhere filter parameters r).length < 2 ^ 31 →
        response.total = (s.db.rows.filter fun r => s.engine.evalWhere filter parameters r).length) := by
  obtain ⟨hd1, hd2, hd3, -, -⟩ := build_limits b d hb
  obtain ⟨filter, parameters, h1, h2⟩ :=
    list_statements d ctx request s (d.list ctx request s).2 response (Prod.ext h rfl)
  refine ⟨filter, parameters, d.listLimit request, h1, ?_, ?_, ?_, ?_, h2, ?_⟩
  · intro hl; simp [GenericDAO.listLimit, hl]
  · intro hl; simp [GenericDAO.listLimit, hl]
  · intro hl
    have h0 : ¬ request.limit < 0 := by omega
    have h1 : ¬ request.limit = 0 := by omega
    simp [GenericDAO.listLimit, h0, h1, hl]
  · intro hl hm
    have h0 : ¬ request.limit < 0 := by omega
    have h1 : ¬ request.limit = 0 := by omega
    have h2 : ¬ d.maxLimit < request.limit := by omega
    simp [GenericDAO.listLimit, h0, h1, h2]
  · intro hlt
    rw [h2]
    unfold toInt32
    omega

/-- C6, at an instance: a negative offset and no limit on a table with two rows. -/
theorem list_offset_limit_total_witness :
    demoBuilder.build = Except.ok demoBuiltDAO ∧
    (demoBuiltDAO.list demoContext { offset := -1, limit := 0, filter := "" } demoState).1 =
      Except.ok demoListResponse ∧
    ∃ (filter : String) (parameters : List Param) (limit : Int),
      (demoBuiltDAO.list demoContext { offset := -1, limit := 0, filter := "" }
          demoState).2.statements = demoState.statements ++
        [Statement.count demoBuiltDAO.table filter parameters,
         Statement.selectItems demoBuiltDAO.table filter demoBuiltDAO.defaultOrder
           (parameters.length + 1) (parameters.length + 2)
           (parameters ++ [Param.int (max (-1) 0), Param.int limit])] ∧
      ((0 : Int) < 0 → limit = 0) ∧
      ((0 : Int) = 0 → limit = demoBuiltDAO.defaultLimit) ∧
      ((0 : Int) > demoBuiltDAO.maxLimit → limit = demoBuiltDAO.maxLimit) ∧
      ((0 : Int) < 0 → (0 : Int) ≤ demoBuiltDAO.maxLimit → limit = 0) ∧
      demoListResponse.total = toInt32
        ((demoState.db.rows.filter fun r =>
          demoState.engine.evalWhere filter parameters r).length) ∧
      ((demoState.db.rows.filter fun r =>
          demoState.engine.evalWhere filter parameters r).length < 2 ^ 31 →
        demoListResponse.total = (demoState.db.rows.filter fun r =>
          demoState.engine.evalWhere filter parameters r).length) :=
  ⟨rfl, rfl, list_offset_limit_total demoBuilder demoBuiltDAO demoContext
    { offset := -1, limit := 0, filter := "" } demoState demoListResponse rfl rfl⟩

/-! ## Properties of `fireEvent` -/

/-- The calls that `fireEvent` records when it runs the first `m` callbacks from position
`i` on. -/
theorem fireEventLoop_cases {n : Nat} (ctx : Context) (ev : Event n) :
    ∀ (cbs : List (EventCallback n)) (i : Nat) (s : State n),
      ((∀ cb ∈ cbs, cb ctx ev = none) ∧
        fireEventLoop ctx ev cbs i s =
          (none, { s with calls := s.calls ++ (List.range cbs.length).map fun k => (i + k, ev) })) ∨
      (∃ pre cb post e, cbs = pre ++ cb :: post ∧ (∀ c ∈ pre, c ctx ev = none) ∧
        cb ctx ev = some e ∧
        fireEventLoop ctx ev cbs i s =
          (some e,
            { s with calls := s.calls ++ (List.range (pre.length + 1)).map fun k => (i + k, ev) }))
  | [], i, s => by
    left
    simp [fireEventLoop]
  | c :: rest, i, s => by
    cases hc : c ctx ev with
    | some e =>
      right
      exact ⟨[], c, rest, e, rfl, by simp, hc, by simp [fireEventLoop, hc, List.range_succ]⟩
    | none =>
      rcases fireEventLoop_cases ctx ev rest (i + 1)
        { s with calls := s.calls ++ [(i, ev)] } with ⟨hall, h⟩ | ⟨pre, cb, post, e, hsplit, hpre, hcb, h⟩
      · left
        refine ⟨by simpa [hc] using hall, ?_⟩
        simp only [fireEventLoop, hc, h, List.length_cons, List.range_succ_eq_map, List.map_cons,
          List.map_map, List.append_assoc, List.singleton_append, Nat.add_zero]
        congr 4
        apply List.map_congr_left
        intro k _
        simp only [Function.comp, Nat.succ_eq_add_one]
        congr 1
        omega
      · right
        refine ⟨c :: pre, cb, post, e, by simp [hsplit], by simpa [hc] using hpre, hcb, ?_⟩
        simp only [fireEventLoop, hc, h, List.length_cons]
        rw [List.range_succ_eq_map (pre.length + 1)]
        simp only [List.map_cons, List.map_map, List.append_assoc, List.singleton_append,
          Nat.add_zero]
        congr 4
        apply List.map_congr_left
        intro k _
        simp only [Function.comp, Nat.succ_eq_add_one]
        congr 1
        omega

theorem fireEvent_calls {n : Nat} (d : GenericDAO n) (ctx : Context) (event : Event n)
    (s : State n) :
    ∃ new, (d.fireEvent ctx event s).2 = { s with calls := s.calls ++ new } ∧
      ∀ i ev cb e, (i, ev) ∈ new → d.eventCallbacks.get? i = some cb → cb ctx ev = some e →
        (d.fireEvent ctx event s).1 = some e := by
  unfold GenericDAO.fireEvent
  rcases fireEventLoop_cases ctx { event with table := d.table } d.eventCallbacks 0 s with
    ⟨hall, h⟩ | ⟨pre, cb, post, e, hsplit, hpre, hcb, h⟩
  · refine ⟨_, by rw [h], ?_⟩
    intro i ev cb e hmem hget hcb
    simp only [List.mem_map, List.mem_range, Prod.mk.injEq] at hmem
    obtain ⟨k, -, -, rfl⟩ := hmem
    have := hall cb (List.get?_mem hget)
    rw [this] at hcb
    exact absurd hcb (by simp)
  · refine ⟨_, by rw [h], ?_⟩
    intro i ev cb2 e2 hmem hget hcb2
    simp only [List.mem_map, List.mem_range, Prod.mk.injEq] at hmem
    obtain ⟨k, hk, hki, rfl⟩ := hmem
    rw [h]
    simp only [Nat.zero_add] at hki
    subst hki
    rw [hsplit] at hget
    by_cases hlt : k < pre.length
    · rw [List.get?_eq_getElem?, List.getElem?_append_left hlt] at hget
      have := hpre cb2 (List.getElem?_mem hget)
      rw [this] at hcb2
      exact absurd hcb2 (by simp)
    · have hk2 : k = pre.length := by omega
      subst hk2
      rw [List.get?_eq_getElem?, List.getElem?_append_right (Nat.le_refl _)] at hget
      simp only [Nat.sub_self, List.getElem?_cons_zero, Option.some.injEq] at hget
      subst hget
      rw [hcb] at hcb2
      simp only [Option.some.injEq] at hcb2
      simp [hcb2]

/-! ## What the statements leave unchanged -/

theorem queryOne_frame {n : Nat} (s : State n) (table filter : String) (ps : List Param) :
    (s.queryOne table filter ps).2 = s.sent (Statement.selectOne table filter ps) := by
  unfold State.queryOne
  dsimp only
  split <;> rfl

theorem insert_frame {n : Nat} (s : State n) (table id : String) (f c t : List String)
    (data : Data) :
    (s.insert table id f c t data).2.calls = s.calls ∧
    (s.insert table id f c t data).2.engine = s.engine ∧
    (s.insert table id f c t data).2.random = s.random ∧
    (s.insert table id f c t data).2.db.now = s.db.now ∧
    (s.insert table id f c t data).2.db.archived = s.db.archived ∧
    (s.insert table id f c t data).2.statements =
      s.statements ++ [Statement.insert table id f c t data] := by
  unfold State.insert State.sent
  dsimp only
  repeat' split
  all_goals simp

theorem update_frame {n : Nat} (s : State n) (table : String) (f : List String) (data : Data)
    (id : String) :
    (s.update table f data id).2.calls = s.calls ∧
    (s.update table f data id).2.engine = s.engine ∧
    (s.update table f data id).2.random = s.random ∧
    (s.update table f data id).2.db.now = s.db.now ∧
    (s.update table f data id).2.db.archived = s.db.archived ∧
    (s.update table f data id).2.statements =
      s.statements ++ [Statement.update table f data id] := by
  unfold State.update State.sent
  dsimp only
  repeat' split
  all_goals simp

theorem markDeleted_frame {n : Nat} (s : State n) (table filter : String) (ps : List Param) :
    (s.markDeleted table filter ps).2.calls = s.calls ∧
    (s.markDeleted table filter ps).2.engine = s.engine ∧
    (s.markDeleted table filter ps).2.random = s.random ∧
    (s.markDeleted table filter ps).2.db.now = s.db.now ∧
    (s.markDeleted table filter ps).2.db.archived = s.db.archived ∧
    (s.markDeleted table filter ps).2.statements =
      s.statements ++ [Statement.markDeleted table filter ps] := by
  unfold State.markDeleted State.sent
  dsimp only
  repeat' split
  all_goals simp

theorem insertArchived_frame {n : Nat} (s : State n) (table id : String) (c dl : Time)
    (cr t : List String) (data : Data) :
    (s.insertArchived table id c dl cr t data).2.calls = s.calls ∧
    (s.insertArchived table id c dl cr t data).2.engine = s.engine ∧
    (s.insertArchived table id c dl cr t data).2.random = s.random ∧
    (s.insertArchived table id c dl cr t data).2.db.now = s.db.now ∧
    (s.insertArchived table id c dl cr t data).2.db.rows = s.db.rows ∧
    (s.insertArchived table id c dl cr t data).2.statements =
      s.statements ++ [Statement.insertArchived table id c dl cr t data] := by
  unfold State.insertArchived State.sent
  dsimp only
  repeat' split
  all_goals simp

theorem deleteRow_frame {n : Nat} (s : State n) (table id : String) :
    (s.deleteRow table id).2.calls = s.calls ∧
    (s.deleteRow table id).2.engine = s.engine ∧
    (s.deleteRow table id).2.random = s.random ∧
    (s.deleteRow table id).2.db.now = s.db.now ∧
    (s.deleteRow table id).2.db.archived = s.db.archived ∧
    (s.deleteRow table id).2.statements = s.statements ++ [Statement.delete table id] := by
  unfold State.deleteRow State.sent
  dsimp only
  repeat' split
  all_goals simp

theorem archive_calls {n : Nat} (d : GenericDAO n) (id : String) (c dl : Time)
    (cr t : List String) (data : Data) (s : State n) :
    (d.archive id c dl cr t data s).2.calls = s.calls := by
  unfold GenericDAO.archive
  have h1 := insertArchived_frame s d.table id c dl cr t data
  split
  · rename_i err s1 heq
    rw [heq] at h1
    exact h1.1
  · rename_i s1 heq
    rw [heq] at h1
    rw [(deleteRow_frame s1 d.table id).1]
    exact h1.1

theorem get_frame {n : Nat} (d : GenericDAO n) (ctx : Context) (id : String) (s : State n) :
    (d.get ctx id s).2 = s ∨
      ∃ filter ps, (d.get ctx id s).2 = s.sent (Statement.selectOne d.table filter ps) := by
  unfold GenericDAO.get
  split
  · left; rfl
  · split
    · left; rfl
    · rename_i fb ps hat
      have hq := queryOne_frame s d.table fb ps
      right
      refine ⟨fb, ps, ?_⟩
      split
      · rename_i err s1 heq; rw [heq] at hq; exact hq
      · rename_i s1 heq; rw [heq] at hq; exact hq
      · rename_i row s1 heq
        rw [heq] at hq
        split <;> exact hq

theorem newId_frame {n : Nat} (o : Object n) (s : State n) :
    (if o.id = "" then newId s else (o.id, s)).2.calls = s.calls ∧
    (if o.id = "" then newId s else (o.id, s)).2.db = s.db ∧
    (if o.id = "" then newId s else (o.id, s)).2.engine = s.engine ∧
    (if o.id = "" then newId s else (o.id, s)).2.statements = s.statements := by
  split <;> simp [newId]

theorem insert_frame_of_eq {n : Nat} {s s1 : State n} {table id : String} {f c t : List String}
    {data : Data} {r : Except Error (Time × Time)} (h : s.insert table id f c t data = (r, s1)) :
    s1.calls = s.calls ∧ s1.engine = s.engine ∧ s1.random = s.random ∧ s1.db.now = s.db.now ∧
    s1.db.archived = s.db.archived ∧
    s1.statements = s.statements ++ [Statement.insert table id f c t data] := by
  have := insert_frame s table id f c t data
  rw [h] at this
  exact this

theorem update_frame_of_eq {n : Nat} {s s1 : State n} {table : String} {f : List String}
    {data : Data} {id : String} {r : Except Error (Time × Time × List String × List String)}
    (h : s.update table f data id = (r, s1)) :
    s1.calls = s.calls ∧ s1.engine = s.engine ∧ s1.random = s.random ∧ s1.db.now = s.db.now ∧
    s1.db.archived = s.db.archived ∧
    s1.statements = s.statements ++ [Statement.update table f data id] := by
  have := update_frame s table f data id
  rw [h] at this
  exact this

theorem markDeleted_frame_of_eq {n : Nat} {s s1 : State n} {table filter : String}
    {ps : List Param} {r : Except Error (Option Row)}
    (h : s.markDeleted table filter ps = (r, s1)) :
    s1.calls = s.calls ∧ s1.engine = s.engine ∧ s1.random = s.random ∧ s1.db.now = s.db.now ∧
    s1.db.archived = s.db.archived ∧
    s1.statements = s.statements ++ [Statement.markDeleted table filter ps] := by
  have := markDeleted_frame s table filter ps
  rw [h] at this
  exact this

theorem archive_calls_of_eq {n : Nat} {d : GenericDAO n} {id : String} {c dl : Time}
    {cr t : List String} {data : Data} {s s1 : State n} {r : Option Error}
    (h : d.archive id c dl cr t data s = (r, s1)) : s1.calls = s.calls := by
  have := archive_calls d id c dl cr t data s
  rw [h] at this
  exact this

theorem fireEvent_calls_of_eq {n : Nat} {d : GenericDAO n} {ctx : Context} {event : Event n}
    {s s1 : State n} {r : Option Error} (h : d.fireEvent ctx event s = (r, s1)) :
    ∃ new, s1 = { s with calls := s.calls ++ new } ∧
      ∀ i ev cb e, (i, ev) ∈ new → d.eventCallbacks.get? i = some cb → cb ctx ev = some e →
        r = some e := by
  have := fireEvent_calls d ctx event s
  rw [h] at this
  exact this

theorem get_frame_of_eq {n : Nat} {d : GenericDAO n} {ctx : Context} {id : String}
    {s s1 : State n} {r : Except Error (Option (Object n))} (h : d.get ctx id s = (r, s1)) :
    s1.calls = s.calls ∧ s1.db = s.db ∧ s1.engine = s.engine ∧ s1.random = s.random ∧
    (s1.statements = s.statements ∨
      ∃ filter ps, s1.statements = s.statements ++ [Statement.selectOne d.table filter ps]) := by
  have := get_frame d ctx id s
  rw [h] at this
  rcases this with h1 | ⟨filter, ps, h1⟩
  · simp only at h1
    subst h1
    exact ⟨rfl, rfl, rfl, rfl, Or.inl rfl⟩
  · simp only at h1
    subst h1
    exact ⟨rfl, rfl, rfl, rfl, Or.inr ⟨filter, ps, rfl⟩⟩

/-! ## Event callbacks and errors -/

theorem create_error_of_callback {n : Nat} (d : GenericDAO n) (ctx : Context) (o : Object n)
    (s : State n) (i : Nat) (ev : Event n) (cb : EventCallback n) (e : Error)
    (hmem : (i, ev) ∈ (d.create ctx o s).state.calls.drop s.calls.length)
    (hget : d.eventCallbacks.get? i = some cb) (hcb : cb ctx ev = some e) :
    (d.create ctx o s).result = Except.error e := by
  revert hmem
  unfold GenericDAO.create
  dsimp only
  have h0 := (newId_frame o s).1
  generalize (if o.id = "" then newId s else (o.id, s)) = p at h0 ⊢
  split
  · simp [h0]
  · split
    · simp [h0]
    · split
      · simp [h0]
      · split
        · rename_i err s1 heq
          simp [(insert_frame_of_eq heq).1, h0]
        · rename_i ct dt s1 heq
          have h1 := (insert_frame_of_eq heq).1
          split
          · rename_i err s2 hfire
            obtain ⟨new, hs2, hnew⟩ := fireEvent_calls_of_eq hfire
            subst hs2
            simp only [h1, h0, List.drop_left]
            intro hmem
            have := hnew i ev cb e hmem hget hcb
            simp only [Option.some.injEq] at this
            rw [this]
          · rename_i s2 hfire
            obtain ⟨new, hs2, hnew⟩ := fireEvent_calls_of_eq hfire
            subst hs2
            simp only [h1, h0, List.drop_left]
            intro hmem
            have := hnew i ev cb e hmem hget hcb
            simp at this

theorem update_error_of_callback {n : Nat} (d : GenericDAO n) (ctx : Context) (o : Object n)
    (s : State n) (i : Nat) (ev : Event n) (cb : EventCallback n) (e : Error)
    (hmem : (i, ev) ∈ (d.update ctx o s).state.calls.drop s.calls.length)
    (hget : d.eventCallbacks.get? i = some cb) (hcb : cb ctx ev = some e) :
    (d.update ctx o s).result = Except.error e := by
  revert hmem
  unfold GenericDAO.update
  dsimp only
  split
  · simp
  · split
    · rename_i err s0 hg
      simp [(get_frame_of_eq hg).1]
    · rename_i cur s0 hg
      have h0 := (get_frame_of_eq hg).1
      split
      · simp [h0]
      · split
        · simp [h0]
        · split
          · rename_i err s1 heq
            simp [(update_frame_of_eq heq).1, h0]
          · rename_i ct dt cr tn s1 heq
            have h1 := (update_frame_of_eq heq).1
            split
            · rename_i err s2 hfire
              obtain ⟨new, hs2, hnew⟩ := fireEvent_calls_of_eq hfire
              subst hs2
              simp only [h1, h0, List.drop_left]
              intro hmem
              have := hnew i ev cb e hmem hget hcb
              simp only [Option.some.injEq] at this
              rw [this]
            · rename_i s2 hfire
              obtain ⟨new, hs2, hnew⟩ := fireEvent_calls_of_eq hfire
              subst hs2
              have hno : (i, ev) ∈ new → False := by
                intro hmem
                have := hnew i ev cb e hmem hget hcb
                simp at this
              split
              · split
                · rename_i err s3 harch
                  simp only [archive_calls_of_eq harch, h1, h0, List.drop_left]
                  exact fun hmem => (hno hmem).elim
                · rename_i s3 harch
                  simp only [archive_calls_of_eq harch, h1, h0, List.drop_left]
                  exact fun hmem => (hno hmem).elim
              · simp only [h1, h0, List.drop_left]
                exact fun hmem => (hno hmem).elim

theorem delete_error_of_callback {n : Nat} (d : GenericDAO n) (ctx : Context) (id : String)
    (s : State n) (i : Nat) (ev : Event n) (cb : EventCallback n) (e : Error)
    (hmem : (i, ev) ∈ (d.delete ctx id s).2.calls.drop s.calls.length)
    (hget : d.eventCallbacks.get? i = some cb) (hcb : cb ctx ev = some e) :
    (d.delete ctx id s).1 = some e := by
  revert hmem
  unfold GenericDAO.delete
  split
  · simp
  · split
    · simp
    · split
      · rename_i err s1 heq
        simp [(markDeleted_frame_of_eq heq).1]
      · rename_i s1 heq
        simp [(markDeleted_frame_of_eq heq).1]
      · rename_i row s1 heq
        have h1 := (markDeleted_frame_of_eq heq).1
        split
        · simp [h1]
        · split
          · rename_i err s2 hfire
            obtain ⟨new, hs2, hnew⟩ := fireEvent_calls_of_eq hfire
            subst hs2
            simp only [h1, List.drop_left]
            intro hmem
            exact hnew i ev cb e hmem hget hcb
          · rename_i s2 hfire
            obtain ⟨new, hs2, hnew⟩ := fireEvent_calls_of_eq hfire
            subst hs2
            have hno : (i, ev) ∈ new → False := by
              intro hmem
              have := hnew i ev cb e hmem hget hcb
              simp at this
            split
            · rw [archive_calls d]
              simp only [h1, List.drop_left]
              exact fun hmem => (hno hmem).elim
            · simp only [h1, List.drop_left]
              exact fun hmem => (hno hmem).elim

theorem addEventCallback_foldl {n : Nat} (cbs : List (EventCallback n)) :
    ∀ b : GenericDAOBuilder n,
      (cbs.foldl GenericDAOBuilder.addEventCallback b).eventCallbacks = b.eventCallbacks ++ cbs := by
  induction cbs with
  | nil => intro b; simp
  | cons c rest ih =>
    intro b
    simp [List.foldl_cons, ih, GenericDAOBuilder.addEventCallback]

/-- C8: a DAO built after `AddEventCallback` was called with `c1, ..., cn` in this order
fires an event by calling them in this order, each with the event whose table is the table
of the DAO. When all return nil, all are called and `fireEvent` returns nil; when one
returns an error, the callbacks before it and itself are the only ones called and
`fireEvent` returns its error. Whenever a callback called by `create`, `update` or `delete`
returned an error, the operation returns that error and no result. -/
theorem fireEvent_in_order_until_error {n : Nat} (b : GenericDAOBuilder n)
    (cbs : List (EventCallback n)) (d : GenericDAO n) (ctx : Context) (event : Event n)
    (s : State n) (hb0 : b.eventCallbacks = [])
    (hb : (cbs.foldl GenericDAOBuilder.addEventCallback b).build = Except.ok d) :
    ((∀ cb ∈ cbs, cb ctx { event with table := d.table } = none) →
      d.fireEvent ctx event s =
        (none, { s with calls := s.calls ++
          (List.range cbs.length).map fun k => (k, { event with table := d.table }) })) ∧
    (∀ pre cb post e, cbs = pre ++ cb :: post →
      (∀ c ∈ pre, c ctx { event with table := d.table } = none) →
      cb ctx { event with table := d.table } = some e →
      d.fireEvent ctx event s =
        (some e, { s with calls := s.calls ++
          (List.range (pre.length + 1)).map fun k => (k, { event with table := d.table }) })) ∧
    (∀ o i ev cb e, (i, ev) ∈ (d.create ctx o s).state.calls.drop s.calls.length →
      cbs.get? i = some cb → cb ctx ev = some e → (d.create ctx o s).result = Except.error e) ∧
    (∀ o i ev cb e, (i, ev) ∈ (d.update ctx o s).state.calls.drop s.calls.length →
      cbs.get? i = some cb → cb ctx ev = some e → (d.update ctx o s).result = Except.error e) ∧
    (∀ id i ev cb e, (i, ev) ∈ (d.delete ctx id s).2.calls.drop s.calls.length →
      cbs.get? i = some cb → cb ctx ev = some e → (d.delete ctx id s).1 = some e) := by
  have hcbs : d.eventCallbacks = cbs := by
    rw [(build_limits _ d hb).2.2.2.1, addEventCallback_foldl, hb0, List.nil_append]
  subst hcbs
  refine ⟨?_, ?_, ?_, ?_, ?_⟩
  · intro hall
    rcases fireEventLoop_cases ctx { event with table := d.table } d.eventCallbacks 0 s with
      ⟨-, h⟩ | ⟨pre, cb, post, e, hsplit, -, hcb, -⟩
    · simpa [GenericDAO.fireEvent] using h
    · have := hall cb (by rw [hsplit]; simp)
      rw [this] at hcb
      exact absurd hcb (by simp)
  · intro pre cb post e hsplit hpre hcb
    rcases fireEventLoop_cases ctx { event with table := d.table } d.eventCallbacks 0 s with
      ⟨hall, -⟩ | ⟨pre2, cb2, post2, e2, hsplit2, hpre2, hcb2, h⟩
    · have := hall cb (by rw [hsplit]; simp)
      rw [this] at hcb
      exact absurd hcb (by simp)
    · have hlen : pre2.length = pre.length := by
        rcases Nat.lt_trichotomy pre2.length pre.length with hlt | heq | hgt
        · exfalso
          have h1 : d.eventCallbacks[pre2.length]? = some cb2 := by
            rw [hsplit2, List.getElem?_append_right (Nat.le_refl _)]; simp
          rw [hsplit, List.getElem?_append_left hlt] at h1
          have := hpre cb2 (List.getElem?_mem h1)
          rw [this] at hcb2
          exact absurd hcb2 (by simp)
        · exact heq
        · exfalso
          have h1 : d.eventCallbacks[pre.length]? = some cb := by
            rw [hsplit, List.getElem?_append_right (Nat.le_refl _)]; simp
          rw [hsplit2, List.getElem?_append_left hgt] at h1
          have := hpre2 cb (List.getElem?_mem h1)
          rw [this] at hcb
          exact absurd hcb (by simp)
      have h1 : d.eventCallbacks[pre2.length]? = some cb2 := by
        rw [hsplit2, List.getElem?_append_right (Nat.le_refl _)]; simp
      have h2 : d.eventCallbacks[pre.length]? = some cb := by
        rw [hsplit, List.getElem?_append_right (Nat.le_refl _)]; simp
      rw [hlen, h2] at h1
      simp only [Option.some.injEq] at h1
      subst h1
      rw [hcb] at hcb2
      simp only [Option.some.injEq] at hcb2
      subst hcb2
      rw [← hlen]
      simpa [GenericDAO.fireEvent] using h
  · exact fun o i ev cb e => create_error_of_callback d ctx o s i ev cb e
  · exact fun o i ev cb e => update_error_of_callback d ctx o s i ev cb e
  · exact fun id i ev cb e => delete_error_of_callback d ctx id s i ev cb e

/-- C8, at an instance: of three callbacks the second fails, the third is not called. -/
theorem fireEvent_in_order_until_error_witness :
    demoBuilder.eventCallbacks = [] ∧
    (demoCallbacks.foldl GenericDAOBuilder.addEventCallback demoBuilder).build =
      Except.ok demoCallbackDAO ∧
    demoCallbackDAO.fireEvent demoContext
        { table := "", type := EventType.updated, object := demoObjectA } demoState =
      (some "boom",
        { demoState with
          calls := [(0, { table := "vms", type := EventType.updated, object := demoObjectA }),
                    (1, { table := "vms", type := EventType.updated, object := demoObjectA })] }) :=
  ⟨rfl, rfl,
    (fireEvent_in_order_until_error demoBuilder demoCallbacks demoCallbackDAO demoContext
      { table := "", type := EventType.updated, object := demoObjectA } demoState rfl rfl).2.1
      [demoCallbackOk] demoCallbackFail [demoCallbackOk] "boom" rfl
      (by intro c hc; rw [List.mem_singleton.mp hc]; rfl) rfl⟩

/-! ## The filter on the identifier -/

theorem addTenancyFilter_id {n : Nat} (d : GenericDAO n) (ctx : Context) (id : String)
    (visible : Option (List String))
    (h : d.tenancyLogic.determineVisibleTenants ctx = Except.ok visible) :
    ∃ filter ps, d.addTenancyFilter ctx "id = $1" [Param.text id] = (none, filter, ps) ∧
      ∀ (e : Engine) (r : Row),
        e.evalWhere filter ps r = (decide (r.id = id) && visibleTo visible r) := by
  rw [(addTenancyFilter_eq_reference_aux d ctx visible "id = $1" [Param.text id] h)]
  refine ⟨_, _, rfl, ?_⟩
  intro e r
  match visible with
  | none => simp [tenancyFilterReference, Engine.evalWhere, visibleTo, sliceLen]
  | some [] => simp [tenancyFilterReference, Engine.evalWhere, visibleTo, sliceLen]
  | some (t :: ts) =>
    have h1 : "(id = $1) and tenants && $" ++ toString 2 = "(id = $1) and tenants && $2" := by
      decide
    have h2 : ¬ ("(id = $1) and tenants && $2" = "") := by decide
    have h3 : ¬ ("(id = $1) and tenants && $2" = "id = $1") := by decide
    have h4 : ¬ ("(id = $1) and tenants && $2" = "tenants && $1") := by decide
    simp [tenancyFilterReference, Engine.evalWhere, visibleTo, sliceLen, sliceItems, h1, h2, h3,
      h4]

/-! ## What the statements do -/

theorem queryOne_of_eq {n : Nat} {s s1 : State n} {table filter : String} {ps : List Param}
    {res : Except Error (Option Row)} (h : s.queryOne table filter ps = (res, s1)) :
    s1 = s.sent (Statement.selectOne table filter ps) ∧
    ((∃ err, res = Except.error err ∧
        s.engine.failure (Statement.selectOne table filter ps) = some err) ∨
      (res = Except.ok (s.db.rows.find? fun r => s.engine.evalWhere filter ps r) ∧
        s.engine.failure (Statement.selectOne table filter ps) = none)) := by
  unfold State.queryOne at h
  dsimp only at h
  split at h
  · rename_i err hf
    simp only [Prod.mk.injEq] at h
    exact ⟨h.2.symm, Or.inl ⟨err, h.1.symm, hf⟩⟩
  · rename_i hf
    simp only [Prod.mk.injEq] at h
    exact ⟨h.2.symm, Or.inr ⟨h.1.symm, hf⟩⟩

theorem insert_ok_of_eq {n : Nat} {s s1 : State n} {table id : String} {f c t : List String}
    {data : Data} {ct dt : Time} (h : s.insert table id f c t data = (Except.ok (ct, dt), s1)) :
    ct = s.db.now ∧ dt = 0 ∧ (∀ r ∈ s.db.rows, r.id ≠ id) ∧
    s.engine.failure (Statement.insert table id f c t data) = none ∧
    s1 = { s.sent (Statement.insert table id f c t data) with
      db := { s.db with rows := s.db.rows ++
        [{ id := id, creationTimestamp := s.db.now, deletionTimestamp := 0, finalizers := f,
           creators := c, tenants := t, data := data }] } } := by
  unfold State.insert at h
  dsimp only at h
  split at h
  · simp at h
  · rename_i hf
    split at h
    · simp at h
    · rename_i hdup
      simp only [Prod.mk.injEq, Except.ok.injEq] at h
      obtain ⟨⟨h1, h2⟩, h3⟩ := h
      refine ⟨h1.symm, h2.symm, ?_, hf, h3.symm⟩
      simpa using hdup

theorem insert_error_of_eq {n : Nat} {s s1 : State n} {table id : String} {f c t : List String}
    {data : Data} {err : Error} (h : s.insert table id f c t data = (Except.error err, s1)) :
    s1 = s.sent (Statement.insert table id f c t data) := by
  unfold State.insert at h
  dsimp only at h
  split at h
  · simp only [Prod.mk.injEq] at h; exact h.2.symm
  · split at h
    · simp only [Prod.mk.injEq] at h; exact h.2.symm
    · simp at h

theorem update_ok_of_eq {n : Nat} {s s1 : State n} {table : String} {f : List String}
    {data : Data} {id : String} {ct dt : Time} {cr tn : List String}
    (h : s.update table f data id = (Except.ok (ct, dt, cr, tn), s1)) :
    (∃ r, s.db.rows.find? (fun r => decide (r.id = id)) = some r ∧ ct = r.creationTimestamp ∧
      dt = r.deletionTimestamp ∧ cr = r.creators ∧ tn = r.tenants) ∧
    s.engine.failure (Statement.update table f data id) = none ∧
    s1 = { s.sent (Statement.update table f data id) with
      db := { s.db with rows := s.db.rows.map fun r =>
        if r.id = id then { r with finalizers := f, data := data } else r } } := by
  unfold State.update at h
  dsimp only at h
  split at h
  · simp at h
  · rename_i hf
    split at h
    · simp at h
    · rename_i r hr
      simp only [Prod.mk.injEq, Except.ok.injEq] at h
      obtain ⟨⟨h1, h2, h3, h4⟩, h5⟩ := h
      exact ⟨⟨r, hr, h1.symm, h2.symm, h3.symm, h4.symm⟩, hf, h5.symm⟩

theorem update_error_of_eq {n : Nat} {s s1 : State n} {table : String} {f : List String}
    {data : Data} {id : String} {err : Error}
    (h : s.update table f data id = (Except.error err, s1)) :
    s1 = s.sent (Statement.update table f data id) := by
  unfold State.update at h
  dsimp only at h
  split at h
  · simp only [Prod.mk.injEq] at h; exact h.2.symm
  · split at h
    · simp only [Prod.mk.injEq] at h; exact h.2.symm
    · simp at h

theorem markDeleted_of_eq {n : Nat} {s s1 : State n} {table filter : String} {ps : List Param}
    {res : Except Error (Option Row)} (h : s.markDeleted table filter ps = (res, s1)) :
    (∃ err, res = Except.error err ∧ s1 = s.sent (Statement.markDeleted table filter ps) ∧
      s.engine.failure (Statement.markDeleted table filter ps) = some err) ∨
    (res = Except.ok none ∧ s1 = s.sent (Statement.markDeleted table filter ps) ∧
      s.engine.failure (Statement.markDeleted table filter ps) = none ∧
      (s.db.rows.find? fun r => s.engine.evalWhere filter ps r) = none) ∨
    (∃ r, (s.db.rows.find? fun r => s.engine.evalWhere filter ps r) = some r ∧
      s.engine.failure (Statement.markDeleted table filter ps) = none ∧
      res = Except.ok (some { r with deletionTimestamp := s.db.now }) ∧
      s1 = { s.sent (Statement.markDeleted table filter ps) with
        db := { s.db with rows := s.db.rows.map fun r =>
          if s.engine.evalWhere filter ps r then { r with deletionTimestamp := s.db.now }
          else r } }) := by
  unfold State.markDeleted at h
  dsimp only at h
  split at h
  · rename_i err hf
    simp only [Prod.mk.injEq] at h
    exact Or.inl ⟨err, h.1.symm, h.2.symm, hf⟩
  · rename_i hf
    split at h
    · rename_i hnone
      simp only [Prod.mk.injEq] at h
      exact Or.inr (Or.inl ⟨h.1.symm, h.2.symm, hf, hnone⟩)
    · rename_i r hr
      simp only [Prod.mk.injEq] at h
      exact Or.inr (Or.inr ⟨r, hr, hf, h.1.symm, h.2.symm⟩)

theorem archive_of_eq {n : Nat} {d : GenericDAO n} {id : String} {c dl : Time}
    {cr t : List String} {data : Data} {s s1 : State n} {res : Option Error}
    (h : d.archive id c dl cr t data s = (res, s1)) :
    (res = none ∧
      s1.db = { s.db with
        archived := s.db.archived ++
          [{ id := id, creationTimestamp := c, deletionTimestamp := dl,
             archivalTimestamp := s.db.now, creators := cr, tenants := t, data := data }]
        rows := s.db.rows.filter fun r => !decide (r.id = id) } ∧
      s1.statements = s.statements ++
        [Statement.insertArchived d.table id c dl cr t data, Statement.delete d.table id]) ∨
    (∃ err, res = some err ∧
      (s1.db = s.db ∨
        s1.db = { s.db with
          archived := s.db.archived ++
            [{ id := id, creationTimestamp := c, deletionTimestamp := dl,
               archivalTimestamp := s.db.now, creators := cr, tenants := t, data := data }] })) := by
  unfold GenericDAO.archive State.insertArchived State.deleteRow State.sent at h
  dsimp only at h
  split at h
  · rename_i err s0 heq
    split at heq
    · simp only [Prod.mk.injEq, Option.some.injEq] at heq h
      obtain ⟨h1, h2⟩ := h
      subst h1 h2
      obtain ⟨-, h3⟩ := heq
      subst h3
      exact Or.inr ⟨_, rfl, Or.inl rfl⟩
    · simp at heq
  · rename_i s0 heq
    split at heq
    · simp at heq
    · simp only [Prod.mk.injEq, true_and] at heq
      subst heq
      split at h
      · simp only [Prod.mk.injEq] at h
        obtain ⟨h1, h2⟩ := h
        subst h1 h2
        exact Or.inr ⟨_, rfl, Or.inr rfl⟩
      · simp only [Prod.mk.injEq] at h
        obtain ⟨h1, h2⟩ := h
        subst h1 h2
        exact Or.inl ⟨rfl, rfl, by simp⟩

theorem fireEvent_none_of_eq {n : Nat} {d : GenericDAO n} {ctx : Context} {event : Event n}
    {s s1 : State n} (h : d.fireEvent ctx event s = (none, s1)) :
    s1 = { s with calls := s.calls ++
      (List.range d.eventCallbacks.length).map fun k => (k, { event with table := d.table }) } := by
  unfold GenericDAO.fireEvent at h
  rcases fireEventLoop_cases ctx { event with table := d.table } d.eventCallbacks 0 s with
    ⟨-, h1⟩ | ⟨pre, cb, post, e, -, -, -, h1⟩
  · rw [h1] at h
    simp only [Prod.mk.injEq, true_and, Nat.zero_add] at h
    exact h.symm
  · rw [h1] at h
    simp at h

/-! ## Properties of `create` -/

theorem newId_ne_empty {n : Nat} (s : State n) : (newId s).1 ≠ "" := by
  simp [newId, uuidString, String.ext_iff]

theorem create_ok {n : Nat} (d : GenericDAO n) (ctx : Context) (object : Object n) (s : State n)
    (created : Object n) (h : (d.create ctx object s).result = Except.ok created) :
    ∃ creators tenants data,
      d.attributionLogic.determineAssignedCreators ctx = Except.ok creators ∧
      d.tenancyLogic.determineAssignedTenants ctx = Except.ok tenants ∧
      d.marshalData object = Except.ok data ∧
      created.id = (if object.id = "" then newId s else (object.id, s)).1 ∧
      (∀ r ∈ s.db.rows, r.id ≠ created.id) ∧
      created = setMetadata ((cloneObject object).setId created.id)
        (some (makeMetadata s.db.now 0 (getFinalizers (getMetadata object)) (sliceItems creators)
          (sliceItems tenants))) ∧
      (d.create ctx object s).state =
        { s with
          random := (if object.id = "" then newId s else (object.id, s)).2.random
          db := { s.db with rows := s.db.rows ++
            [{ id := created.id, creationTimestamp := s.db.now, deletionTimestamp := 0,
               finalizers := getFinalizers (getMetadata object), creators := sliceItems creators,
               tenants := sliceItems tenants, data := data }] }
          statements := s.statements ++
            [Statement.insert d.table created.id (getFinalizers (getMetadata object))
              (sliceItems creators) (sliceItems tenants) data]
          calls := s.calls ++ (List.range d.eventCallbacks.length).map fun k =>
            (k, { table := d.table, type := EventType.created, object := created }) } := by
  revert h
  unfold GenericDAO.create
  dsimp only
  obtain ⟨h01, h02, h03, h04⟩ := newId_frame object s
  generalize (if object.id = "" then newId s else (object.id, s)) = p at *
  split
  · simp
  · rename_i creators hcr
    split
    · simp
    · rename_i tenants htn
      split
      · simp
      · rename_i data hdata
        split
        · simp
        · rename_i ct dt s1 heq
          obtain ⟨hct, hdt, hnodup, -, hs1⟩ := insert_ok_of_eq heq
          split
          · simp
          · rename_i s2 hfire
            have hs2 := fireEvent_none_of_eq hfire
            intro h
            simp only [Except.ok.injEq] at h
            refine ⟨creators, tenants, data, hcr, htn, hdata, ?_, ?_, ?_, ?_⟩
            · rw [← h]; rfl
            · rw [← h, ← h02]; exact hnodup
            · rw [← h, hct, hdt, h02]; rfl
            · rw [hs2, hs1, ← h]
              simp only [State.sent, h01, h02, h03, h04, hct, hdt]
              rfl

theorem create_object_unchanged {n : Nat} (d : GenericDAO n) (ctx : Context) (object : Object n)
    (s : State n) : (d.create ctx object s).object = object := by
  unfold GenericDAO.create
  dsimp only
  generalize (if object.id = "" then newId s else (object.id, s)) = p
  repeat' split
  all_goals rfl

/-- C9: a successful `create` returns a copy of the object with its payload and with: the
supplied identifier when there is one, else the generated one, which is not empty; as
creators and tenants the lists of the attribution and of the tenancy logic, nil read as
empty; as timestamps the ones of the inserted row, which the insert returned. Each
callback is called once, with the `created` event that carries the returned object. The
object that was passed is left as it was. -/
theorem create_returns_populated_copy {n : Nat} (d : GenericDAO n) (ctx : Context)
    (object : Object n) (s : State n) (created : Object n)
    (h : (d.create ctx object s).result = Except.ok created) :
    (object.id ≠ "" → created.id = object.id) ∧
    (object.id = "" → created.id = (newId s).1 ∧ created.id ≠ "") ∧
    (∃ creators tenants creationTs deletionTs data,
      d.attributionLogic.determineAssignedCreators ctx = Except.ok creators ∧
      d.tenancyLogic.determineAssignedTenants ctx = Except.ok tenants ∧
      (d.create ctx object s).state.db.rows = s.db.rows ++
        [{ id := created.id, creationTimestamp := creationTs, deletionTimestamp := deletionTs,
           finalizers := getFinalizers object.metadata, creators := sliceItems creators,
           tenants := sliceItems tenants, data := data }] ∧
      created.metadata = some
        { creationTimestamp := if creationTs ≠ 0 then some creationTs else none
          deletionTimestamp := if deletionTs ≠ 0 then some deletionTs else none
          finalizers := getFinalizers object.metadata
          creators := sliceItems creators
          tenants := sliceItems tenants }) ∧
    created.payload = object.payload ∧
    (d.create ctx object s).state.calls = s.calls ++
      (List.range d.eventCallbacks.length).map (fun k =>
        (k, { table := d.table, type := EventType.created, object := created })) ∧
    (d.create ctx object s).object = object := by
  obtain ⟨creators, tenants, data, hcr, htn, -, hid, -, hc, hs⟩ := create_ok d ctx object s created h
  refine ⟨?_, ?_, ⟨creators, tenants, s.db.now, 0, data, hcr, htn, ?_, ?_⟩, ?_, ?_,
    create_object_unchanged d ctx object s⟩
  · intro hne
    rw [hid, if_neg hne]
  · intro he
    rw [hid, if_pos he]
    exact ⟨rfl, newId_ne_empty s⟩
  · rw [hs]; rfl
  · rw [hc]; rfl
  · rw [hc]; rfl
  · rw [hs]

/-- C9, at an instance: an object without identifier gets a generated one. -/
theorem create_returns_populated_copy_witness :
    (demoNotifyingDAO.create demoContext demoNewObject demoState).result =
      Except.ok demoCreatedObject ∧
    demoCreatedObject.id = (newId demoState).1 ∧ demoCreatedObject.id ≠ "" :=
  ⟨rfl, (create_returns_populated_copy demoNotifyingDAO demoContext demoNewObject demoState
    demoCreatedObject rfl).2.1 rfl⟩

/-! ## Properties of `get` -/

theorem scanObject_id {n : Nat} (d : GenericDAO n) (id : String) (r : Row) (o : Object n)
    (h : d.scanObject id r = Except.ok o) :
    o.id = id ∧
    o.metadata = some (makeMetadata r.creationTimestamp r.deletionTimestamp r.finalizers
      r.creators r.tenants) ∧
    d.unmarshal r.data = Except.ok o.payload := by
  unfold GenericDAO.scanObject GenericDAO.unmarshalData at h
  dsimp only at h
  cases hu : d.unmarshal r.data with
  | error err => simp [hu] at h
  | ok p =>
    simp only [hu, Except.ok.injEq] at h
    subst h
    exact ⟨rfl, rfl, rfl⟩

theorem scanObject_ok {n : Nat} (d : GenericDAO n) (id : String) (r : Row) (p : Payload n)
    (h : d.unmarshal r.data = Except.ok p) :
    d.scanObject id r = Except.ok
      { id := id
        metadata := some (makeMetadata r.creationTimestamp r.deletionTimestamp r.finalizers
          r.creators r.tenants)
        payload := p } := by
  unfold GenericDAO.scanObject GenericDAO.unmarshalData
  simp [h, Object.setId, setMetadata, newObject]

theorem get_of_eq {n : Nat} {d : GenericDAO n} {ctx : Context} {id : String} {s s1 : State n}
    {o : Object n} (h : d.get ctx id s = (Except.ok (some o), s1)) :
    id ≠ "" ∧
    ∃ visible r, d.tenancyLogic.determineVisibleTenants ctx = Except.ok visible ∧
      s.db.rows.find? (fun r => decide (r.id = id) && visibleTo visible r) = some r ∧
      d.scanObject id r = Except.ok o := by
  unfold GenericDAO.get at h
  split at h
  · simp at h
  · rename_i hid
    refine ⟨hid, ?_⟩
    cases hv : d.tenancyLogic.determineVisibleTenants ctx with
    | error err =>
      simp [GenericDAO.addTenancyFilter, hv] at h
    | ok visible =>
      obtain ⟨filter, ps, hat, hev⟩ := addTenancyFilter_id d ctx id visible hv
      rw [hat] at h
      simp only at h
      split at h
      · simp at h
      · simp at h
      · rename_i row s2 hq
        obtain ⟨-, hres⟩ := queryOne_of_eq hq
        rcases hres with ⟨err, h1, -⟩ | ⟨h1, -⟩
        · simp at h1
        · simp only [Except.ok.injEq, hev] at h1
          split at h
          · simp at h
          · rename_i obj hscan
            simp only [Prod.mk.injEq, Except.ok.injEq, Option.some.injEq] at h
            refine ⟨visible, row, rfl, h1.symm, ?_⟩
            rw [hscan, h.1]

theorem get_none_of_absent {n : Nat} (d : GenericDAO n) (ctx : Context) (id : String)
    (s : State n) (visible : Option (List String)) (hid : id ≠ "")
    (hv : d.tenancyLogic.determineVisibleTenants ctx = Except.ok visible)
    (hf : ∀ st, s.engine.failure st = none)
    (habs : ∀ r ∈ s.db.rows, r.id = id → visibleTo visible r = false) :
    ∃ filter ps, d.get ctx id s =
      (Except.ok none, s.sent (Statement.selectOne d.table filter ps)) := by
  unfold GenericDAO.get
  rw [if_neg hid]
  obtain ⟨filter, ps, hat, hev⟩ := addTenancyFilter_id d ctx id visible hv
  rw [hat]
  refine ⟨filter, ps, ?_⟩
  have hfind : (s.db.rows.find? fun r => s.engine.evalWhere filter ps r) = none := by
    rw [List.find?_eq_none]
    intro r hr
    rw [hev]
    by_cases hrid : r.id = id
    · simp [hrid, habs r hr hrid]
    · simp [hrid]
  simp only [State.queryOne, hf, hfind]

theorem get_some_of_present {n : Nat} (d : GenericDAO n) (ctx : Context) (id : String)
    (s : State n) (visible : Option (List String)) (r : Row) (p : Payload n) (hid : id ≠ "")
    (hv : d.tenancyLogic.determineVisibleTenants ctx = Except.ok visible)
    (hf : ∀ st, s.engine.failure st = none)
    (hfind : s.db.rows.find? (fun r => decide (r.id = id) && visibleTo visible r) = some r)
    (hp : d.unmarshal r.data = Except.ok p) :
    ∃ filter ps, d.get ctx id s =
      (Except.ok (some
        { id := id
          metadata := some (makeMetadata r.creationTimestamp r.deletionTimestamp r.finalizers
            r.creators r.tenants)
          payload := p }), s.sent (Statement.selectOne d.table filter ps)) := by
  unfold GenericDAO.get
  rw [if_neg hid]
  obtain ⟨filter, ps, hat, hev⟩ := addTenancyFilter_id d ctx id visible hv
  rw [hat]
  refine ⟨filter, ps, ?_⟩
  have hfind2 : (s.db.rows.find? fun r => s.engine.evalWhere filter ps r) = some r := by
    rw [← hfind]
    congr 1
    funext r
    exact hev s.engine r
  simp only [State.queryOne, hf, hfind2, scanObject_ok d id r p hp]

/-- C10: `get` fails for the empty identifier and leaves the transaction as it was, so no
statement is sent. For another identifier, when the tenancy logic answers and the
statement is not refused: without a row of this identifier that the caller can see, the
result is nil without error and the tables are unchanged; every object that `get` returns
has the requested identifier; and after a successful `create`, a `get` of the returned
identifier by a caller who can see the tenants of the object returns an object with this
identifier, given that the decoder accepts what the encoder wrote. -/
theorem get_contract {n : Nat} (d : GenericDAO n) (ctx ctx0 : Context) (id : String)
    (s s0 : State n) (x c : Object n) (visible : Option (List String)) :
    d.get ctx "" s = (Except.error "object identifier is mandatory", s) ∧
    (id ≠ "" → d.tenancyLogic.determineVisibleTenants ctx = Except.ok visible →
      (∀ st, s.engine.failure st = none) →
      (∀ r ∈ s.db.rows, r.id = id → visibleTo visible r = false) →
      (d.get ctx id s).1 = Except.ok none ∧ (d.get ctx id s).2.db = s.db) ∧
    (∀ o, (d.get ctx id s).1 = Except.ok (some o) → o.id = id) ∧
    ((d.create ctx0 x s0).result = Except.ok c →
      d.tenancyLogic.determineVisibleTenants ctx = Except.ok visible →
      (∀ st, s0.engine.failure st = none) →
      (∀ m, c.metadata = some m →
        sliceLen visible = 0 ∨ overlaps m.tenants (sliceItems visible) = true) →
      (∀ data, d.marshalData x = Except.ok data → ∃ p, d.unmarshal data = Except.ok p) →
      ∃ o, (d.get ctx c.id (d.create ctx0 x s0).state).1 = Except.ok (some o) ∧ o.id = c.id) := by
  refine ⟨by simp [GenericDAO.get], ?_, ?_, ?_⟩
  · intro hid hv hf habs
    obtain ⟨filter, ps, h⟩ := get_none_of_absent d ctx id s visible hid hv hf habs
    rw [h]
    exact ⟨rfl, rfl⟩
  · intro o h
    obtain ⟨-, visible, r, -, -, hscan⟩ :=
      get_of_eq (show d.get ctx id s = (Except.ok (some o), (d.get ctx id s).2) from
        Prod.ext h rfl)
    exact (scanObject_id d id r o hscan).1
  · intro hc hv hf hvis hcodec
    obtain ⟨creators, tenants, data, -, -, hdata, hid, hnodup, hcm, hs⟩ :=
      create_ok d ctx0 x s0 c hc
    obtain ⟨p, hp⟩ := hcodec data hdata
    have hne : c.id ≠ "" := by
      rw [hid]
      split
      · exact newId_ne_empty s0
      · assumption
    have hmeta : c.metadata = some (makeMetadata s0.db.now 0 (getFinalizers (getMetadata x))
        (sliceItems creators) (sliceItems tenants)) := by
      rw [hcm]; rfl
    have hrowvis := hvis _ hmeta
    have hfind : (d.create ctx0 x s0).state.db.rows.find?
        (fun r => decide (r.id = c.id) && visibleTo visible r) =
        some { id := c.id, creationTimestamp := s0.db.now, deletionTimestamp := 0,
               finalizers := getFinalizers (getMetadata x), creators := sliceItems creators,
               tenants := sliceItems tenants, data := data } := by
      rw [hs]
      simp only [List.find?_append]
      have h1 : s0.db.rows.find? (fun r => decide (r.id = c.id) && visibleTo visible r) = none := by
        rw [List.find?_eq_none]
        intro r hr
        simp [hnodup r hr]
      rw [h1]
      have h2 : visibleTo visible
          { id := c.id, creationTimestamp := s0.db.now, deletionTimestamp := 0,
            finalizers := getFinalizers (getMetadata x), creators := sliceItems creators,
            tenants := sliceItems tenants, data := data } = true := by
        simp only [visibleTo, Bool.or_eq_true, beq_iff_eq]
        simpa [makeMetadata] using hrowvis
      simp [h2]
    have hf2 : ∀ st, (d.create ctx0 x s0).state.engine.failure st = none := by
      rw [hs]; exact hf
    obtain ⟨filter, ps, hget⟩ :=
      get_some_of_present d ctx c.id (d.create ctx0 x s0).state visible _ p hne hv hf2 hfind hp
    rw [hget]
    exact ⟨_, rfl, rfl⟩

/-- C10, at an instance: the object created from `demoNewObject` is read back. -/
theorem get_contract_witness :
    (demoNotifyingDAO.create demoContext demoNewObject demoState).result =
      Except.ok demoCreatedObject ∧
    demoNotifyingDAO.tenancyLogic.determineVisibleTenants demoContext =
      Except.ok (some ["shared"]) ∧
    ∃ o, (demoNotifyingDAO.get demoContext demoCreatedObject.id
        (demoNotifyingDAO.create demoContext demoNewObject demoState).state).1 =
          Except.ok (some o) ∧ o.id = demoCreatedObject.id :=
  ⟨rfl, rfl,
    (get_contract demoNotifyingDAO demoContext demoContext "a" demoState demoState demoNewObject
      demoCreatedObject (some ["shared"])).2.2.2 rfl rfl (fun _ => rfl)
      (fun m hm => Or.inr (by rw [← Option.some.inj hm]; decide))
      (fun data _ => ⟨_, rfl⟩)⟩

/-! ## Properties of `update` -/

theorem update_pruned {n : Nat} (d : GenericDAO n) (ctx : Context) (object : Object n)
    (s : State n) (current : Option (Object n)) (hid : object.id ≠ "")
    (hget : (d.get ctx object.id s).1 = Except.ok current)
    (heq : equivalent current (some object) = true) :
    d.update ctx object s = ⟨Except.ok none, object, (d.get ctx object.id s).2⟩ := by
  unfold GenericDAO.update
  dsimp only
  rw [if_neg hid]
  have hg : d.get ctx object.id s = (Except.ok current, (d.get ctx object.id s).2) :=
    Prod.ext hget rfl
  generalize (d.get ctx object.id s).2 = s1 at hg
  rw [hg]
  simp only [heq, if_true]

/-- Claim C1, as stated, fails: the row `a` is stored and decodes to `demoObjectA`. A caller
whose visible tenants are `other` does not see the row, and sends that very object:
`update` reads nothing for the identifier, sends the `UPDATE` statement and calls both
callbacks with an event of type `updated`. -/
theorem update_of_hidden_equivalent_object_mutates :
    demoState.db.rows = [demoRowA, demoRowB] ∧
    (demoNotifyingDAO.get demoContext "a" demoState).1 = Except.ok (some demoObjectA) ∧
    demoObjectA.id = "a" ∧
    equivalent (some demoObjectA) (some demoObjectA) = true ∧
    demoOtherDAO.tenancyLogic.determineVisibleTenants demoContext =
      Except.ok (some ["other"]) ∧
    visibleTo (some ["other"]) demoRowA = false ∧
    (demoOtherDAO.get demoContext "a" demoState).1 = Except.ok none ∧
    (demoOtherDAO.update demoContext demoObjectA demoState).state.statements =
      [Statement.selectOne "vms" "(id = $1) and tenants && $2"
          [Param.text "a", Param.textArray ["other"]],
        Statement.update "vms" [] "small" "a"] ∧
    (Statement.update "vms" [] "small" "a").isMutation = true ∧
    (demoOtherDAO.update demoContext demoObjectA demoState).state.calls.map
        (fun call => (call.1, call.2.type)) =
      [(0, EventType.updated), (1, EventType.updated)] := by
  refine ⟨rfl, rfl, rfl, by decide, rfl, by decide, rfl, by decide, rfl, by decide⟩

/-- Claim C1, amended: when the stored object is the one that `get` returns to the caller
for the identifier of the incoming object, and it is equivalent to the incoming object,
`update` returns without error, the two tables are as before, no callback has been called,
and the only statement sent, if any, is the `select` of the read: no `UPDATE`, `INSERT` or
`DELETE`. -/
theorem update_equivalent_no_mutation {n : Nat} (d : GenericDAO n) (ctx : Context)
    (object stored : Object n) (s : State n)
    (hget : (d.get ctx object.id s).1 = Except.ok (some stored))
    (heq : equivalent (some stored) (some object) = true) :
    (d.update ctx object s).result = Except.ok none ∧
    (d.update ctx object s).state.db = s.db ∧
    (d.update ctx object s).state.calls = s.calls ∧
    (∃ sent, (d.update ctx object s).state.statements = s.statements ++ sent ∧
      ∀ st ∈ sent, st.isMutation = false) := by
  have hg : d.get ctx object.id s = (Except.ok (some stored), (d.get ctx object.id s).2) :=
    Prod.ext hget rfl
  have hid : object.id ≠ "" := (get_of_eq hg).1
  rw [update_pruned d ctx object s (some stored) hid hget heq]
  obtain ⟨h1, h2, -, -, h5⟩ := get_frame_of_eq hg
  refine ⟨rfl, h2, h1, ?_⟩
  rcases h5 with h5 | ⟨filter, ps, h5⟩
  · exact ⟨[], by simpa using h5, by simp⟩
  · exact ⟨_, h5, by simp [Statement.isMutation]⟩

/-- Claim C1, amended, at an instance: the stored object `a` is sent back with other
timestamps by a caller that sees it. -/
theorem update_equivalent_no_mutation_witness :
    (demoNotifyingDAO.get demoContext demoTouchedObjectA.id demoState).1 =
      Except.ok (some demoObjectA) ∧
    equivalent (some demoObjectA) (some demoTouchedObjectA) = true ∧
    (demoNotifyingDAO.update demoContext demoTouchedObjectA demoState).result = Except.ok none ∧
    (demoNotifyingDAO.update demoContext demoTouchedObjectA demoState).state.db = demoState.db ∧
    (demoNotifyingDAO.update demoContext demoTouchedObjectA demoState).state.calls =
      demoState.calls :=
  ⟨rfl, by decide,
    (update_equivalent_no_mutation demoNotifyingDAO demoContext demoTouchedObjectA demoObjectA
      demoState rfl (by decide)).1,
    (update_equivalent_no_mutation demoNotifyingDAO demoContext demoTouchedObjectA demoObjectA
      demoState rfl (by decide)).2.1,
    (update_equivalent_no_mutation demoNotifyingDAO demoContext demoTouchedObjectA demoObjectA
      demoState rfl (by decide)).2.2.1⟩

theorem update_cases {n : Nat} (d : GenericDAO n) (ctx : Context) (o : Object n) (s : State n) :
    ((d.update ctx o s).state.db = s.db ∧ (d.update ctx o s).state.calls = s.calls ∧
      (((d.update ctx o s).result = Except.ok none ∧
          ∃ cur, (d.get ctx o.id s).1 = Except.ok cur ∧ equivalent cur (some o) = true) ∨
        ∃ e, (d.update ctx o s).result = Except.error e)) ∨
    ∃ data r0, d.marshalData o = Except.ok data ∧
      s.db.rows.find? (fun r => decide (r.id = o.id)) = some r0 ∧
      (((d.update ctx o s).state.db = s.db.updateRow o.id (getFinalizers (getMetadata o)) data ∧
          ∃ e, (d.update ctx o s).result = Except.error e) ∨
        ((d.update ctx o s).state.db = s.db.updateRow o.id (getFinalizers (getMetadata o)) data ∧
          (d.update ctx o s).result = Except.ok (some (updatedObject o r0)) ∧
          ¬ (r0.deletionTimestamp ≠ 0 ∧ getFinalizers (getMetadata o) = []) ∧
          (d.update ctx o s).state.calls = s.calls ++
            (List.range d.eventCallbacks.length).map (fun k =>
              (k, { table := d.table, type := EventType.updated,
                    object := updatedObject o r0 }))) ∨
        (r0.deletionTimestamp ≠ 0 ∧ getFinalizers (getMetadata o) = [] ∧
          (d.update ctx o s).state.db =
            (s.db.updateRow o.id (getFinalizers (getMetadata o)) data).addArchived
              (r0.toArchived data s.db.now) ∧
          ∃ e, (d.update ctx o s).result = Except.error e) ∨
        (r0.deletionTimestamp ≠ 0 ∧ getFinalizers (getMetadata o) = [] ∧
          (d.update ctx o s).state.db =
            ((s.db.updateRow o.id (getFinalizers (getMetadata o)) data).addArchived
              (r0.toArchived data s.db.now)).removeRow o.id ∧
          (d.update ctx o s).result = Except.ok (some (updatedObject o r0)) ∧
          (d.update ctx o s).state.calls = s.calls ++
            (List.range d.eventCallbacks.length).map (fun k =>
              (k, { table := d.table, type := EventType.updated,
                    object := updatedObject o r0 })))) := by
  unfold GenericDAO.update
  dsimp only
  split
  · exact Or.inl ⟨rfl, rfl, Or.inr ⟨_, rfl⟩⟩
  · split
    · rename_i err s0 hg
      obtain ⟨h1, h2, -⟩ := get_frame_of_eq hg
      exact Or.inl ⟨h2, h1, Or.inr ⟨_, rfl⟩⟩
    · rename_i cur s0 hg
      obtain ⟨h01, h02, -⟩ := get_frame_of_eq hg
      split
      · rename_i hequiv
        exact Or.inl ⟨h02, h01, Or.inl ⟨rfl, cur, by rw [hg], hequiv⟩⟩
      · split
        · exact Or.inl ⟨h02, h01, Or.inr ⟨_, rfl⟩⟩
        · rename_i data hdata
          split
          · rename_i err s1 heq
            have := update_error_of_eq heq
            subst this
            exact Or.inl ⟨h02, h01, Or.inr ⟨_, rfl⟩⟩
          · rename_i ct dt cr tn s1 heq
            obtain ⟨⟨r0, hfind, hct, hdt, hcr, htn⟩, -, hs1⟩ := update_ok_of_eq heq
            rw [h02] at hfind
            subst hct hdt hcr htn
            have hdb1 : s1.db = s.db.updateRow o.id (getFinalizers (getMetadata o)) data := by
              rw [hs1]; simp only [State.sent, h02]; rfl
            have hc1 : s1.calls = s.calls := by rw [hs1]; exact h01
            have hr0 : r0.id = o.id := by simpa using List.find?_some hfind
            right
            refine ⟨data, r0, hdata, hfind, ?_⟩
            split
            · rename_i err s2 hfire
              obtain ⟨new, hs2, -⟩ := fireEvent_calls_of_eq hfire
              subst hs2
              exact Or.inl ⟨hdb1, _, rfl⟩
            · rename_i s2 hfire
              have hs2 := fireEvent_none_of_eq hfire
              have hdb2 : s2.db = s1.db := by rw [hs2]
              have hc2 : s2.calls = s.calls ++
                  (List.range d.eventCallbacks.length).map (fun k =>
                    (k, { table := d.table, type := EventType.updated,
                          object := updatedObject o r0 })) := by
                rw [hs2, ← hc1]; rfl
              split
              · rename_i hcond
                have hcond2 : r0.deletionTimestamp ≠ 0 ∧ getFinalizers (getMetadata o) = [] :=
                  ⟨hcond.1, List.length_eq_zero.mp hcond.2⟩
                split
                · rename_i err s3 harch
                  rcases archive_of_eq harch with ⟨h1, -⟩ | ⟨e, -, h2 | h2⟩
                  · simp at h1
                  · exact Or.inl ⟨by rw [h2, hdb2, hdb1], _, rfl⟩
                  · refine Or.inr (Or.inr (Or.inl ⟨hcond2.1, hcond2.2, ?_, _, rfl⟩))
                    rw [h2, hdb2, hdb1]
                    simp [Database.addArchived, Row.toArchived, Database.updateRow, hr0]
                · rename_i s3 harch
                  rcases archive_of_eq harch with ⟨-, h1, -⟩ | ⟨e, h2, -⟩
                  · refine Or.inr (Or.inr (Or.inr ⟨hcond2.1, hcond2.2, ?_, rfl, ?_⟩))
                    · rw [h1, hdb2, hdb1]
                      simp [Database.addArchived, Row.toArchived, Database.updateRow,
                        Database.removeRow, hr0]
                    · rw [archive_calls_of_eq harch, hc2]
                  · simp at h2
              · rename_i hcond
                refine Or.inr (Or.inl ⟨by rw [hdb2, hdb1], rfl, ?_, hc2⟩)
                intro hc
                exact hcond ⟨hc.1, by rw [hc.2]; rfl⟩

theorem equivalent_metadata_of_true {n : Nat} (x y : Object n)
    (h : equivalent (some x) (some y) = true) :
    x.metadata.map Metadata.eraseTimestamps = y.metadata.map Metadata.eraseTimestamps := by
  simp only [equivalent, equivalentMessages, Object.fields, Option.isSome_some,
    bne_self_eq_false, Bool.false_eq_true, if_false, List.all_cons, Bool.and_eq_true] at h
  exact (equivalentField_metadata x y).mp h.2.1

theorem equivalent_none_left {n : Nat} (y : Object n) : equivalent none (some y) = false := by
  simp [equivalent, equivalentMessages]

theorem getFinalizers_eq_nil_iff (m : Option Metadata) :
    getFinalizers m = [] ↔ ∀ md, m = some md → md.finalizers = [] := by
  cases m with
  | none => simp [getFinalizers]
  | some md =>
    simp only [getFinalizers, Option.some.injEq, forall_eq']
    constructor
    · intro h
      have h1 := congrArg List.length h
      rw [List.length_insertionSort] at h1
      have h2 : md.finalizers.dedup = [] := List.length_eq_zero.mp h1
      exact (List.dedup_eq_nil _).mp h2
    · intro h
      rw [h]
      rfl

theorem eq_of_mem_of_id_eq {rows : List Row} (hnodup : (rows.map Row.id).Nodup) {r r0 : Row}
    (hr : r ∈ rows) (hr0 : r0 ∈ rows) (hid : r0.id = r.id) : r0 = r :=
  List.inj_on_of_nodup_map hnodup hr0 hr hid

theorem find_id_eq_of_nodup {rows : List Row} (hnodup : (rows.map Row.id).Nodup) {r r0 : Row}
    {id : String} {p : Row → Bool}
    (hr : r ∈ rows) (hid : r.id = id)
    (hfind : rows.find? (fun x => decide (x.id = id) && p x) = some r0) : r0 = r := by
  have h1 := List.find?_some hfind
  simp only [Bool.and_eq_true, decide_eq_true_eq] at h1
  exact eq_of_mem_of_id_eq hnodup hr (List.mem_of_find?_eq_some hfind) (by rw [h1.1, hid])

theorem map_update_filter (rows : List Row) (id : String) (f : List String) (data : Data) :
    (rows.map fun r => if r.id = id then { r with finalizers := f, data := data } else r).filter
      (fun r => !decide (r.id = id)) = rows.filter fun r => !decide (r.id = id) := by
  induction rows with
  | nil => rfl
  | cons r rest ih =>
    by_cases h : r.id = id
    · simp [h, ih]
    · simp [h, ih]

theorem find_by_id_eq_of_nodup {rows : List Row} (hnodup : (rows.map Row.id).Nodup) {r r0 : Row}
    {id : String} (hr : r ∈ rows) (hid : r.id = id)
    (hfind : rows.find? (fun x => decide (x.id = id)) = some r0) : r0 = r := by
  have h1 := List.find?_some hfind
  simp only [decide_eq_true_eq] at h1
  exact eq_of_mem_of_id_eq hnodup hr (List.mem_of_find?_eq_some hfind) (by rw [h1, hid])

theorem updateRow_ids (db : Database) (id : String) (f : List String) (data : Data) :
    (db.updateRow id f data).rows.map Row.id = db.rows.map Row.id := by
  simp only [Database.updateRow, List.map_map]
  apply List.map_congr_left
  intro r _
  simp only [Function.comp]
  split <;> rfl

/-- C3: for a table whose identifiers are unique and a row of the identifier of the incoming
object. If the row is pending deletion and holds a finalizer, a successful `update` with
an object without finalizers adds to the archive the row with its identifier, creation
and deletion timestamps, creators and tenants and with the payload that the update wrote,
and leaves in the live table the rows of the other identifiers only. If the update
writes a non-empty set of finalizers, or the deletion timestamp of the row is zero, the
archive is unchanged and the live table holds the same identifiers as before. -/
theorem update_archives_when_released {n : Nat} (d : GenericDAO n) (ctx : Context)
    (o : Object n) (s : State n) (r : Row) (hnodup : (s.db.rows.map Row.id).Nodup)
    (hr : r ∈ s.db.rows) (hid : r.id = o.id) :
    (r.deletionTimestamp ≠ 0 → r.finalizers ≠ [] →
      (∀ md, o.metadata = some md → md.finalizers = []) →
      ∀ res, (d.update ctx o s).result = Except.ok res →
      ∃ data, d.marshalData o = Except.ok data ∧
        (d.update ctx o s).state.db.archived = s.db.archived ++
          [{ id := r.id, creationTimestamp := r.creationTimestamp,
             deletionTimestamp := r.deletionTimestamp, archivalTimestamp := s.db.now,
             creators := r.creators, tenants := r.tenants, data := data }] ∧
        (d.update ctx o s).state.db.rows = s.db.rows.filter (fun x => !decide (x.id = r.id))) ∧
    ((getFinalizers o.metadata ≠ [] ∨ r.deletionTimestamp = 0) →
      (d.update ctx o s).state.db.archived = s.db.archived ∧
      (d.update ctx o s).state.db.rows.map Row.id = s.db.rows.map Row.id) := by
  constructor
  · intro hdel hfin hempty res hok
    have hfin0 : getFinalizers (getMetadata o) = [] :=
      (getFinalizers_eq_nil_iff o.metadata).mpr hempty
    rcases update_cases d ctx o s with ⟨-, -, ⟨-, cur, hget, hequiv⟩ | ⟨e, he⟩⟩ |
      ⟨data, r0, hdata, hfind, hcase⟩
    · exfalso
      cases cur with
      | none => simp [equivalent_none_left] at hequiv
      | some c =>
        obtain ⟨-, visible, r1, -, hfind1, hscan⟩ :=
          get_of_eq (show d.get ctx o.id s = (Except.ok (some c), (d.get ctx o.id s).2) from
            Prod.ext hget rfl)
        have hr1 : r1 = r := find_id_eq_of_nodup hnodup hr hid hfind1
        subst hr1
        have hcm := (scanObject_id d o.id r1 c hscan).2.1
        have hmeta := equivalent_metadata_of_true c o hequiv
        rw [hcm] at hmeta
        cases hom : o.metadata with
        | none => rw [hom] at hmeta; simp at hmeta
        | some md =>
          rw [hom] at hmeta
          simp only [Option.map_some', Option.some.injEq, Metadata.eraseTimestamps,
            makeMetadata, Metadata.mk.injEq, true_and] at hmeta
          exact hfin (by rw [hmeta.1]; exact hempty md hom)
    · rw [he] at hok; simp at hok
    · have hr0 : r0 = r := find_by_id_eq_of_nodup hnodup hr hid hfind
      subst hr0
      rcases hcase with ⟨-, e, he⟩ | ⟨-, -, hno, -⟩ | ⟨-, -, -, e, he⟩ | ⟨-, -, hdb, -, -⟩
      · rw [he] at hok; simp at hok
      · exact absurd ⟨hdel, hfin0⟩ hno
      · rw [he] at hok; simp at hok
      · refine ⟨data, hdata, by rw [hdb]; rfl, ?_⟩
        rw [hdb, hid]
        exact map_update_filter s.db.rows o.id _ data
  · intro hcond
    rcases update_cases d ctx o s with ⟨hdb, -, -⟩ | ⟨data, r0, hdata, hfind, hcase⟩
    · rw [hdb]
      exact ⟨rfl, rfl⟩
    · have hr0 : r0 = r := find_by_id_eq_of_nodup hnodup hr hid hfind
      subst hr0
      have hno : ¬ (r0.deletionTimestamp ≠ 0 ∧ getFinalizers (getMetadata o) = []) := by
        rintro ⟨h1, h2⟩
        rcases hcond with h | h
        · exact h h2
        · exact h1 h
      rcases hcase with ⟨hdb, -⟩ | ⟨hdb, -⟩ | ⟨h1, h2, -⟩ | ⟨h1, h2, -⟩
      · rw [hdb]; exact ⟨rfl, updateRow_ids _ _ _ _⟩
      · rw [hdb]; exact ⟨rfl, updateRow_ids _ _ _ _⟩
      · exact absurd ⟨h1, h2⟩ hno
      · exact absurd ⟨h1, h2⟩ hno

/-- C3, at an instance: the finalizer of the pending row `c` is removed. -/
theorem update_archives_when_released_witness :
    (demoPendingState.db.rows.map Row.id).Nodup ∧ demoRowC ∈ demoPendingState.db.rows ∧
    demoRowC.id = demoReleasedObjectC.id ∧ demoRowC.deletionTimestamp ≠ 0 ∧
    demoRowC.finalizers ≠ [] ∧
    (demoNotifyingDAO.update demoContext demoReleasedObjectC demoPendingState).result =
      Except.ok (some demoArchivedObjectC) ∧
    ∃ data, demoNotifyingDAO.marshalData demoReleasedObjectC = Except.ok data ∧
      (demoNotifyingDAO.update demoContext demoReleasedObjectC demoPendingState).state.db.archived =
        demoPendingState.db.archived ++
          [{ id := demoRowC.id, creationTimestamp := demoRowC.creationTimestamp,
             deletionTimestamp := demoRowC.deletionTimestamp,
             archivalTimestamp := demoPendingState.db.now,
             creators := demoRowC.creators, tenants := demoRowC.tenants, data := data }] ∧
      (demoNotifyingDAO.update demoContext demoReleasedObjectC demoPendingState).state.db.rows =
        demoPendingState.db.rows.filter (fun x => !decide (x.id = demoRowC.id)) :=
  ⟨by decide, by decide, rfl, by decide, by decide, rfl,
    (update_archives_when_released demoNotifyingDAO demoContext demoReleasedObjectC
      demoPendingState demoRowC (by decide) (by decide) rfl).1 (by decide) (by decide)
      (fun md hmd => by rw [← Option.some.inj hmd]) _ rfl⟩

/-! ## Properties of `delete` -/

theorem delete_cases {n : Nat} (d : GenericDAO n) (ctx : Context) (id : String) (s : State n) :
    ((d.delete ctx id s).2.db = s.db ∧ (d.delete ctx id s).2.calls = s.calls ∧
      ((∃ e, (d.delete ctx id s).1 = some e) ∨
        ((d.delete ctx id s).1 = none ∧ ∃ visible,
          d.tenancyLogic.determineVisibleTenants ctx = Except.ok visible ∧
          s.db.rows.find? (fun r => decide (r.id = id) && visibleTo visible r) = none))) ∨
    ∃ visible r0, id ≠ "" ∧ d.tenancyLogic.determineVisibleTenants ctx = Except.ok visible ∧
      s.db.rows.find? (fun r => decide (r.id = id) && visibleTo visible r) = some r0 ∧
      (((d.delete ctx id s).2.db = s.db.markDeleted id visible ∧
          ∃ e, (d.delete ctx id s).1 = some e) ∨
        (∃ object, d.scanObject id { r0 with deletionTimestamp := s.db.now } = Except.ok object ∧
          (((d.delete ctx id s).2.db = s.db.markDeleted id visible ∧
              (d.delete ctx id s).1 = none ∧ r0.finalizers ≠ [] ∧
              (d.delete ctx id s).2.calls = s.calls ++
                (List.range d.eventCallbacks.length).map (fun k =>
                  (k, { table := d.table, type := EventType.deleted, object := object }))) ∨
            (r0.finalizers = [] ∧
              (d.delete ctx id s).2.db = (s.db.markDeleted id visible).addArchived
                ({ r0 with deletionTimestamp := s.db.now }.toArchived r0.data s.db.now) ∧
              ∃ e, (d.delete ctx id s).1 = some e) ∨
            (r0.finalizers = [] ∧
              (d.delete ctx id s).2.db = ((s.db.markDeleted id visible).addArchived
                ({ r0 with deletionTimestamp := s.db.now }.toArchived r0.data
                  s.db.now)).removeRow id ∧
              (d.delete ctx id s).1 = none ∧
              (d.delete ctx id s).2.calls = s.calls ++
                (List.range d.eventCallbacks.length).map (fun k =>
                  (k, { table := d.table, type := EventType.deleted, object := object })))))) := by
  unfold GenericDAO.delete
  split
  · exact Or.inl ⟨rfl, rfl, Or.inl ⟨_, rfl⟩⟩
  · rename_i hid
    cases hv : d.tenancyLogic.determineVisibleTenants ctx with
    | error err =>
      have hat : d.addTenancyFilter ctx "id = $1" [Param.text id] =
          (some err, "id = $1", [Param.text id]) := by
        simp only [GenericDAO.addTenancyFilter, hv]
      rw [hat]
      exact Or.inl ⟨rfl, rfl, Or.inl ⟨_, rfl⟩⟩
    | ok visible =>
      obtain ⟨filter, ps, hat, hev⟩ := addTenancyFilter_id d ctx id visible hv
      rw [hat]
      dsimp only
      have hpred : (fun r => s.engine.evalWhere filter ps r) =
          fun r => decide (r.id = id) && visibleTo visible r := funext (hev s.engine)
      split
      · rename_i err s1 heq
        rcases markDeleted_of_eq heq with ⟨e, -, hs1, -⟩ | ⟨h, -⟩ | ⟨r, -, -, h, -⟩
        · subst hs1
          exact Or.inl ⟨rfl, rfl, Or.inl ⟨_, rfl⟩⟩
        · simp at h
        · simp at h
      · rename_i s1 heq
        rcases markDeleted_of_eq heq with ⟨e, h, -⟩ | ⟨-, hs1, -, hnone⟩ | ⟨r, -, -, h, -⟩
        · simp at h
        · subst hs1
          rw [hpred] at hnone
          exact Or.inl ⟨rfl, rfl, Or.inr ⟨rfl, visible, rfl, hnone⟩⟩
        · simp at h
      · rename_i row s1 heq
        rcases markDeleted_of_eq heq with ⟨e, h, -⟩ | ⟨h, -⟩ | ⟨r0, hfind, -, hrow, hs1⟩
        · simp at h
        · simp at h
        · rw [hpred] at hfind
          simp only [hev] at hs1
          simp only [Except.ok.injEq, Option.some.injEq] at hrow
          subst hrow
          have hdb1 : s1.db = s.db.markDeleted id visible := by rw [hs1]; rfl
          have hc1 : s1.calls = s.calls := by rw [hs1]; rfl
          right
          refine ⟨visible, r0, hid, rfl, hfind, ?_⟩
          split
          · exact Or.inl ⟨hdb1, _, rfl⟩
          · rename_i object hscan
            split
            · rename_i err s2 hfire
              obtain ⟨new, hs2, -⟩ := fireEvent_calls_of_eq hfire
              subst hs2
              exact Or.inl ⟨hdb1, _, rfl⟩
            · rename_i s2 hfire
              have hs2 := fireEvent_none_of_eq hfire
              have hdb2 : s2.db = s1.db := by rw [hs2]
              have hc2 : s2.calls = s.calls ++
                  (List.range d.eventCallbacks.length).map (fun k =>
                    (k, { table := d.table, type := EventType.deleted, object := object })) := by
                rw [hs2, ← hc1]
              have hr0 : r0.id = id := by
                have := List.find?_some hfind
                simp only [Bool.and_eq_true, decide_eq_true_eq] at this
                exact this.1
              split
              · rename_i hlen
                have hfin : r0.finalizers = [] := List.length_eq_zero.mp hlen
                generalize harch : d.archive id r0.creationTimestamp s.db.now r0.creators
                  r0.tenants r0.data s2 = res
                obtain ⟨e, s3⟩ := res
                rcases archive_of_eq harch with ⟨h1, h2, -⟩ | ⟨e2, h1, h2 | h2⟩
                · refine Or.inr ⟨object, hscan, Or.inr (Or.inr ⟨hfin, ?_, h1, ?_⟩)⟩
                  · show s3.db = _
                    rw [h2, hdb2, hdb1]
                    simp [Database.addArchived, Row.toArchived, Database.markDeleted,
                      Database.removeRow, hr0]
                  · show s3.calls = _
                    rw [archive_calls_of_eq harch, hc2]
                · exact Or.inl ⟨by show s3.db = _; rw [h2, hdb2, hdb1], e2, h1⟩
                · refine Or.inr ⟨object, hscan, Or.inr (Or.inl ⟨hfin, ?_, e2, h1⟩)⟩
                  show s3.db = _
                  rw [h2, hdb2, hdb1]
                  simp [Database.addArchived, Row.toArchived, Database.markDeleted, hr0]
              · rename_i hlen
                refine Or.inr ⟨object, hscan, Or.inl ⟨by rw [hdb2, hdb1], rfl, ?_, hc2⟩⟩
                intro hfin
                exact hlen (by rw [hfin]; rfl)

theorem map_mark_filter (rows : List Row) (id : String) (p : Row → Bool) (now : Time) :
    (rows.map fun r =>
      if decide (r.id = id) && p r then { r with deletionTimestamp := now } else r).filter
      (fun r => !decide (r.id = id)) = rows.filter fun r => !decide (r.id = id) := by
  induction rows with
  | nil => rfl
  | cons r rest ih =>
    simp only [Bool.and_eq_true, decide_eq_true_eq] at ih
    by_cases h : r.id = id
    · by_cases hp : p r <;> simp [h, hp, ih]
    · simp [h, ih]

theorem delete_absent {n : Nat} (d : GenericDAO n) (ctx : Context) (id : String) (s : State n)
    (visible : Option (List String)) (hid : id ≠ "")
    (hv : d.tenancyLogic.determineVisibleTenants ctx = Except.ok visible)
    (hf : ∀ st, s.engine.failure st = none)
    (habs : ∀ r ∈ s.db.rows, r.id = id → visibleTo visible r = false) :
    ∃ filter ps, d.delete ctx id s = (none, s.sent (Statement.markDeleted d.table filter ps)) := by
  unfold GenericDAO.delete
  rw [if_neg hid]
  obtain ⟨filter, ps, hat, hev⟩ := addTenancyFilter_id d ctx id visible hv
  rw [hat]
  refine ⟨filter, ps, ?_⟩
  have hfind : (s.db.rows.find? fun r => s.engine.evalWhere filter ps r) = none := by
    rw [List.find?_eq_none]
    intro r hr
    rw [hev]
    by_cases hrid : r.id = id
    · simp [hrid, habs r hr hrid]
    · simp [hrid]
  simp only [State.markDeleted, hf, hfind]

/-- C2: for a table whose identifiers are unique and a row of the identifier `id` that the
caller can see, at a time that is not the epoch. After a successful `delete`, no row of
this identifier is left in the live table exactly when the finalizers of the row were
empty; then the archive has gained the row, with the deletion timestamp of now, and the
live table has lost it. Otherwise the archive is unchanged and the row is in the live
table with the deletion timestamp of now, which is not zero. In both cases every callback
was called once, with the `deleted` event of the object of the row. When no row of the
identifier can be seen and the statement is not refused, `delete` returns no error,
changes no table and calls no callback. -/
theorem delete_archives_iff_no_finalizers {n : Nat} (d : GenericDAO n) (ctx : Context)
    (id : String) (s : State n) (visible : Option (List String)) (r : Row)
    (hv : d.tenancyLogic.determineVisibleTenants ctx = Except.ok visible) :
    ((s.db.rows.map Row.id).Nodup → r ∈ s.db.rows → r.id = id → visibleTo visible r = true →
      s.db.now ≠ 0 → (d.delete ctx id s).1 = none →
      ((∀ x ∈ (d.delete ctx id s).2.db.rows, x.id ≠ id) ↔ r.finalizers = []) ∧
      (r.finalizers = [] →
        (d.delete ctx id s).2.db.archived = s.db.archived ++
          [{ id := r.id, creationTimestamp := r.creationTimestamp,
             deletionTimestamp := s.db.now, archivalTimestamp := s.db.now,
             creators := r.creators, tenants := r.tenants, data := r.data }] ∧
        (d.delete ctx id s).2.db.rows = s.db.rows.filter (fun x => !decide (x.id = id))) ∧
      (r.finalizers ≠ [] →
        (d.delete ctx id s).2.db.archived = s.db.archived ∧
        { r with deletionTimestamp := s.db.now } ∈ (d.delete ctx id s).2.db.rows ∧
        ({ r with deletionTimestamp := s.db.now } : Row).deletionTimestamp ≠ 0) ∧
      ∃ object, d.scanObject id { r with deletionTimestamp := s.db.now } = Except.ok object ∧
        object.id = id ∧
        (d.delete ctx id s).2.calls = s.calls ++
          (List.range d.eventCallbacks.length).map (fun k =>
            (k, { table := d.table, type := EventType.deleted, object := object }))) ∧
    (id ≠ "" → (∀ st, s.engine.failure st = none) →
      (∀ x ∈ s.db.rows, x.id = id → visibleTo visible x = false) →
      (d.delete ctx id s).1 = none ∧ (d.delete ctx id s).2.db = s.db ∧
      (d.delete ctx id s).2.calls = s.calls) := by
  constructor
  · intro hnodup hr hid hvis hnow hok
    have hmatch : (decide (r.id = id) && visibleTo visible r) = true := by simp [hid, hvis]
    have hmarked : ({ r with deletionTimestamp := s.db.now } : Row) ∈
        (s.db.markDeleted id visible).rows := by
      simp only [Database.markDeleted, List.mem_map]
      exact ⟨r, hr, by rw [if_pos hmatch]⟩
    rcases delete_cases d ctx id s with ⟨-, -, ⟨e, he⟩ | ⟨-, v2, hv2, hnone⟩⟩ |
      ⟨v2, r0, -, hv2, hfind, hcase⟩
    · rw [he] at hok; simp at hok
    · exfalso
      rw [hv] at hv2
      simp only [Except.ok.injEq] at hv2
      subst hv2
      rw [List.find?_eq_none] at hnone
      exact hnone r hr hmatch
    · rw [hv] at hv2
      simp only [Except.ok.injEq] at hv2
      subst hv2
      have hr0 : r0 = r := find_id_eq_of_nodup hnodup hr hid hfind
      subst hr0
      rcases hcase with ⟨-, e, he⟩ | ⟨object, hscan, hsub⟩
      · rw [he] at hok; simp at hok
      · have hoid := (scanObject_id d id _ object hscan).1
        rcases hsub with ⟨hdb, -, hfin, hcalls⟩ | ⟨-, -, e, he⟩ | ⟨hfin, hdb, -, hcalls⟩
        · refine ⟨?_, fun h => absurd h hfin, fun _ => ⟨by rw [hdb]; rfl, by rw [hdb]; exact hmarked,
            hnow⟩, object, hscan, hoid, hcalls⟩
          constructor
          · intro hall
            exfalso
            exact hall { r0 with deletionTimestamp := s.db.now } (by rw [hdb]; exact hmarked) hid
          · intro h; exact absurd h hfin
        · rw [he] at hok; simp at hok
        · have hrows : (d.delete ctx id s).2.db.rows =
              s.db.rows.filter (fun x => !decide (x.id = id)) := by
            rw [hdb]
            exact map_mark_filter s.db.rows id (visibleTo visible) s.db.now
          refine ⟨?_, fun _ => ⟨by rw [hdb]; rfl, hrows⟩, fun h => absurd hfin h,
            object, hscan, hoid, hcalls⟩
          constructor
          · intro _; exact hfin
          · intro _ x hx
            rw [hrows] at hx
            simpa using (List.mem_filter.mp hx).2
  · intro hid hf habs
    obtain ⟨filter, ps, h⟩ := delete_absent d ctx id s visible hid hv hf habs
    rw [h]
    exact ⟨rfl, rfl, rfl⟩

/-- C2, at an instance: the row `a`, which holds no finalizer, is deleted. -/
theorem delete_archives_iff_no_finalizers_witness :
    demoNotifyingDAO.tenancyLogic.determineVisibleTenants demoContext =
      Except.ok (some ["shared"]) ∧
    (demoState.db.rows.map Row.id).Nodup ∧ demoRowA ∈ demoState.db.rows ∧
    visibleTo (some ["shared"]) demoRowA = true ∧ demoState.db.now ≠ 0 ∧
    (demoNotifyingDAO.delete demoContext "a" demoState).1 = none ∧
    demoRowA.finalizers = [] ∧
    (∀ x ∈ (demoNotifyingDAO.delete demoContext "a" demoState).2.db.rows, x.id ≠ "a") :=
  ⟨rfl, by decide, by decide, by decide, by decide, rfl, rfl,
    ((delete_archives_iff_no_finalizers demoNotifyingDAO demoContext "a" demoState
      (some ["shared"]) demoRowA rfl).1 (by decide) (by decide) rfl (by decide) (by decide)
      rfl).1.mpr rfl⟩

/-! ## The columns that stay as they were created -/

theorem immutable_map {id : String} {ct : Time} {cr tn : List String} {base : List ArchivedRow}
    {db : Database} (f : Row → Row)
    (hf : ∀ r, (f r).id = r.id ∧ (f r).creationTimestamp = r.creationTimestamp ∧
      (f r).creators = r.creators ∧ (f r).tenants = r.tenants)
    (h : ImmutableColumns id ct cr tn base db) :
    ImmutableColumns id ct cr tn base { db with rows := db.rows.map f } := by
  obtain ⟨hnodup, extra, harch, hcase⟩ := h
  refine ⟨?_, extra, harch, ?_⟩
  · have : (db.rows.map f).map Row.id = db.rows.map Row.id := by
      rw [List.map_map]
      exact List.map_congr_left fun r _ => (hf r).1
    show ((db.rows.map f).map Row.id).Nodup
    rw [this]
    exact hnodup
  · rcases hcase with ⟨r, hr, h1, h2, h3, h4⟩ | h
    · left
      refine ⟨f r, List.mem_map_of_mem f hr, ?_, ?_, ?_, ?_⟩
      · rw [(hf r).1, h1]
      · rw [(hf r).2.1, h2]
      · rw [(hf r).2.2.1, h3]
      · rw [(hf r).2.2.2, h4]
    · exact Or.inr h

theorem immutable_updateRow {id : String} {ct : Time} {cr tn : List String}
    {base : List ArchivedRow} {db : Database} (id2 : String) (f : List String) (data : Data)
    (h : ImmutableColumns id ct cr tn base db) :
    ImmutableColumns id ct cr tn base (db.updateRow id2 f data) := by
  apply immutable_map _ _ h
  intro r
  split <;> exact ⟨rfl, rfl, rfl, rfl⟩

theorem immutable_markDeleted {id : String} {ct : Time} {cr tn : List String}
    {base : List ArchivedRow} {db : Database} (id2 : String) (visible : Option (List String))
    (h : ImmutableColumns id ct cr tn base db) :
    ImmutableColumns id ct cr tn base (db.markDeleted id2 visible) := by
  apply immutable_map _ _ h
  intro r
  split <;> exact ⟨rfl, rfl, rfl, rfl⟩

theorem immutable_insert {id : String} {ct : Time} {cr tn : List String}
    {base : List ArchivedRow} {db : Database} (row : Row)
    (hfresh : ∀ r ∈ db.rows, r.id ≠ row.id)
    (h : ImmutableColumns id ct cr tn base db) :
    ImmutableColumns id ct cr tn base { db with rows := db.rows ++ [row] } := by
  obtain ⟨hnodup, extra, harch, hcase⟩ := h
  refine ⟨?_, extra, harch, ?_⟩
  · show ((db.rows ++ [row]).map Row.id).Nodup
    rw [List.map_append, List.nodup_append]
    refine ⟨hnodup, by simp, ?_⟩
    intro a ha hb
    simp only [List.map_cons, List.map_nil, List.mem_singleton] at hb
    obtain ⟨r, hr, hra⟩ := List.mem_map.mp ha
    exact hfresh r hr (by rw [hra, hb])
  · rcases hcase with ⟨r, hr, h1⟩ | h
    · exact Or.inl ⟨r, List.mem_append_left _ hr, h1⟩
    · exact Or.inr h

theorem immutable_addArchived {id : String} {ct : Time} {cr tn : List String}
    {base : List ArchivedRow} {db : Database} (a : ArchivedRow)
    (h : ImmutableColumns id ct cr tn base db) :
    ImmutableColumns id ct cr tn base (db.addArchived a) := by
  obtain ⟨hnodup, extra, harch, hcase⟩ := h
  refine ⟨hnodup, extra ++ [a], ?_, ?_⟩
  · show db.archived ++ [a] = base ++ (extra ++ [a])
    rw [harch, List.append_assoc]
  · rcases hcase with h | ⟨b, hb, hbid⟩
    · exact Or.inl h
    · exact Or.inr ⟨b, List.mem_append_left _ hb, hbid⟩

theorem immutable_archive {id : String} {ct : Time} {cr tn : List String}
    {base : List ArchivedRow} {db : Database} (a : ArchivedRow)
    (h : ImmutableColumns id ct cr tn base db) :
    ImmutableColumns id ct cr tn base ((db.addArchived a).removeRow a.id) := by
  obtain ⟨hnodup, extra, harch, hcase⟩ := h
  refine ⟨?_, extra ++ [a], ?_, ?_⟩
  · show ((db.rows.filter fun r => !decide (r.id = a.id)).map Row.id).Nodup
    exact (List.Nodup.sublist (List.Sublist.map _ (List.filter_sublist _)) hnodup)
  · show db.archived ++ [a] = base ++ (extra ++ [a])
    rw [harch, List.append_assoc]
  · by_cases hid : a.id = id
    · exact Or.inr ⟨a, by simp, hid⟩
    · rcases hcase with ⟨r, hr, h1, h2⟩ | ⟨b, hb, hbid⟩
      · left
        refine ⟨r, ?_, h1, h2⟩
        show r ∈ db.rows.filter fun r => !decide (r.id = a.id)
        rw [List.mem_filter]
        refine ⟨hr, ?_⟩
        simp only [Bool.not_eq_true', decide_eq_false_iff_not]
        rw [h1]
        exact fun h => hid h.symm
      · exact Or.inr ⟨b, List.mem_append_left _ hb, hbid⟩

theorem list_db {n : Nat} (d : GenericDAO n) (ctx : Context) (request : ListRequest)
    (s : State n) : (d.list ctx request s).2.db = s.db := by
  unfold GenericDAO.list
  split
  · rfl
  · split
    · rfl
    · rename_i fb ps hat
      dsimp only
      rcases queryCount_cases s d.table fb ps with ⟨err, h1⟩ | h1
      · rw [h1]
        rfl
      · rw [h1]
        dsimp only
        generalize hq : (s.sent (Statement.count d.table fb ps)).queryItems d.table fb
          (if d.defaultOrder ≠ "" then d.defaultOrder else "")
          (ps ++ [Param.int (listOffset request)]).length
          (ps ++ [Param.int (listOffset request)] ++ [Param.int (d.listLimit request)]).length
          (ps ++ [Param.int (listOffset request)] ++ [Param.int (d.listLimit request)]) = q
        rcases queryItems_cases (s.sent (Statement.count d.table fb ps)) d.table fb
          (if d.defaultOrder ≠ "" then d.defaultOrder else "")
          (ps ++ [Param.int (listOffset request)]).length
          (ps ++ [Param.int (listOffset request)] ++ [Param.int (d.listLimit request)]).length
          (ps ++ [Param.int (listOffset request)] ++ [Param.int (d.listLimit request)])
          with ⟨err, h2⟩ | ⟨rows, h2⟩
        · rw [h2] at hq
          subst hq
          rfl
        · rw [h2] at hq
          subst hq
          dsimp only
          split <;> rfl

theorem create_db {n : Nat} (d : GenericDAO n) (ctx : Context) (o : Object n) (s : State n) :
    (d.create ctx o s).state.db = s.db ∨
    ∃ row, (∀ r ∈ s.db.rows, r.id ≠ row.id) ∧
      (d.create ctx o s).state.db = { s.db with rows := s.db.rows ++ [row] } := by
  unfold GenericDAO.create
  dsimp only
  obtain ⟨-, h02, -, -⟩ := newId_frame o s
  generalize (if o.id = "" then newId s else (o.id, s)) = p at *
  split
  · exact Or.inl h02
  · rename_i creators hcr
    split
    · exact Or.inl h02
    · rename_i tenants htn
      split
      · exact Or.inl h02
      · rename_i data hdata
        split
        · rename_i err s1 heq
          rw [insert_error_of_eq heq]
          exact Or.inl h02
        · rename_i ct dt s1 heq
          obtain ⟨-, -, hfresh, -, hs1⟩ := insert_ok_of_eq heq
          rw [h02] at hfresh
          have hdb1 : s1.db = { s.db with rows := s.db.rows ++
              [{ id := p.1, creationTimestamp := s.db.now, deletionTimestamp := 0,
                 finalizers := getFinalizers (getMetadata o), creators := sliceItems creators,
                 tenants := sliceItems tenants, data := data }] } := by
            rw [hs1]
            simp only [State.sent, h02]
          right
          refine ⟨{ id := p.1, creationTimestamp := s.db.now, deletionTimestamp := 0,
                    finalizers := getFinalizers (getMetadata o),
                    creators := sliceItems creators, tenants := sliceItems tenants,
                    data := data }, hfresh, ?_⟩
          split
          · rename_i err s2 hfire
            obtain ⟨new, hs2, -⟩ := fireEvent_calls_of_eq hfire
            subst hs2
            exact hdb1
          · rename_i s2 hfire
            obtain ⟨new, hs2, -⟩ := fireEvent_calls_of_eq hfire
            subst hs2
            exact hdb1

theorem immutable_run {n : Nat} (d : GenericDAO n) {id : String} {ct : Time}
    {cr tn : List String} {base : List ArchivedRow} (op : Operation n) (s : State n)
    (h : ImmutableColumns id ct cr tn base s.db) :
    ImmutableColumns id ct cr tn base (op.run d s).db := by
  cases op with
  | list ctx request =>
    show ImmutableColumns id ct cr tn base (d.list ctx request s).2.db
    rw [list_db]; exact h
  | get ctx id2 =>
    show ImmutableColumns id ct cr tn base (d.get ctx id2 s).2.db
    have hdb : (d.get ctx id2 s).2.db = s.db :=
      (get_frame_of_eq (show d.get ctx id2 s = ((d.get ctx id2 s).1, (d.get ctx id2 s).2) from
        rfl)).2.1
    rw [hdb]; exact h
  | create ctx o =>
    show ImmutableColumns id ct cr tn base (d.create ctx o s).state.db
    rcases create_db d ctx o s with h1 | ⟨row, hfresh, h1⟩
    · rw [h1]; exact h
    · rw [h1]; exact immutable_insert row hfresh h
  | update ctx o =>
    show ImmutableColumns id ct cr tn base (d.update ctx o s).state.db
    rcases update_cases d ctx o s with ⟨h1, -⟩ | ⟨data, r0, -, hfind, hcase⟩
    · rw [h1]; exact h
    · have hr0 : r0.id = o.id := by simpa using List.find?_some hfind
      rcases hcase with ⟨h1, -⟩ | ⟨h1, -⟩ | ⟨-, -, h1, -⟩ | ⟨-, -, h1, -⟩
      · rw [h1]; exact immutable_updateRow _ _ _ h
      · rw [h1]; exact immutable_updateRow _ _ _ h
      · rw [h1]; exact immutable_addArchived _ (immutable_updateRow _ _ _ h)
      · rw [h1, ← hr0]
        exact immutable_archive (r0.toArchived data s.db.now) (immutable_updateRow _ _ _ h)
  | delete ctx id2 =>
    show ImmutableColumns id ct cr tn base (d.delete ctx id2 s).2.db
    rcases delete_cases d ctx id2 s with ⟨h1, -⟩ | ⟨visible, r0, -, -, hfind, hcase⟩
    · rw [h1]; exact h
    · have hr0 : r0.id = id2 := by
        have := List.find?_some hfind
        simp only [Bool.and_eq_true, decide_eq_true_eq] at this
        exact this.1
      rcases hcase with ⟨h1, -⟩ | ⟨object, -, ⟨h1, -⟩ | ⟨-, h1, -⟩ | ⟨-, h1, -⟩⟩
      · rw [h1]; exact immutable_markDeleted _ _ h
      · rw [h1]; exact immutable_markDeleted _ _ h
      · rw [h1]; exact immutable_addArchived _ (immutable_markDeleted _ _ h)
      · rw [h1, ← hr0]
        exact immutable_archive
          (({ r0 with deletionTimestamp := s.db.now } : Row).toArchived r0.data s.db.now)
          (immutable_markDeleted _ _ h)

theorem immutable_runOperations {n : Nat} (d : GenericDAO n) {id : String} {ct : Time}
    {cr tn : List String} {base : List ArchivedRow} (ops : List (Operation n)) :
    ∀ s : State n, ImmutableColumns id ct cr tn base s.db →
      ImmutableColumns id ct cr tn base (runOperations d ops s).db := by
  induction ops with
  | nil => intro s h; exact h
  | cons op rest ih =>
    intro s h
    exact ih (op.run d s) (immutable_run d op s h)

/-- C4, amended: in a table whose identifiers are unique, let `create` return the object `c`,
let any sequence of operations of the DAO follow in which no row of the identifier of `c`
is archived, and let then an `update` of this identifier succeed, with any incoming
object. If the update returns an object, its creators, tenants and creation timestamp are
those of `c`; and the stored row of the identifier, in the live table or, when this update
archived it, in the archive, has these creators, tenants and creation timestamp. -/
theorem update_keeps_creation_columns {n : Nat} (d : GenericDAO n) (ctx0 ctx : Context)
    (x o c : Object n) (s0 : State n) (ops : List (Operation n)) (res : Option (Object n))
    (hnodup : (s0.db.rows.map Row.id).Nodup)
    (hc : (d.create ctx0 x s0).result = Except.ok c)
    (hkeep : (runOperations d ops (d.create ctx0 x s0).state).db.archived.filter
        (fun a => decide (a.id = c.id)) =
      (d.create ctx0 x s0).state.db.archived.filter (fun a => decide (a.id = c.id)))
    (ho : o.id = c.id)
    (hu : (d.update ctx o (runOperations d ops (d.create ctx0 x s0).state)).result =
      Except.ok res) :
    ∃ cm, c.metadata = some cm ∧
      (∀ u, res = some u → ∃ um, u.metadata = some um ∧ um.creators = cm.creators ∧
        um.tenants = cm.tenants ∧ um.creationTimestamp = cm.creationTimestamp) ∧
      ((∃ r ∈ (d.update ctx o (runOperations d ops (d.create ctx0 x s0).state)).state.db.rows,
          r.id = c.id ∧ r.creators = cm.creators ∧ r.tenants = cm.tenants ∧
          (if r.creationTimestamp ≠ 0 then some r.creationTimestamp else none) =
            cm.creationTimestamp) ∨
        (∃ a ∈ (d.update ctx o (runOperations d ops (d.create ctx0 x s0).state)).state.db.archived,
          a.id = c.id ∧ a.creators = cm.creators ∧ a.tenants = cm.tenants ∧
          (if a.creationTimestamp ≠ 0 then some a.creationTimestamp else none) =
            cm.creationTimestamp)) := by
  obtain ⟨creators, tenants, data, -, -, -, -, hfresh, hcm, hs1⟩ := create_ok d ctx0 x s0 c hc
  have hmeta : c.metadata = some (makeMetadata s0.db.now 0 (getFinalizers (getMetadata x))
      (sliceItems creators) (sliceItems tenants)) := by
    rw [hcm]; rfl
  -- the invariant holds after the creation
  have hinv1 : ImmutableColumns c.id s0.db.now (sliceItems creators) (sliceItems tenants)
      (d.create ctx0 x s0).state.db.archived (d.create ctx0 x s0).state.db := by
    refine ⟨?_, [], by simp, Or.inl ?_⟩
    · rw [hs1]
      show ((s0.db.rows ++ [_]).map Row.id).Nodup
      rw [List.map_append, List.nodup_append]
      refine ⟨hnodup, by simp, ?_⟩
      intro a ha hb
      simp only [List.map_cons, List.map_nil, List.mem_singleton] at hb
      obtain ⟨r, hr, hra⟩ := List.mem_map.mp ha
      exact hfresh r hr (by rw [hra, hb])
    · rw [hs1]
      exact ⟨_, List.mem_append_right _ (List.mem_singleton_self _), rfl, rfl, rfl, rfl⟩
  -- and after the operations that follow
  have hinv2 := immutable_runOperations d ops (d.create ctx0 x s0).state hinv1
  generalize runOperations d ops (d.create ctx0 x s0).state = s2 at hinv2 hkeep hu ⊢
  obtain ⟨hnodup2, extra, harch, hcase⟩ := hinv2
  have hlive : ∃ r ∈ s2.db.rows, r.id = c.id ∧ r.creationTimestamp = s0.db.now ∧
      r.creators = sliceItems creators ∧ r.tenants = sliceItems tenants := by
    rcases hcase with h | ⟨a, ha, haid⟩
    · exact h
    · exfalso
      rw [harch, List.filter_append] at hkeep
      have hnil : extra.filter (fun a => decide (a.id = c.id)) = [] := by
        have := congrArg List.length hkeep
        rw [List.length_append] at this
        exact List.length_eq_zero.mp (by omega)
      have hmem : a ∈ extra.filter (fun a => decide (a.id = c.id)) :=
        List.mem_filter.mpr ⟨ha, by simpa using haid⟩
      rw [hnil] at hmem
      simp at hmem
  obtain ⟨r, hr, hrid, hrct, hrcr, hrtn⟩ := hlive
  refine ⟨_, hmeta, ?_, ?_⟩
  · intro u hres
    subst hres
    rcases update_cases d ctx o s2 with ⟨-, -, ⟨h1, -⟩ | ⟨e, he⟩⟩ | ⟨data2, r0, -, hfind, hcase2⟩
    · rw [h1] at hu; simp at hu
    · rw [he] at hu; simp at hu
    · have hr0 : r0 = r := find_by_id_eq_of_nodup hnodup2 hr (by rw [hrid, ho]) hfind
      subst hr0
      have hres : (d.update ctx o s2).result = Except.ok (some (updatedObject o r0)) := by
        rcases hcase2 with ⟨-, e, he⟩ | ⟨-, h, -⟩ | ⟨-, -, -, e, he⟩ | ⟨-, -, -, h, -⟩
        · rw [he] at hu; simp at hu
        · exact h
        · rw [he] at hu; simp at hu
        · exact h
      rw [hres] at hu
      simp only [Except.ok.injEq, Option.some.injEq] at hu
      subst hu
      exact ⟨_, rfl, by simp [makeMetadata, hrcr], by simp [makeMetadata, hrtn],
        by simp [makeMetadata, hrct]⟩
  · rcases update_cases d ctx o s2 with ⟨hdb, -⟩ | ⟨data2, r0, -, hfind, hcase2⟩
    · left
      rw [hdb]
      exact ⟨r, hr, hrid, by simp [makeMetadata, hrcr], by simp [makeMetadata, hrtn],
        by simp [makeMetadata, hrct]⟩
    · have hr0 : r0 = r := find_by_id_eq_of_nodup hnodup2 hr (by rw [hrid, ho]) hfind
      subst hr0
      have hupd : ({ r0 with finalizers := getFinalizers (getMetadata o), data := data2 } : Row) ∈
          (s2.db.updateRow o.id (getFinalizers (getMetadata o)) data2).rows := by
        simp only [Database.updateRow, List.mem_map]
        exact ⟨r0, hr, by rw [if_pos (by rw [hrid, ho])]⟩
      rcases hcase2 with ⟨hdb, -⟩ | ⟨hdb, -⟩ | ⟨-, -, -, e, he⟩ | ⟨-, -, hdb, -⟩
      · left
        rw [hdb]
        exact ⟨_, hupd, hrid, by simp [makeMetadata, hrcr], by simp [makeMetadata, hrtn],
          by simp [makeMetadata, hrct]⟩
      · left
        rw [hdb]
        exact ⟨_, hupd, hrid, by simp [makeMetadata, hrcr], by simp [makeMetadata, hrtn],
          by simp [makeMetadata, hrct]⟩
      · rw [he] at hu; simp at hu
      · right
        rw [hdb]
        refine ⟨r0.toArchived data2 s2.db.now, ?_, hrid, by simp [makeMetadata, hrcr, Row.toArchived],
          by simp [makeMetadata, hrtn, Row.toArchived], by simp [makeMetadata, hrct, Row.toArchived]⟩
        simp [Database.removeRow, Database.addArchived]

/-- C4, amended, at an instance: an object is created, another row is deleted, and the
object is updated with creators and tenants of another caller. -/
theorem update_keeps_creation_columns_witness :
    (demoState.db.rows.map Row.id).Nodup ∧
    (demoNotifyingDAO.create demoContext demoNewObject demoState).result =
      Except.ok demoCreatedObject ∧
    (runOperations demoNotifyingDAO demoOperations
        (demoNotifyingDAO.create demoContext demoNewObject demoState).state).db.archived.filter
        (fun a => decide (a.id = demoCreatedObject.id)) =
      (demoNotifyingDAO.create demoContext demoNewObject demoState).state.db.archived.filter
        (fun a => decide (a.id = demoCreatedObject.id)) ∧
    demoIncomingObject.id = demoCreatedObject.id ∧
    (demoNotifyingDAO.update demoContext demoIncomingObject
        (runOperations demoNotifyingDAO demoOperations
          (demoNotifyingDAO.create demoContext demoNewObject demoState).state)).result =
      Except.ok (some demoUpdatedObject) ∧
    ∃ cm, demoCreatedObject.metadata = some cm ∧
      ∀ u, some demoUpdatedObject = some u → ∃ um, u.metadata = some um ∧
        um.creators = cm.creators ∧ um.tenants = cm.tenants ∧
        um.creationTimestamp = cm.creationTimestamp :=
  ⟨by decide, rfl, by decide, rfl, rfl,
    let ⟨cm, h1, h2, _⟩ := update_keeps_creation_columns demoNotifyingDAO demoContext
      demoContext demoNewObject demoIncomingObject demoCreatedObject demoState demoOperations
      (some demoUpdatedObject) (by decide) rfl (by decide) rfl rfl
    ⟨cm, h1, h2⟩⟩

/-- C4, the claim as it is stated fails, in two ways. First, the object that `create`
returned is sent back to `update`, which finds it equivalent to the stored one and
succeeds without returning an object; so the result of this successful update carries no
creation timestamp and no tenants, while `create` returned the creation timestamp 50 and
the tenant `shared`. Second, the object that `alice` created with the identifier `x` is
deleted and archived and `bob` creates an object with the same identifier; the later
update of `x` returns the creator `bob`, not the creator `alice` that the first `create`
returned. -/
theorem update_result_differs_from_created :
    ((demoNotifyingDAO.create demoContext demoNewObject demoState).result =
        Except.ok demoCreatedObject ∧
      demoCreatedObject.metadata = some
        { creationTimestamp := some 50, deletionTimestamp := none, finalizers := ["hold", "z"],
          creators := [], tenants := ["shared"] } ∧
      (demoNotifyingDAO.update demoContext demoCreatedObject
        (demoNotifyingDAO.create demoContext demoNewObject demoState).state).result =
          Except.ok none ∧
      ¬ ∃ u um,
        (demoNotifyingDAO.update demoContext demoCreatedObject
          (demoNotifyingDAO.create demoContext demoNewObject demoState).state).result =
            Except.ok (some u) ∧
        u.metadata = some um ∧ um.tenants = ["shared"] ∧ um.creationTimestamp = some 50) ∧
    ((demoAttributingDAO.create demoContextAlice demoObjectX demoState).result =
        Except.ok demoCreatedObjectX ∧
      (demoAttributingDAO.update demoContextBob demoChangedObjectX
        (runOperations demoAttributingDAO demoRecreation
          (demoAttributingDAO.create demoContextAlice demoObjectX demoState).state)).result =
          Except.ok (some demoRecreatedObjectX) ∧
      (demoCreatedObjectX.metadata.map fun m => m.creators) = some ["alice"] ∧
      (demoRecreatedObjectX.metadata.map fun m => m.creators) = some ["bob"]) := by
  have h : (demoNotifyingDAO.update demoContext demoCreatedObject
      (demoNotifyingDAO.create demoContext demoNewObject demoState).state).result =
        Except.ok none := rfl
  refine ⟨⟨rfl, rfl, h, ?_⟩, rfl, rfl, rfl, rfl⟩
  rintro ⟨u, um, hu, -⟩
  rw [h] at hu
  simp at hu

/-! ## Properties of the external authentication function -/

theorem isPublicMethod_iff (f : GrpcExternalAuthnFunc) (method : String) :
    f.isPublicMethod method = true ↔ ∃ r ∈ f.publicMethods, r method = true := by
  simp [GrpcExternalAuthnFunc.isPublicMethod, List.any_eq_true]

/-- Claim C11: an incoming call without a value of the header `x-subject` is accepted if
and only if the method matches one of the regular expressions of the public methods, the
context of an accepted call carries the guest subject, and a call that is not accepted gets
no context. -/
theorem call_without_header (f : GrpcExternalAuthnFunc) (ctx : Context) (md : MD)
    (method : String) (hmd : ctx.incoming = some md)
    (hno : mdGet md grpcExternalAuthnSubjectHeader = []) :
    ((f.call ctx method).2 = none ↔ ∃ r ∈ f.publicMethods, r method = true) ∧
    ((f.call ctx method).2 = none →
      ∃ c, (f.call ctx method).1 = some c ∧ c.subject = some f.guest) ∧
    ((f.call ctx method).2 ≠ none → (f.call ctx method).1 = none) := by
  rw [← isPublicMethod_iff]
  unfold GrpcExternalAuthnFunc.call
  rw [hmd]
  dsimp only
  rw [hno]
  by_cases hp : f.isPublicMethod method = true
  · simp [hp, contextWithSubject]
  · simp [hp]

theorem call_without_header_witness :
    ((demoAuthnFunc.call demoCallNoHeader "/my_package/MyMethod").2 = none ↔
      ∃ r ∈ demoAuthnFunc.publicMethods, r "/my_package/MyMethod" = true) ∧
    ((demoAuthnFunc.call demoCallNoHeader "/my_package/MyMethod").2 = none →
      ∃ c, (demoAuthnFunc.call demoCallNoHeader "/my_package/MyMethod").1 = some c ∧
        c.subject = some demoAuthnFunc.guest) ∧
    ((demoAuthnFunc.call demoCallNoHeader "/my_package/MyMethod").2 ≠ none →
      (demoAuthnFunc.call demoCallNoHeader "/my_package/MyMethod").1 = none) :=
  call_without_header demoAuthnFunc demoCallNoHeader [] "/my_package/MyMethod" rfl rfl

/-- Claim C12: an incoming call with two or more values of the header `x-subject` fails
with the error `too many values for authentication header` and gets no context, whatever
the method and the public methods are. -/
theorem call_repeated_header (f : GrpcExternalAuthnFunc) (ctx : Context) (md : MD)
    (method : String) (hmd : ctx.incoming = some md)
    (hmany : 2 ≤ (mdGet md grpcExternalAuthnSubjectHeader).length) :
    f.call ctx method = (none, some "too many values for authentication header") := by
  unfold GrpcExternalAuthnFunc.call
  rw [hmd]
  dsimp only
  have h0 : ¬ (mdGet md grpcExternalAuthnSubjectHeader).length = 0 := by omega
  have h1 : (mdGet md grpcExternalAuthnSubjectHeader).length ≠ 1 := by omega
  simp [h0, h1]

theorem call_repeated_header_witness :
    2 ≤ (mdGet [("x-subject", ["first value", "second value"])]
      grpcExternalAuthnSubjectHeader).length ∧
    demoAuthnFunc.call demoCallTwoValues "/my_package/MyMethod" =
      (none, some "too many values for authentication header") :=
  ⟨by decide,
    call_repeated_header demoAuthnFunc demoCallTwoValues
      [("x-subject", ["first value", "second value"])] "/my_package/MyMethod" rfl (by decide)⟩

theorem trimSpace_data (s : String) :
    (trimSpace s).data = ((s.data.dropWhile isSpace).reverse.dropWhile isSpace).reverse := rfl

theorem head?_dropWhile_isSpace (l : List Char) (c : Char)
    (h : (l.dropWhile isSpace).head? = some c) : isSpace c = false := by
  have := List.head?_dropWhile_not isSpace l
  rw [h] at this
  simpa using this

/-- The text that `trimSpace` computes is the trimmed text of the reference description. -/
theorem trimSpace_isTrimOf (s : String) : IsTrimOf s (trimSpace s) := by
  have hm : s.data.dropWhile isSpace =
      ((s.data.dropWhile isSpace).reverse.dropWhile isSpace).reverse ++
        ((s.data.dropWhile isSpace).reverse.takeWhile isSpace).reverse := by
    rw [← List.reverse_append, List.takeWhile_append_dropWhile, List.reverse_reverse]
  refine ⟨⟨s.data.takeWhile isSpace,
    ((s.data.dropWhile isSpace).reverse.takeWhile isSpace).reverse, ?_, ?_, ?_⟩, ?_, ?_⟩
  · rw [trimSpace_data, List.append_assoc, ← hm, List.takeWhile_append_dropWhile]
  · intro c hc
    exact List.mem_takeWhile_imp hc
  · intro c hc
    exact List.mem_takeWhile_imp (List.mem_reverse.mp hc)
  · intro c hc
    rw [trimSpace_data] at hc
    apply head?_dropWhile_isSpace s.data c
    rw [hm]
    cases ht : ((s.data.dropWhile isSpace).reverse.dropWhile isSpace).reverse with
    | nil => rw [ht] at hc; simp at hc
    | cons a rest => rw [ht] at hc; simpa using hc
  · intro c hc
    rw [trimSpace_data, List.getLast?_reverse] at hc
    exact head?_dropWhile_isSpace _ c hc

/-- The text is empty after trimming exactly when it holds white space only. -/
theorem trimSpace_eq_empty_iff (s : String) :
    trimSpace s = "" ↔ ∀ c ∈ s.data, isSpace c = true := by
  have hdata : trimSpace s = "" ↔ (trimSpace s).data = [] := by
    constructor
    · intro h; rw [h]
    · intro h; exact String.ext h
  rw [hdata, trimSpace_data, List.reverse_eq_nil_iff, List.dropWhile_eq_nil_iff]
  constructor
  · intro h
    have hall : ∀ x ∈ s.data.dropWhile isSpace, isSpace x = true :=
      fun x hx => h x (List.mem_reverse.mpr hx)
    have hnil : s.data.dropWhile isSpace = [] := by
      cases hd : s.data.dropWhile isSpace with
      | nil => rfl
      | cons a rest =>
        have h1 := head?_dropWhile_isSpace s.data a (by rw [hd]; rfl)
        have h2 := hall a (by rw [hd]; exact List.mem_cons_self a rest)
        rw [h1] at h2
        cases h2
    exact List.dropWhile_eq_nil_iff.mp hnil
  · intro h x hx
    have hnil : s.data.dropWhile isSpace = [] := List.dropWhile_eq_nil_iff.mpr h
    rw [hnil] at hx
    simp at hx

theorem forall₂_isTrimOf_map (l : List String) : List.Forall₂ IsTrimOf l (l.map trimSpace) := by
  induction l with
  | nil => exact List.Forall₂.nil
  | cons a rest ih => exact List.Forall₂.cons (trimSpace_isTrimOf a) ih

/-- Claim C13: an incoming call with exactly one value of the header `x-subject`, public
method or not. When the value decodes to a subject, the call succeeds if and only if the
user is not empty after trimming, that is, if and only if the user holds a character that
is not white space; it fails with `subject name is empty` otherwise. On success the context
carries the trimmed user and the groups, each trimmed, in the same order and number, where
the trimmed text is the one of the reference description `IsTrimOf`: the text without a
prefix and a suffix of white space, neither starting nor ending with white space. When the
value does not decode, the call fails with `failed to decode authentication header`. -/
theorem call_single_header (f : GrpcExternalAuthnFunc) (ctx : Context) (md : MD)
    (method value : String) (hmd : ctx.incoming = some md)
    (hone : mdGet md grpcExternalAuthnSubjectHeader = [value]) :
    (∀ decoded, f.unmarshal value = some decoded →
      ((f.call ctx method).2 = none ↔ trimSpace decoded.user ≠ "") ∧
      ((f.call ctx method).2 = none ↔ ∃ r ∈ decoded.user.data, isSpace r = false) ∧
      (trimSpace decoded.user = "" →
        f.call ctx method = (none, some "subject name is empty")) ∧
      (trimSpace decoded.user ≠ "" →
        ∃ c subject, f.call ctx method = (some c, none) ∧ c.subject = some subject ∧
          c.incoming = ctx.incoming ∧
          subject.user = trimSpace decoded.user ∧
          subject.groups = decoded.groups.map trimSpace ∧
          subject.groups.length = decoded.groups.length ∧
          IsTrimOf decoded.user subject.user ∧
          List.Forall₂ IsTrimOf decoded.groups subject.groups)) ∧
    (f.unmarshal value = none →
      f.call ctx method = (none, some "failed to decode authentication header")) := by
  unfold GrpcExternalAuthnFunc.call
  rw [hmd]
  dsimp only
  rw [hone]
  simp only [List.headD_cons, List.length_singleton]
  constructor
  · intro decoded hd
    rw [hd]
    have hne : trimSpace decoded.user ≠ "" ↔ ∃ r ∈ decoded.user.data, isSpace r = false := by
      rw [Ne, trimSpace_eq_empty_iff]
      simp
    by_cases hu : trimSpace decoded.user = ""
    · have hno : ¬ ∃ r ∈ decoded.user.data, isSpace r = false := fun h => hne.mpr h hu
      simp [hu, String.utf8ByteSize, hno]
    · have hs : ¬ (trimSpace decoded.user).utf8ByteSize = 0 := by
        rw [utf8ByteSize_eq_zero_iff]
        exact hu
      have hyes : ∃ r ∈ decoded.user.data, isSpace r = false := hne.mp hu
      simp [hu, hs, contextWithSubject, hmd, hyes, trimSpace_isTrimOf, forall₂_isTrimOf_map]
  · intro hd
    rw [hd]
    simp

/-- Claim C13, at an instance: the header value of the user ` my_user ` with the groups
` my_group ` and the empty text gives the subject `my_user` with the groups `my_group` and
the empty text. -/
theorem call_single_header_witness :
    demoCallOneValue.incoming =
      some [("x-subject", ["\x7b\"user\":\" my_user \",\"groups\":[\" my_group \",\"\"]\x7d"])] ∧
    mdGet [("x-subject", ["\x7b\"user\":\" my_user \",\"groups\":[\" my_group \",\"\"]\x7d"])]
        grpcExternalAuthnSubjectHeader =
      ["\x7b\"user\":\" my_user \",\"groups\":[\" my_group \",\"\"]\x7d"] ∧
    demoAuthnFunc.unmarshal "\x7b\"user\":\" my_user \",\"groups\":[\" my_group \",\"\"]\x7d" =
      some { user := " my_user ", groups := [" my_group ", ""] } ∧
    trimSpace " my_user " = "my_user" ∧
    [" my_group ", ""].map trimSpace = ["my_group", ""] ∧
    trimSpace " \t\n " = "" ∧
    demoAuthnFunc.call demoCallOneValue "/your_package/YourMethod" =
      (some
        { subject := some { user := "my_user", groups := ["my_group", ""] }
          incoming := demoCallOneValue.incoming }, none) ∧
    ((demoAuthnFunc.call demoCallOneValue "/your_package/YourMethod").2 = none ↔
      ∃ r ∈ " my_user ".data, isSpace r = false) ∧
    ∃ c subject,
      demoAuthnFunc.call demoCallOneValue "/your_package/YourMethod" = (some c, none) ∧
      c.subject = some subject ∧ c.incoming = demoCallOneValue.incoming ∧
      subject.user = trimSpace " my_user " ∧
      subject.groups = [" my_group ", ""].map trimSpace ∧
      subject.groups.length = [" my_group ", ""].length ∧
      IsTrimOf " my_user " subject.user ∧
      List.Forall₂ IsTrimOf [" my_group ", ""] subject.groups :=
  ⟨rfl, rfl, rfl, by decide, by decide, by decide, by decide,
    ((call_single_header demoAuthnFunc demoCallOneValue
      [("x-subject", ["\x7b\"user\":\" my_user \",\"groups\":[\" my_group \",\"\"]\x7d"])]
      "/your_package/YourMethod"
      "\x7b\"user\":\" my_user \",\"groups\":[\" my_group \",\"\"]\x7d" rfl rfl).1
      { user := " my_user ", groups := [" my_group ", ""] } rfl).2.1,
    ((call_single_header demoAuthnFunc demoCallOneValue
      [("x-subject", ["\x7b\"user\":\" my_user \",\"groups\":[\" my_group \",\"\"]\x7d"])]
      "/your_package/YourMethod"
      "\x7b\"user\":\" my_user \",\"groups\":[\" my_group \",\"\"]\x7d" rfl rfl).1
      { user := " my_user ", groups := [" my_group ", ""] } rfl).2.2.2 (by decide)⟩

/-- Claim C14, as stated, fails: for the context of a call by the subject `my_user`, both
methods of the default tenancy logic return the single tenant `shared`, which is not the
name of the subject. -/
theorem defaultTenancyLogic_returns_shared :
    defaultTenancyLogic.determineAssignedTenants demoContextMyUser =
      Except.ok (some ["shared"]) ∧
    defaultTenancyLogic.determineVisibleTenants demoContextMyUser =
      Except.ok (some ["shared"]) ∧
    demoContextMyUser.subject = some { user := "my_user", groups := [] } ∧
    (Except.ok (some ["shared"]) : Except Error (Option (List String))) ≠
      Except.ok (some ["my_user"]) := by
  refine ⟨rfl, rfl, rfl, ?_⟩
  intro h
  injection h with h
  injection h with h
  injection h with h
  exact absurd h (by decide)

/-- Claim C14, amended: the default tenancy logic does not read the context. For every
context, whatever subject it carries, `DetermineAssignedTenants` and
`DetermineVisibleTenants` return the single tenant `shared`. -/
theorem defaultTenancyLogic_shared_for_every_context (ctx : Context) :
    defaultTenancyLogic.determineAssignedTenants ctx = Except.ok (some ["shared"]) ∧
    defaultTenancyLogic.determineVisibleTenants ctx = Except.ok (some ["shared"]) :=
  ⟨rfl, rfl⟩

/-! ## Properties of the private clusters server -/

theorem dupLoop_none_iff (name : Nat → String) (conds : List ClusterCondition) :
    ∀ seen : List Nat, validateNoDuplicateConditionsLoop name conds seen = none ↔
      (conds.map fun c => c.type).Nodup ∧ ∀ c ∈ conds, c.type ∉ seen := by
  induction conds with
  | nil => intro seen; simp [validateNoDuplicateConditionsLoop]
  | cons c rest ih =>
    intro seen
    unfold validateNoDuplicateConditionsLoop
    by_cases hc : c.type ∈ seen
    · simp [hc]
    · rw [if_neg hc, ih]
      simp only [List.map_cons, List.nodup_cons, List.mem_cons, List.mem_map, not_or,
        forall_eq_or_imp, not_exists, not_and]
      constructor
      · rintro ⟨hn, hall⟩
        exact ⟨⟨fun d hd heq => (hall d hd).1 heq, hn⟩, hc, fun d hd => (hall d hd).2⟩
      · rintro ⟨⟨hne, hn⟩, _, hall⟩
        exact ⟨hn, fun d hd => ⟨hne d hd, hall d hd⟩⟩

theorem dupLoop_some (name : Nat → String) (conds : List ClusterCondition) :
    ∀ (seen : List Nat) (err : Status),
      validateNoDuplicateConditionsLoop name conds seen = some err →
      ∃ j d, conds[j]? = some d ∧
        validateNoDuplicateConditionsLoop name (conds.take j) seen = none ∧
        (d.type ∈ seen ∨ ∃ i c, i < j ∧ conds[i]? = some c ∧ c.type = d.type) ∧
        err =
          { code := Code.InvalidArgument
            message := "condition '" ++ name d.type ++ "' is duplicated" } := by
  induction conds with
  | nil => intro seen err h; simp [validateNoDuplicateConditionsLoop] at h
  | cons c rest ih =>
    intro seen err h
    unfold validateNoDuplicateConditionsLoop at h
    by_cases hc : c.type ∈ seen
    · rw [if_pos hc] at h
      refine ⟨0, c, by simp, ?_, Or.inl hc, (Option.some.inj h).symm⟩
      simp [validateNoDuplicateConditionsLoop]
    · rw [if_neg hc] at h
      obtain ⟨j, d, hj, hpre, hdup, herr⟩ := ih _ _ h
      refine ⟨j + 1, d, by simpa using hj, ?_, ?_, herr⟩
      · rw [List.take_succ_cons]
        unfold validateNoDuplicateConditionsLoop
        rw [if_neg hc]
        exact hpre
      · rcases hdup with hmem | ⟨i, c', hi, hci, hty⟩
        · rcases List.mem_cons.mp hmem with h1 | h1
          · exact Or.inr ⟨0, c, by omega, by simp, h1.symm⟩
          · exact Or.inl h1
        · exact Or.inr ⟨i + 1, c', by omega, by simpa using hci, hty⟩

theorem dupLoop_of_repeated (name : Nat → String) (conds : List ClusterCondition)
    (i j : Nat) (c d : ClusterCondition) (hij : i < j) (hi : conds[i]? = some c)
    (hj : conds[j]? = some d) (hty : c.type = d.type) :
    validateNoDuplicateConditionsLoop name conds [] ≠ none := by
  intro hnone
  have hn := ((dupLoop_none_iff name conds []).mp hnone).1
  rw [List.nodup_iff_getElem?_ne_getElem?] at hn
  have hjl : j < conds.length := by
    rcases Nat.lt_or_ge j conds.length with h | h
    · exact h
    · rw [List.getElem?_eq_none h] at hj
      cases hj
  apply hn i j hij (by simpa using hjl)
  simp [List.getElem?_map, hi, hj, hty]

/-- Claim C15: `validateNoDuplicateConditions` returns an error if and only if two entries
of the conditions of the cluster have the same type. The error has the code
`InvalidArgument` and the message `condition '<name>' is duplicated` with the name of the
type of the first entry, in the order of the list, whose type an earlier entry has; and
`Create` and `Update` return that error with no response, without a call of the generic
server or of the DAO of the templates: the state of the world and the object of the request
are as they were. -/
theorem validateNoDuplicateConditions_contract {W : Type} (s : PrivateClustersServer W)
    (object : Option Cluster) :
    ((∃ err, s.validateNoDuplicateConditions object = some err) ↔
      ∃ (i j : Nat) (c d : ClusterCondition), i < j ∧ (clusterConditions object)[i]? = some c ∧
        (clusterConditions object)[j]? = some d ∧ c.type = d.type) ∧
    (∀ err, s.validateNoDuplicateConditions object = some err →
      ∃ (i j : Nat) (c d : ClusterCondition), i < j ∧ (clusterConditions object)[i]? = some c ∧
        (clusterConditions object)[j]? = some d ∧ c.type = d.type ∧
        (((clusterConditions object).take j).map fun e => e.type).Nodup ∧
        err =
          { code := Code.InvalidArgument
            message := "condition '" ++ s.conditionTypeName d.type ++ "' is duplicated" }) ∧
    (∀ err ctx w, s.validateNoDuplicateConditions object = some err →
      s.create ctx { object := object } w = (⟨none, some err, w⟩, object) ∧
      ∀ mask, s.update ctx { object := object, updateMask := mask } w =
        ⟨none, some err, w⟩) := by
  have hsome : ∀ err, s.validateNoDuplicateConditions object = some err →
      ∃ (i j : Nat) (c d : ClusterCondition), i < j ∧ (clusterConditions object)[i]? = some c ∧
        (clusterConditions object)[j]? = some d ∧ c.type = d.type ∧
        (((clusterConditions object).take j).map fun e => e.type).Nodup ∧
        err =
          { code := Code.InvalidArgument
            message := "condition '" ++ s.conditionTypeName d.type ++ "' is duplicated" } := by
    intro err h
    obtain ⟨j, d, hj, hpre, hdup, herr⟩ := dupLoop_some _ _ _ _ h
    rcases hdup with hmem | ⟨i, c, hi, hci, hty⟩
    · cases hmem
    · exact ⟨i, j, c, d, hi, hci, hj, hty, ((dupLoop_none_iff _ _ _).mp hpre).1, herr⟩
  refine ⟨⟨?_, ?_⟩, hsome, ?_⟩
  · rintro ⟨err, h⟩
    obtain ⟨i, j, c, d, hij, hi, hj, hty, _, _⟩ := hsome err h
    exact ⟨i, j, c, d, hij, hi, hj, hty⟩
  · rintro ⟨i, j, c, d, hij, hi, hj, hty⟩
    have hne := dupLoop_of_repeated s.conditionTypeName _ i j c d hij hi hj hty
    cases hv : s.validateNoDuplicateConditions object with
    | none => exact absurd hv hne
    | some err => exact ⟨err, rfl⟩
  · intro err ctx w h
    constructor
    · simp [PrivateClustersServer.create, h]
    · intro mask
      simp [PrivateClustersServer.update, h]

theorem checkNodeSetsExist_none_iff (templateId : String)
    (templateNodeSets : List (String × ClusterNodeSet)) (l : List (String × ClusterNodeSet)) :
    checkNodeSetsExist templateId templateNodeSets l = none ↔
      ∀ key ns, (key, ns) ∈ l → ∃ t, mapGet templateNodeSets key = some t := by
  induction l with
  | nil => simp [checkNodeSetsExist]
  | cons entry rest ih =>
    obtain ⟨k, n⟩ := entry
    unfold checkNodeSetsExist
    cases hk : mapGet templateNodeSets k with
    | none =>
      simp only [false_iff, reduceCtorEq]
      intro h
      obtain ⟨t, ht⟩ := h k n (List.mem_cons_self _ _)
      rw [hk] at ht
      cases ht
    | some t =>
      simp only []
      rw [ih]
      constructor
      · intro h key ns hmem
        rcases List.mem_cons.mp hmem with h1 | h1
        · cases h1
          exact ⟨t, hk⟩
        · exact h key ns h1
      · intro h key ns hmem
        exact h key ns (List.mem_cons_of_mem _ hmem)

theorem checkNodeSetsExist_some (templateId : String)
    (templateNodeSets : List (String × ClusterNodeSet)) (l : List (String × ClusterNodeSet))
    (err : Status) (h : checkNodeSetsExist templateId templateNodeSets l = some err) :
    ∃ key ns, (key, ns) ∈ l ∧ mapGet templateNodeSets key = none ∧
      err =
        { code := Code.InvalidArgument
          message :=
            "node set '" ++ key ++ "' doesn't exist, valid values for template '" ++
              templateId ++ "' are " ++
              wordSeries ((sortStrings (templateNodeSets.map Prod.fst)).map quoted) "and" } := by
  induction l with
  | nil => simp [checkNodeSetsExist] at h
  | cons entry rest ih =>
    obtain ⟨k, n⟩ := entry
    unfold checkNodeSetsExist at h
    cases hk : mapGet templateNodeSets k with
    | none =>
      rw [hk] at h
      exact ⟨k, n, List.mem_cons_self _ _, hk, (Option.some.inj h).symm⟩
    | some t =>
      rw [hk] at h
      obtain ⟨key, ns, hmem, hnone, herr⟩ := ih h
      exact ⟨key, ns, List.mem_cons_of_mem _ hmem, hnone, herr⟩

theorem checkHostClasses_none_iff (templateId : String)
    (templateNodeSets : List (String × ClusterNodeSet)) (l : List (String × ClusterNodeSet))
    (hexist : ∀ key ns, (key, ns) ∈ l → ∃ t, mapGet templateNodeSets key = some t) :
    checkHostClasses templateId templateNodeSets l = none ↔
      ∀ key ns, (key, ns) ∈ l →
        ∃ t, mapGet templateNodeSets key = some t ∧
          (ns.hostClass = "" ∨ ns.hostClass = t.hostClass) := by
  induction l with
  | nil => simp [checkHostClasses]
  | cons entry rest ih =>
    obtain ⟨k, n⟩ := entry
    have ih1 := ih fun key ns hmem => hexist key ns (List.mem_cons_of_mem _ hmem)
    obtain ⟨t, ht⟩ := hexist k n (List.mem_cons_self _ _)
    unfold checkHostClasses
    dsimp only
    rw [ht]
    dsimp only
    by_cases he : n.hostClass = ""
    · rw [if_pos he, ih1]
      constructor
      · intro h key ns hmem
        rcases List.mem_cons.mp hmem with h1 | h1
        · cases h1
          exact ⟨t, ht, Or.inl he⟩
        · exact h key ns h1
      · intro h key ns hmem
        exact h key ns (List.mem_cons_of_mem _ hmem)
    · rw [if_neg he]
      by_cases hc : n.hostClass = t.hostClass
      · rw [if_neg (not_not.mpr hc), ih1]
        constructor
        · intro h key ns hmem
          rcases List.mem_cons.mp hmem with h1 | h1
          · cases h1
            exact ⟨t, ht, Or.inr hc⟩
          · exact h key ns h1
        · intro h key ns hmem
          exact h key ns (List.mem_cons_of_mem _ hmem)
      · rw [if_pos hc]
        simp only [false_iff, reduceCtorEq]
        intro h
        obtain ⟨t1, ht1, hor⟩ := h k n (List.mem_cons_self _ _)
        rw [ht] at ht1
        cases ht1
        rcases hor with h1 | h1
        · exact he h1
        · exact hc h1

theorem checkHostClasses_code (templateId : String)
    (templateNodeSets : List (String × ClusterNodeSet)) (l : List (String × ClusterNodeSet))
    (err : Status) (h : checkHostClasses templateId templateNodeSets l = some err) :
    err.code = Code.InvalidArgument := by
  induction l with
  | nil => simp [checkHostClasses] at h
  | cons entry rest ih =>
    obtain ⟨k, n⟩ := entry
    unfold checkHostClasses at h
    dsimp only at h
    split at h
    · exact ih h
    · split at h
      · rw [← Option.some.inj h]
      · exact ih h

theorem checkSizes_none_iff (l : List (String × ClusterNodeSet)) :
    checkSizes l = none ↔ ∀ key ns, (key, ns) ∈ l → 0 < ns.size := by
  induction l with
  | nil => simp [checkSizes]
  | cons entry rest ih =>
    obtain ⟨k, n⟩ := entry
    unfold checkSizes
    dsimp only
    by_cases hs : n.size ≤ 0
    · rw [if_pos hs]
      simp only [false_iff, reduceCtorEq]
      intro h
      have := h k n (List.mem_cons_self _ _)
      omega
    · rw [if_neg hs, ih]
      constructor
      · intro h key ns hmem
        rcases List.mem_cons.mp hmem with h1 | h1
        · cases h1
          omega
        · exact h key ns h1
      · intro h key ns hmem
        exact h key ns (List.mem_cons_of_mem _ hmem)

theorem checkSizes_code (l : List (String × ClusterNodeSet)) (err : Status)
    (h : checkSizes l = some err) : err.code = Code.InvalidArgument := by
  induction l with
  | nil => simp [checkSizes] at h
  | cons entry rest ih =>
    obtain ⟨k, n⟩ := entry
    unfold checkSizes at h
    dsimp only at h
    split at h
    · rw [← Option.some.inj h]
    · exact ih h

theorem checkNodeSets_code (templateId : String)
    (templateNodeSets l : List (String × ClusterNodeSet)) (err : Status)
    (h : checkNodeSets templateId templateNodeSets l = some err) :
    err.code = Code.InvalidArgument := by
  unfold checkNodeSets at h
  split at h
  · rename_i e he
    obtain ⟨_, _, _, _, herr⟩ := checkNodeSetsExist_some _ _ _ _ he
    rw [← Option.some.inj h, herr]
  · split at h
    · rename_i e he
      rw [← Option.some.inj h]
      exact checkHostClasses_code _ _ _ _ he
    · exact checkSizes_code _ _ h

theorem checkNodeSets_none_iff (templateId : String)
    (templateNodeSets l : List (String × ClusterNodeSet)) :
    checkNodeSets templateId templateNodeSets l = none ↔
      ∀ key ns, (key, ns) ∈ l →
        (∃ t, mapGet templateNodeSets key = some t ∧
          (ns.hostClass = "" ∨ ns.hostClass = t.hostClass)) ∧ 0 < ns.size := by
  unfold checkNodeSets
  cases h1 : checkNodeSetsExist templateId templateNodeSets l with
  | some e =>
    simp only [false_iff, reduceCtorEq]
    intro h
    obtain ⟨key, ns, hmem, hnone, _⟩ := checkNodeSetsExist_some _ _ _ _ h1
    obtain ⟨⟨t, ht, _⟩, _⟩ := h key ns hmem
    rw [hnone] at ht
    cases ht
  | none =>
    have hexist := (checkNodeSetsExist_none_iff _ _ _).mp h1
    dsimp only
    cases h2 : checkHostClasses templateId templateNodeSets l with
    | some e =>
      simp only [false_iff, reduceCtorEq]
      intro h
      have h3 := (checkHostClasses_none_iff templateId _ _ hexist).mpr
        fun key ns hmem => (h key ns hmem).1
      rw [h2] at h3
      cases h3
    | none =>
      dsimp only
      rw [checkSizes_none_iff]
      have h3 := (checkHostClasses_none_iff templateId _ _ hexist).mp h2
      constructor
      · intro h key ns hmem
        exact ⟨h3 key ns hmem, h key ns hmem⟩
      · intro h key ns hmem
        exact (h key ns hmem).2

theorem charsLe_total (x : List Char) : ∀ y, charsLe x y = true ∨ charsLe y x = true := by
  induction x with
  | nil => intro y; left; cases y <;> rfl
  | cons a as ih =>
    intro y
    cases y with
    | nil => right; rfl
    | cons b bs =>
      simp only [charsLe, Bool.or_eq_true, Bool.and_eq_true, decide_eq_true_eq]
      rcases Nat.lt_trichotomy a.toNat b.toNat with h | h | h
      · exact Or.inl (Or.inl h)
      · rcases ih bs with h1 | h1
        · exact Or.inl (Or.inr ⟨h, h1⟩)
        · exact Or.inr (Or.inr ⟨h.symm, h1⟩)
      · exact Or.inr (Or.inl h)

theorem charsLe_trans (x : List Char) :
    ∀ y z, charsLe x y = true → charsLe y z = true → charsLe x z = true := by
  induction x with
  | nil => intro y z _ _; cases z <;> rfl
  | cons a as ih =>
    intro y z hxy hyz
    cases y with
    | nil => simp [charsLe] at hxy
    | cons b bs =>
      cases z with
      | nil => simp [charsLe] at hyz
      | cons c cs =>
        simp only [charsLe, Bool.or_eq_true, Bool.and_eq_true, decide_eq_true_eq] at hxy hyz ⊢
        rcases hxy with h1 | ⟨h1, h2⟩
        · rcases hyz with h3 | ⟨h3, _⟩
          · exact Or.inl (by omega)
          · exact Or.inl (by omega)
        · rcases hyz with h3 | ⟨h3, h4⟩
          · exact Or.inl (by omega)
          · exact Or.inr ⟨by omega, ih bs cs h2 h4⟩

theorem sortStrings_sorted (l : List String) :
    (sortStrings l).Sorted fun a b => stringLe a b = true := by
  haveI : IsTotal String (fun a b => stringLe a b = true) :=
    ⟨fun a b => charsLe_total a.data b.data⟩
  haveI : IsTrans String (fun a b => stringLe a b = true) :=
    ⟨fun a b c => charsLe_trans a.data b.data c.data⟩
  exact List.sorted_insertionSort _ l

theorem sortStrings_perm (l : List String) : (sortStrings l).Perm l :=
  List.perm_insertionSort _ l

theorem validateAndTransformCluster_of_template {W : Type} (s : PrivateClustersServer W)
    (ctx : Context) (c : Cluster) (spec : ClusterSpec) (template : ClusterTemplate) (w w1 : W)
    (hspec : c.spec = some spec) (hid : spec.template ≠ "")
    (hget : s.templatesGet ctx spec.template w = (Except.ok (some template), w1))
    (hlive : hasDeletionTimestamp template.metadata = false) :
    s.validateAndTransformCluster ctx (some c) w =
      match checkNodeSets spec.template template.nodeSets spec.nodeSets with
      | some err => ⟨some err, some c, w1⟩
      | none =>
        match s.validateClusterTemplateParameters template spec.templateParameters with
        | some err =>
          ⟨some err,
            some
              { c with
                spec :=
                  some
                    { spec with
                      nodeSets := actualNodeSets template.nodeSets spec.nodeSets } },
            w1⟩
        | none =>
          ⟨none,
            some
              { c with
                spec :=
                  some
                    { spec with
                      nodeSets := actualNodeSets template.nodeSets spec.nodeSets
                      templateParameters :=
                        s.processTemplateParametersWithDefaults template
                          spec.templateParameters } },
            w1⟩ := by
  unfold PrivateClustersServer.validateAndTransformCluster
  simp only [hspec, hid, if_false, hget, hlive, Bool.false_eq_true, Option.map_some']

theorem validateAndTransformCluster_ok {W : Type} (s : PrivateClustersServer W)
    (ctx : Context) (cluster : Option Cluster) (w : W)
    (hok : (s.validateAndTransformCluster ctx cluster w).err = none) :
    ∃ c spec template w1, cluster = some c ∧ c.spec = some spec ∧ spec.template ≠ "" ∧
      s.templatesGet ctx spec.template w = (Except.ok (some template), w1) ∧
      hasDeletionTimestamp template.metadata = false ∧
      checkNodeSets spec.template template.nodeSets spec.nodeSets = none ∧
      s.validateClusterTemplateParameters template spec.templateParameters = none := by
  cases cluster with
  | none => simp [PrivateClustersServer.validateAndTransformCluster] at hok
  | some c =>
    cases hspec : c.spec with
    | none => simp [PrivateClustersServer.validateAndTransformCluster, hspec] at hok
    | some spec =>
      by_cases hid : spec.template = ""
      · simp [PrivateClustersServer.validateAndTransformCluster, hspec, hid] at hok
      · cases hget : s.templatesGet ctx spec.template w with
        | mk res w1 =>
          cases res with
          | error e =>
            simp [PrivateClustersServer.validateAndTransformCluster, hspec, hid, hget] at hok
          | ok found =>
            cases found with
            | none =>
              simp [PrivateClustersServer.validateAndTransformCluster, hspec, hid, hget] at hok
            | some template =>
              cases hlive : hasDeletionTimestamp template.metadata with
              | true =>
                simp [PrivateClustersServer.validateAndTransformCluster, hspec, hid, hget,
                  hlive] at hok
              | false =>
                rw [validateAndTransformCluster_of_template s ctx c spec template w w1 hspec
                  hid hget hlive] at hok
                refine ⟨c, spec, template, w1, rfl, hspec, hid, hget, hlive, ?_, ?_⟩
                · cases hc : checkNodeSets spec.template template.nodeSets spec.nodeSets with
                  | none => rfl
                  | some err => rw [hc] at hok; cases hok
                · cases hc : checkNodeSets spec.template template.nodeSets spec.nodeSets with
                  | some err => rw [hc] at hok; cases hok
                  | none =>
                    rw [hc] at hok
                    dsimp only at hok
                    cases hv : s.validateClusterTemplateParameters template
                      spec.templateParameters with
                    | none => rfl
                    | some err => rw [hv] at hok; cases hok

theorem mapGet_actualNodeSets (templateNodeSets clusterNodeSets : List (String × ClusterNodeSet))
    (key : String) :
    mapGet (actualNodeSets templateNodeSets clusterNodeSets) key =
      (mapGet templateNodeSets key).map fun t =>
        { hostClass := t.hostClass
          size :=
            match mapGet clusterNodeSets key with
            | some clusterNodeSet => clusterNodeSet.size
            | none => t.size } := by
  induction templateNodeSets with
  | nil => rfl
  | cons entry rest ih =>
    obtain ⟨k, t⟩ := entry
    unfold actualNodeSets at ih ⊢
    simp only [List.map_cons, mapGet]
    by_cases hk : k = key
    · subst hk
      simp
    · simp [hk, ih]

theorem keys_actualNodeSets (templateNodeSets clusterNodeSets : List (String × ClusterNodeSet)) :
    (actualNodeSets templateNodeSets clusterNodeSets).map Prod.fst =
      templateNodeSets.map Prod.fst := by
  simp [actualNodeSets, List.map_map, Function.comp_def]

theorem validateNoDuplicateConditions_contract_witness :
    demoClustersServer.validateNoDuplicateConditions (some demoDuplicatedCluster) =
      some
        { code := Code.InvalidArgument
          message := "condition 'CLUSTER_CONDITION_TYPE_READY' is duplicated" } ∧
    demoClustersServer.create demoContext { object := some demoDuplicatedCluster } [] =
      (⟨none,
        some
          { code := Code.InvalidArgument
            message := "condition 'CLUSTER_CONDITION_TYPE_READY' is duplicated" }, []⟩,
        some demoDuplicatedCluster) ∧
    ∀ mask,
      demoClustersServer.update demoContext
          { object := some demoDuplicatedCluster, updateMask := mask } [] =
        ⟨none,
          some
            { code := Code.InvalidArgument
              message := "condition 'CLUSTER_CONDITION_TYPE_READY' is duplicated" }, []⟩ :=
  ⟨by decide,
    (validateNoDuplicateConditions_contract demoClustersServer
      (some demoDuplicatedCluster)).2.2 _ demoContext [] (by decide)⟩

/-- Claim C16: for a cluster whose template exists and has no deletion timestamp, the checks
of `validateAndTransformCluster` on the node sets pass if and only if every key that the
cluster gives is a key of the template, every host class that it gives is empty or the one
of the template for that key, and every size that it gives is greater than zero. When they
do not pass, the function returns their error, of code `InvalidArgument`, and leaves the
cluster as it is. When a key is not a key of the template, the error is the one for such a
key, and its message lists the keys of the template in sorted order, each in single
quotes. -/
theorem validateAndTransformCluster_node_set_checks {W : Type} (s : PrivateClustersServer W)
    (ctx : Context) (c : Cluster) (spec : ClusterSpec) (template : ClusterTemplate) (w w1 : W)
    (hspec : c.spec = some spec) (hid : spec.template ≠ "")
    (hget : s.templatesGet ctx spec.template w = (Except.ok (some template), w1))
    (hlive : hasDeletionTimestamp template.metadata = false) :
    (checkNodeSets spec.template template.nodeSets spec.nodeSets = none ↔
      ∀ key ns, (key, ns) ∈ spec.nodeSets →
        (∃ t, mapGet template.nodeSets key = some t ∧
          (ns.hostClass = "" ∨ ns.hostClass = t.hostClass)) ∧ 0 < ns.size) ∧
    (∀ err, checkNodeSets spec.template template.nodeSets spec.nodeSets = some err →
      err.code = Code.InvalidArgument ∧
      s.validateAndTransformCluster ctx (some c) w = ⟨some err, some c, w1⟩) ∧
    ((∃ key ns, (key, ns) ∈ spec.nodeSets ∧ mapGet template.nodeSets key = none) →
      ∃ key ns, (key, ns) ∈ spec.nodeSets ∧ mapGet template.nodeSets key = none ∧
        checkNodeSets spec.template template.nodeSets spec.nodeSets =
          some
            { code := Code.InvalidArgument
              message :=
                "node set '" ++ key ++ "' doesn't exist, valid values for template '" ++
                  spec.template ++ "' are " ++
                  wordSeries ((sortStrings (template.nodeSets.map Prod.fst)).map quoted)
                    "and" }) ∧
    ((sortStrings (template.nodeSets.map Prod.fst)).Sorted fun a b => stringLe a b = true) ∧
    (sortStrings (template.nodeSets.map Prod.fst)).Perm (template.nodeSets.map Prod.fst) := by
  refine ⟨checkNodeSets_none_iff _ _ _, ?_, ?_, sortStrings_sorted _, sortStrings_perm _⟩
  · intro err herr
    refine ⟨checkNodeSets_code _ _ _ _ herr, ?_⟩
    rw [validateAndTransformCluster_of_template s ctx c spec template w w1 hspec hid hget
      hlive, herr]
  · rintro ⟨key, ns, hmem, hnone⟩
    cases he : checkNodeSetsExist spec.template template.nodeSets spec.nodeSets with
    | none =>
      obtain ⟨t, ht⟩ := (checkNodeSetsExist_none_iff _ _ _).mp he key ns hmem
      rw [hnone] at ht
      cases ht
    | some err =>
      obtain ⟨key1, ns1, hmem1, hnone1, herr⟩ := checkNodeSetsExist_some _ _ _ _ he
      refine ⟨key1, ns1, hmem1, hnone1, ?_⟩
      unfold checkNodeSets
      rw [he, herr]

theorem validateAndTransformCluster_node_set_checks_witness :
    checkNodeSets "t1" demoClusterTemplate.nodeSets demoUnknownKeySpec.nodeSets =
      some
        { code := Code.InvalidArgument
          message :=
            "node set 'foo' doesn't exist, valid values for template 't1' are " ++
              "'compute', 'infra' and 'worker'" } ∧
    demoClustersServer.validateAndTransformCluster demoContext (some demoUnknownKeyCluster) [] =
      ⟨some
          { code := Code.InvalidArgument
            message :=
              "node set 'foo' doesn't exist, valid values for template 't1' are " ++
                "'compute', 'infra' and 'worker'" },
        some demoUnknownKeyCluster, []⟩ :=
  ⟨by decide,
    ((validateAndTransformCluster_node_set_checks demoClustersServer demoContext
      demoUnknownKeyCluster demoUnknownKeySpec demoClusterTemplate [] [] rfl (by decide) rfl
      rfl).2.1 _ (by decide)).2⟩

/-- Claim C17: when `validateAndTransformCluster` returns no error, the node sets that it
leaves in the cluster have exactly the keys of the node sets of the template that the DAO
returned; for each key the host class is the one of the template, and the size is the one
that the caller gave for the key when the caller gave the key, and the one of the template
otherwise. -/
theorem validateAndTransformCluster_final_node_sets {W : Type} (s : PrivateClustersServer W)
    (ctx : Context) (cluster : Option Cluster) (w : W)
    (hok : (s.validateAndTransformCluster ctx cluster w).err = none) :
    ∃ c spec template final finalSpec, cluster = some c ∧ c.spec = some spec ∧
      (s.templatesGet ctx spec.template w).1 = Except.ok (some template) ∧
      (s.validateAndTransformCluster ctx cluster w).object = some final ∧
      final.spec = some finalSpec ∧
      finalSpec.nodeSets.map Prod.fst = template.nodeSets.map Prod.fst ∧
      (∀ key, mapGet template.nodeSets key = none → mapGet finalSpec.nodeSets key = none) ∧
      ∀ key t, mapGet template.nodeSets key = some t →
        ∃ ns, mapGet finalSpec.nodeSets key = some ns ∧ ns.hostClass = t.hostClass ∧
          (∀ given, mapGet spec.nodeSets key = some given → ns.size = given.size) ∧
          (mapGet spec.nodeSets key = none → ns.size = t.size) := by
  obtain ⟨c, spec, template, w1, hc, hspec, hid, hget, hlive, hchecks, hparams⟩ :=
    validateAndTransformCluster_ok s ctx cluster w hok
  subst hc
  rw [validateAndTransformCluster_of_template s ctx c spec template w w1 hspec hid hget hlive,
    hchecks]
  dsimp only
  rw [hparams]
  refine ⟨c, spec, template, _, _, rfl, hspec, by rw [hget], rfl, rfl,
    keys_actualNodeSets _ _, ?_, ?_⟩
  · intro key hnone
    show mapGet (actualNodeSets template.nodeSets spec.nodeSets) key = none
    rw [mapGet_actualNodeSets, hnone]
    rfl
  · intro key t hsome
    refine ⟨{ hostClass := t.hostClass
              size :=
                match mapGet spec.nodeSets key with
                | some clusterNodeSet => clusterNodeSet.size
                | none => t.size }, ?_, rfl, ?_, ?_⟩
    · show mapGet (actualNodeSets template.nodeSets spec.nodeSets) key = _
      rw [mapGet_actualNodeSets, hsome]
      rfl
    · intro given hgiven
      simp only [hgiven]
    · intro hnone
      simp only [hnone]

theorem validateAndTransformCluster_final_node_sets_witness :
    (demoClustersServer.validateAndTransformCluster demoContext (some demoCluster) []).err =
      none ∧
    ∃ c spec template final finalSpec, some demoCluster = some c ∧ c.spec = some spec ∧
      (demoClustersServer.templatesGet demoContext spec.template []).1 =
        Except.ok (some template) ∧
      (demoClustersServer.validateAndTransformCluster demoContext (some demoCluster)
        []).object = some final ∧
      final.spec = some finalSpec ∧
      finalSpec.nodeSets.map Prod.fst = template.nodeSets.map Prod.fst ∧
      (∀ key, mapGet template.nodeSets key = none → mapGet finalSpec.nodeSets key = none) ∧
      ∀ key t, mapGet template.nodeSets key = some t →
        ∃ ns, mapGet finalSpec.nodeSets key = some ns ∧ ns.hostClass = t.hostClass ∧
          (∀ given, mapGet spec.nodeSets key = some given → ns.size = given.size) ∧
          (mapGet spec.nodeSets key = none → ns.size = t.size) :=
  ⟨by decide,
    validateAndTransformCluster_final_node_sets demoClustersServer demoContext
      (some demoCluster) [] (by decide)⟩

/-! ## Properties of the servers of virtual machines -/

/-- Claim C18, as stated, fails: the update of a cluster and the update of a virtual machine
whose template has a deletion timestamp return no error on the demonstration servers. -/
theorem update_against_deleted_template_succeeds :
    hasDeletionTimestamp demoDeletedClusterTemplate.metadata = true ∧
    (demoClustersServer.templatesGet demoContext "t0" []).1 =
      Except.ok (some demoDeletedClusterTemplate) ∧
    (demoClustersServer.update demoContext
      { object := some demoClusterOfDeletedTemplate, updateMask := none } []).err = none ∧
    hasDeletionTimestamp demoDeletedVirtualMachineTemplate.metadata = true ∧
    (demoPrivateVirtualMachinesServer.templatesGet demoContext "vt0" []).1 =
      Except.ok (some demoDeletedVirtualMachineTemplate) ∧
    (demoPrivateVirtualMachinesServer.update demoContext
      { object := some demoVirtualMachine, updateMask := none } []).1.err = none :=
  ⟨by decide, rfl, by decide, by decide, rfl, by decide⟩

/-- Claim C18, amended: an update against a template that has a deletion timestamp is not
refused for that reason. The update of a cluster without duplicated conditions is the
update of the generic server, whatever its template, and the DAO of the templates is not
asked. The update of a virtual machine whose template exists, deleted or not, and accepts
the parameters is the update of the generic server with the parameters completed. -/
theorem update_ignores_template_deletion (W : Type) :
    (∀ (s : PrivateClustersServer W) (ctx : Context) (request : UpdateRequest Cluster) (w : W),
      s.validateNoDuplicateConditions request.object = none →
      s.update ctx request w = s.generic.update ctx request w) ∧
    (∀ (s : PrivateVirtualMachinesServer W) (ctx : Context) (vm : VirtualMachine)
        (spec : VirtualMachineSpec) (template : VirtualMachineTemplate)
        (mask : Option (List String)) (w w1 : W),
      vm.spec = some spec → spec.template ≠ "" →
      s.templatesGet ctx spec.template w = (Except.ok (some template), w1) →
      s.validateVirtualMachineTemplateParameters template spec.templateParameters = none →
      (s.update ctx { object := some vm, updateMask := mask } w).1 =
        s.generic.update ctx
          { object :=
              some
                { vm with
                  spec :=
                    some
                      { spec with
                        templateParameters :=
                          s.processTemplateParametersWithDefaults template
                            spec.templateParameters } }
            updateMask := mask } w1) := by
  refine ⟨?_, ?_⟩
  · intro s ctx request w hdup
    simp [PrivateClustersServer.update, hdup]
  · intro s ctx vm spec template mask w w1 hspec hid hget hval
    simp [PrivateVirtualMachinesServer.update, PrivateVirtualMachinesServer.validateTemplate,
      hspec, hid, hget, hval]

/-- Claim C18, amended, at an instance: the cluster of the deleted template `t0` and the
virtual machine of the deleted template `vt0` are updated by the generic server. -/
theorem update_ignores_template_deletion_witness :
    hasDeletionTimestamp demoDeletedClusterTemplate.metadata = true ∧
    hasDeletionTimestamp demoDeletedVirtualMachineTemplate.metadata = true ∧
    demoClustersServer.update demoContext
        { object := some demoClusterOfDeletedTemplate, updateMask := none } [] =
      demoClustersServer.generic.update demoContext
        { object := some demoClusterOfDeletedTemplate, updateMask := none } [] ∧
    (demoPrivateVirtualMachinesServer.update demoContext
        { object := some demoVirtualMachine, updateMask := none } []).1 =
      ⟨some { object := some demoVirtualMachine }, none, ["update"]⟩ :=
  ⟨by decide, by decide,
    (update_ignores_template_deletion (List String)).1 demoClustersServer demoContext
      { object := some demoClusterOfDeletedTemplate, updateMask := none } [] (by decide),
    (update_ignores_template_deletion (List String)).2 demoPrivateVirtualMachinesServer
      demoContext demoVirtualMachine demoVirtualMachineSpec demoDeletedVirtualMachineTemplate
      none [] [] rfl (by decide) rfl rfl⟩

/-- Claim C19: `Update` of the public server does not read the update mask, so the reply and
the state of the world are the same for every mask; and for the request that changes the
template and the parameters of `vm-1` with the mask `spec.template`, the object that is
written has the parameters of the incoming object, which the mask does not list, while the
private server with that mask keeps the stored parameters. -/
theorem public_update_writes_unlisted_paths :
    (∀ (W Pub Priv : Type) (s : VirtualMachinesServer W Pub Priv) (ctx : Context)
        (request : UpdateRequest Pub) (mask : Option (List String)) (w : W),
      s.update ctx { request with updateMask := mask } w = s.update ctx request w) ∧
    (demoPublicServer.update demoContext
        { object := some demoIncomingVirtualMachine, updateMask := some ["spec.template"] }
        [demoVirtualMachine]).world =
      [{ demoVirtualMachine with
          spec := some { template := "vt1", templateParameters := [("cpu", "9")] } }] ∧
    (demoPrivateServer.update demoContext
        { object :=
            some
              { demoVirtualMachine with
                spec := some { template := "vt1", templateParameters := [("cpu", "9")] } }
          updateMask := some ["spec.template"] }
        [demoVirtualMachine]).world =
      [{ demoVirtualMachine with
          spec := some { template := "vt1", templateParameters := [("cpu", "1")] } }] := by
  refine ⟨fun _ _ _ _ _ _ _ _ => rfl, ?_, ?_⟩
  · decide
  · decide

/-! ## Properties of the reconciler of virtual machines -/

theorem setConditionDefaults_spec (status : VirtualMachineStatus) (value : Int) :
    (setConditionDefaults status value).state = status.state ∧
    (setConditionDefaults status value).hub = status.hub ∧
    (∃ c ∈ (setConditionDefaults status value).conditions, c.type = value) ∧
    ∃ added, (setConditionDefaults status value).conditions = status.conditions ++ added ∧
      ∀ c ∈ added, c.status = ConditionStatus.CONDITION_STATUS_FALSE ∧ c.type = value ∧
        ∀ d ∈ status.conditions, d.type ≠ c.type := by
  unfold setConditionDefaults
  dsimp only
  cases hany : status.conditions.any fun current => decide (current.type = value) with
  | true =>
    simp only [Bool.true_eq_false, if_false, true_and]
    refine ⟨?_, [], by simp, by simp⟩
    obtain ⟨c, hc, hty⟩ := List.any_eq_true.mp hany
    exact ⟨c, hc, by simpa using hty⟩
  | false =>
    simp only [if_true, true_and]
    refine ⟨⟨_, List.mem_append_right _ (List.mem_singleton_self _), rfl⟩, _, rfl, ?_⟩
    intro c hc
    rw [List.mem_singleton.mp hc]
    refine ⟨rfl, rfl, ?_⟩
    intro d hd hty
    have := List.any_eq_false.mp hany d hd
    simp at this
    exact this hty

theorem setDefaults_fold_spec (table : List (Int × String)) :
    ∀ status : VirtualMachineStatus,
      let final :=
        table.foldl
          (fun status entry =>
            if entry.1 ≠ 0 then setConditionDefaults status entry.1 else status)
          status
      final.state = status.state ∧ final.hub = status.hub ∧
      (∀ entry ∈ table, entry.1 ≠ 0 → ∃ c ∈ final.conditions, c.type = entry.1) ∧
      ∃ added, final.conditions = status.conditions ++ added ∧
        ∀ c ∈ added, c.status = ConditionStatus.CONDITION_STATUS_FALSE ∧ c.type ≠ 0 ∧
          (∃ entry ∈ table, entry.1 = c.type) ∧ ∀ d ∈ status.conditions, d.type ≠ c.type := by
  induction table with
  | nil =>
    intro status
    exact ⟨rfl, rfl, by simp, [], by simp, by simp⟩
  | cons e rest ih =>
    intro status
    simp only [List.foldl_cons]
    by_cases he : e.1 ≠ 0
    · rw [if_pos he]
      obtain ⟨hs, hh, ⟨c0, hc0, hty0⟩, a, ha, hprop⟩ := setConditionDefaults_spec status e.1
      obtain ⟨hs1, hh1, hcov, added, hadd, hprop1⟩ := ih (setConditionDefaults status e.1)
      refine ⟨hs1.trans hs, hh1.trans hh, ?_, a ++ added, ?_, ?_⟩
      · intro entry hentry hne
        rcases List.mem_cons.mp hentry with h1 | h1
        · subst h1
          refine ⟨c0, ?_, hty0⟩
          rw [hadd]
          exact List.mem_append_left _ hc0
        · exact hcov entry h1 hne
      · rw [hadd, ha, List.append_assoc]
      · intro c hc
        rcases List.mem_append.mp hc with h1 | h1
        · obtain ⟨h2, h3, h4⟩ := hprop c h1
          exact ⟨h2, by rw [h3]; exact he, ⟨e, List.mem_cons_self _ _, h3.symm⟩, h4⟩
        · obtain ⟨h2, h3, ⟨entry, hentry, h4⟩, h5⟩ := hprop1 c h1
          refine ⟨h2, h3, ⟨entry, List.mem_cons_of_mem _ hentry, h4⟩, ?_⟩
          intro d hd
          apply h5 d
          rw [ha]
          exact List.mem_append_left _ hd
    · rw [if_neg he]
      obtain ⟨hs1, hh1, hcov, added, hadd, hprop1⟩ := ih status
      refine ⟨hs1, hh1, ?_, added, hadd, ?_⟩
      · intro entry hentry hne
        rcases List.mem_cons.mp hentry with h1 | h1
        · subst h1
          exact absurd hne he
        · exact hcov entry h1 hne
      · intro c hc
        obtain ⟨h2, h3, ⟨entry, hentry, h4⟩, h5⟩ := hprop1 c hc
        exact ⟨h2, h3, ⟨entry, List.mem_cons_of_mem _ hentry, h4⟩, h5⟩

theorem selectHub_vm {W : Type} (t : Task) (r : ReconcilerFunction W) (w : W) :
    (t.selectHub r w).2.1.vm = t.vm := by
  unfold Task.selectHub
  dsimp only
  split
  · rename_i err t2 w2 hchosen
    split at hchosen
    · split at hchosen
      · cases hchosen; rfl
      · split at hchosen
        · cases hchosen; rfl
        · cases hchosen
    · cases hchosen
  · rename_i t2 w2 hchosen
    have hvm : t2.vm = t.vm := by
      split at hchosen
      · split at hchosen
        · cases hchosen
        · split at hchosen
          · cases hchosen
          · cases hchosen; rfl
      · cases hchosen; rfl
    split
    · exact hvm
    · exact hvm

theorem setDefaults_status (table : List (Int × String)) (vm : VirtualMachine) :
    ∃ status, (setDefaults table vm).status = some status :=
  ⟨_, rfl⟩

theorem update_vm {W : Type} (t : Task) (r : ReconcilerFunction W) (w : W) :
    ∃ hub, (t.update r w).2.1.vm =
      { setDefaults r.conditionTypeName t.vm with
        status := some { vmStatus (setDefaults r.conditionTypeName t.vm) with hub := hub } } := by
  unfold Task.update
  dsimp only
  split
  · exact ⟨(vmStatus (setDefaults r.conditionTypeName t.vm)).hub, rfl⟩
  · have hsel := selectHub_vm { t with vm := setDefaults r.conditionTypeName t.vm } r w
    split
    · rename_i err t1 w1 heq
      rw [heq] at hsel
      exact ⟨(vmStatus (setDefaults r.conditionTypeName t.vm)).hub, hsel⟩
    · rename_i t1 w1 heq
      rw [heq] at hsel
      dsimp only at hsel
      refine ⟨t1.hubId, ?_⟩
      have hgoal : ({ t1 with
          vm := { t1.vm with status := some { vmStatus t1.vm with hub := t1.hubId } } } : Task).vm =
          { setDefaults r.conditionTypeName t.vm with
            status :=
              some { vmStatus (setDefaults r.conditionTypeName t.vm) with hub := t1.hubId } } := by
        dsimp only
        rw [hsel]
      split
      · exact hgoal
      · split
        · exact hgoal
        · split
          · exact hgoal
          · exact hgoal

/-- Claim C20: for a virtual machine without a deletion timestamp, the reconciler first sets
the defaults: the status is present, the state `UNSPECIFIED` becomes `PROGRESSING` and
every other state stays, and every condition type of the table other than zero has an
entry, the conditions being the ones that were there, untouched, followed by new ones of
status `FALSE` for the types that had none; nothing else of the virtual machine changes.
Whatever happens next, the virtual machine that the call leaves is the defaulted one, up
to the hub. When the state after the defaults is not `PROGRESSING`, the only call is
`Update` of the virtual machines client with the defaulted virtual machine: no hub is
listed, looked up or called, and the error of the reconciler is the error of that
`Update`. -/
theorem run_sets_defaults_then_updates {W : Type} (r : ReconcilerFunction W)
    (vm : VirtualMachine) (w : W) (hlive : hasDeletionTimestamp vm.metadata = false) :
    (∃ status added, (setDefaults r.conditionTypeName vm).status = some status ∧
      status.state =
        (if (vmStatus vm).state = VirtualMachineState.VIRTUAL_MACHINE_STATE_UNSPECIFIED then
          VirtualMachineState.VIRTUAL_MACHINE_STATE_PROGRESSING
        else (vmStatus vm).state) ∧
      status.hub = (vmStatus vm).hub ∧
      (∀ entry ∈ r.conditionTypeName, entry.1 ≠ 0 →
        ∃ c ∈ status.conditions, c.type = entry.1) ∧
      status.conditions = (vmStatus vm).conditions ++ added ∧
      ∀ c ∈ added, c.status = ConditionStatus.CONDITION_STATUS_FALSE ∧ c.type ≠ 0 ∧
        (∃ entry ∈ r.conditionTypeName, entry.1 = c.type) ∧
        ∀ d ∈ (vmStatus vm).conditions, d.type ≠ c.type) ∧
    ((setDefaults r.conditionTypeName vm).id = vm.id ∧
      (setDefaults r.conditionTypeName vm).metadata = vm.metadata ∧
      (setDefaults r.conditionTypeName vm).spec = vm.spec) ∧
    (∃ hub, (r.run vm w).2.1 =
      { setDefaults r.conditionTypeName vm with
        status := some { vmStatus (setDefaults r.conditionTypeName vm) with hub := hub } }) ∧
    ((vmStatus (setDefaults r.conditionTypeName vm)).state ≠
        VirtualMachineState.VIRTUAL_MACHINE_STATE_PROGRESSING →
      r.run vm w =
        ((r.vmsUpdate (setDefaults r.conditionTypeName vm) w).1,
          setDefaults r.conditionTypeName vm,
          (r.vmsUpdate (setDefaults r.conditionTypeName vm) w).2)) := by
  refine ⟨?_, ⟨rfl, rfl, rfl⟩, ?_, ?_⟩
  · have hfold := setDefaults_fold_spec r.conditionTypeName
      (if (vmStatus vm).state = VirtualMachineState.VIRTUAL_MACHINE_STATE_UNSPECIFIED then
        { vmStatus vm with state := VirtualMachineState.VIRTUAL_MACHINE_STATE_PROGRESSING }
      else vmStatus vm)
    dsimp only at hfold
    obtain ⟨hs, hh, hcov, added, hadd, hprop⟩ := hfold
    refine ⟨_, added, rfl, ?_, ?_, hcov, ?_, ?_⟩
    · rw [hs]
      split <;> rfl
    · rw [hh]
      split <;> rfl
    · rw [hadd]
      split <;> rfl
    · intro c hc
      obtain ⟨h1, h2, h3, h4⟩ := hprop c hc
      refine ⟨h1, h2, h3, ?_⟩
      intro d hd
      apply h4 d
      split <;> exact hd
  · unfold ReconcilerFunction.run
    simp only [hlive, Bool.false_eq_true, if_false]
    obtain ⟨hub, hvm⟩ := update_vm
      { vm := vm, hubId := "", hubNamespace := "", hubClient := 0 } r w
    refine ⟨hub, ?_⟩
    split
    · rename_i err t1 w1 heq
      rw [heq] at hvm
      exact hvm
    · rename_i t1 w1 heq
      rw [heq] at hvm
      exact hvm
  · intro hstate
    unfold ReconcilerFunction.run
    simp only [hlive, Bool.false_eq_true, if_false]
    unfold Task.update
    simp only [hstate, ne_eq, not_false_eq_true, if_true]

theorem run_sets_defaults_then_updates_witness :
    hasDeletionTimestamp demoFailedVirtualMachine.metadata = false ∧
    (vmStatus (setDefaults demoReconciler.conditionTypeName demoFailedVirtualMachine)).state ≠
      VirtualMachineState.VIRTUAL_MACHINE_STATE_PROGRESSING ∧
    demoReconciler.run demoFailedVirtualMachine [] =
      (none, setDefaults demoReconciler.conditionTypeName demoFailedVirtualMachine,
        [DemoCall.vmsUpdate
          (setDefaults demoReconciler.conditionTypeName demoFailedVirtualMachine)]) :=
  ⟨rfl, by decide,
    (run_sets_defaults_then_updates demoReconciler demoFailedVirtualMachine [] rfl).2.2.2
      (by decide)⟩

/-! ## Properties of the selection of the hub -/

theorem setDefaults_hub (table : List (Int × String)) (vm : VirtualMachine) :
    (vmStatus (setDefaults table vm)).hub = (vmStatus vm).hub := by
  have h := (setDefaults_fold_spec table
    (if (vmStatus vm).state = VirtualMachineState.VIRTUAL_MACHINE_STATE_UNSPECIFIED then
      { vmStatus vm with state := VirtualMachineState.VIRTUAL_MACHINE_STATE_PROGRESSING }
    else vmStatus vm)).2.1
  unfold setDefaults vmStatus
  simp only []
  unfold vmStatus at h
  rw [h]
  split <;> rfl

theorem selectHub_pinned {W : Type} (t : Task) (r : ReconcilerFunction W) (w : W)
    (hpin : (vmStatus t.vm).hub ≠ "") :
    t.selectHub r w =
      match r.hubCacheGet (vmStatus t.vm).hub w with
      | (Except.error err, w3) => (some err, { t with hubId := (vmStatus t.vm).hub }, w3)
      | (Except.ok hubEntry, w3) =>
        (none,
          { t with
            hubId := (vmStatus t.vm).hub, hubNamespace := hubEntry.ns
            hubClient := hubEntry.client }, w3) := by
  unfold Task.selectHub
  simp only [hpin, if_false]

theorem selectHub_list_error {W : Type} (t : Task) (r : ReconcilerFunction W) (w w1 : W)
    (err : Error) (hpin : (vmStatus t.vm).hub = "")
    (hlist : r.hubsList w = (Except.error err, w1)) :
    t.selectHub r w = (some err, { t with hubId := "" }, w1) := by
  unfold Task.selectHub
  simp only [hpin, if_true, hlist]

theorem selectHub_list_empty {W : Type} (t : Task) (r : ReconcilerFunction W) (w w1 : W)
    (hpin : (vmStatus t.vm).hub = "") (hlist : r.hubsList w = (Except.ok [], w1)) :
    t.selectHub r w = (some "there are no hubs", { t with hubId := "" }, w1) := by
  unfold Task.selectHub
  simp only [hpin, if_true, hlist, List.length_nil]

theorem selectHub_list_some {W : Type} (t : Task) (r : ReconcilerFunction W) (w w1 : W)
    (items : List String) (hpin : (vmStatus t.vm).hub = "")
    (hlist : r.hubsList w = (Except.ok items, w1)) (hne : items ≠ []) :
    t.selectHub r w =
      match r.hubCacheGet (items.getD (r.randIntN items.length w1).1 "")
        (r.randIntN items.length w1).2 with
      | (Except.error err, w3) =>
        (some err, { t with hubId := items.getD (r.randIntN items.length w1).1 "" }, w3)
      | (Except.ok hubEntry, w3) =>
        (none,
          { t with
            hubId := items.getD (r.randIntN items.length w1).1 ""
            hubNamespace := hubEntry.ns, hubClient := hubEntry.client }, w3) := by
  have hlen : items.length ≠ 0 := by
    intro h
    exact hne (List.length_eq_zero.mp h)
  unfold Task.selectHub
  simp only [hpin, if_true, hlist, hlen, if_false]

theorem update_of_selectHub_error {W : Type} (t : Task) (r : ReconcilerFunction W) (w w1 : W)
    (err : Error) (t1 : Task)
    (hprog : (vmStatus (setDefaults r.conditionTypeName t.vm)).state =
      VirtualMachineState.VIRTUAL_MACHINE_STATE_PROGRESSING)
    (hsel : ({ t with vm := setDefaults r.conditionTypeName t.vm } : Task).selectHub r w =
      (some err, t1, w1)) :
    t.update r w = (some err, t1, w1) := by
  unfold Task.update
  simp only [hprog, ne_eq, not_true_eq_false, if_false, hsel]

theorem update_of_selectHub_ok {W : Type} (t : Task) (r : ReconcilerFunction W) (w w1 : W)
    (t1 : Task)
    (hprog : (vmStatus (setDefaults r.conditionTypeName t.vm)).state =
      VirtualMachineState.VIRTUAL_MACHINE_STATE_PROGRESSING)
    (hsel : ({ t with vm := setDefaults r.conditionTypeName t.vm } : Task).selectHub r w =
      (none, t1, w1)) :
    (t.update r w).2.1 =
      { t1 with vm := { t1.vm with status := some { vmStatus t1.vm with hub := t1.hubId } } } := by
  unfold Task.update
  simp only [hprog, ne_eq, not_true_eq_false, if_false, hsel]
  split
  · rfl
  · split
    · rfl
    · split <;> rfl

/-- Claim C21: the update of a task whose virtual machine is `PROGRESSING` after the
defaults, with a `rand.IntN` that answers below its argument. When a hub is pinned in the
status, the hubs are not listed (the outcome does not depend on the client of the hubs),
the cache is asked for the pinned hub, its client and namespace are the ones of the task,
and the hub of the status stays the pinned one. When no hub is pinned, the hubs are
listed: an error of the listing is the error of the update, an empty list gives the error
`there are no hubs`, and otherwise the hub of the task is one of the listed ones, and the
hub of the status is that hub, or is still empty when the update failed. -/
theorem update_selects_hub {W : Type} (r : ReconcilerFunction W) (t : Task) (w : W)
    (hprog : (vmStatus (setDefaults r.conditionTypeName t.vm)).state =
      VirtualMachineState.VIRTUAL_MACHINE_STATE_PROGRESSING)
    (hrand : ∀ n w1, 0 < n → (r.randIntN n w1).1 < n) :
    ((vmStatus t.vm).hub ≠ "" →
      (t.update r w).2.1.hubId = (vmStatus t.vm).hub ∧
      (vmStatus (t.update r w).2.1.vm).hub = (vmStatus t.vm).hub ∧
      (∀ hubsList randIntN,
        t.update { r with hubsList := hubsList, randIntN := randIntN } w = t.update r w) ∧
      (∀ hubEntry w1, r.hubCacheGet (vmStatus t.vm).hub w = (Except.ok hubEntry, w1) →
        (t.update r w).2.1.hubClient = hubEntry.client ∧
        (t.update r w).2.1.hubNamespace = hubEntry.ns) ∧
      (∀ err w1, r.hubCacheGet (vmStatus t.vm).hub w = (Except.error err, w1) →
        (t.update r w).1 = some err ∧ (t.update r w).2.2 = w1)) ∧
    ((vmStatus t.vm).hub = "" →
      (∀ err w1, r.hubsList w = (Except.error err, w1) →
        (t.update r w).1 = some err ∧ (t.update r w).2.2 = w1 ∧
        (vmStatus (t.update r w).2.1.vm).hub = "") ∧
      (∀ w1, r.hubsList w = (Except.ok [], w1) →
        (t.update r w).1 = some "there are no hubs" ∧ (t.update r w).2.2 = w1 ∧
        (vmStatus (t.update r w).2.1.vm).hub = "") ∧
      (∀ items w1, r.hubsList w = (Except.ok items, w1) → items ≠ [] →
        (t.update r w).2.1.hubId ∈ items ∧
        ((vmStatus (t.update r w).2.1.vm).hub = (t.update r w).2.1.hubId ∨
          ((t.update r w).1 ≠ none ∧ (vmStatus (t.update r w).2.1.vm).hub = "")))) := by
  have hhub : (vmStatus ({ t with vm := setDefaults r.conditionTypeName t.vm } : Task).vm).hub =
      (vmStatus t.vm).hub := setDefaults_hub _ _
  constructor
  · intro hpin
    have hpin0 : (vmStatus ({ t with vm := setDefaults r.conditionTypeName t.vm } : Task).vm).hub
        ≠ "" := by rw [hhub]; exact hpin
    have hsel := selectHub_pinned { t with vm := setDefaults r.conditionTypeName t.vm } r w hpin0
    rw [hhub] at hsel
    refine ⟨?_, ?_, ?_, ?_, ?_⟩
    · cases hget : r.hubCacheGet (vmStatus t.vm).hub w with
      | mk res w3 =>
        rw [hget] at hsel
        cases res with
        | error err => rw [update_of_selectHub_error t r w w3 err _ hprog hsel]
        | ok hubEntry => rw [update_of_selectHub_ok t r w w3 _ hprog hsel]
    · cases hget : r.hubCacheGet (vmStatus t.vm).hub w with
      | mk res w3 =>
        rw [hget] at hsel
        cases res with
        | error err =>
          rw [update_of_selectHub_error t r w w3 err _ hprog hsel]
          exact hhub
        | ok hubEntry =>
          rw [update_of_selectHub_ok t r w w3 _ hprog hsel]
          rfl
    · intro hubsList randIntN
      unfold Task.update
      simp only [hprog, ne_eq, not_true_eq_false, if_false]
      rw [selectHub_pinned _ r w hpin0,
        selectHub_pinned _ { r with hubsList := hubsList, randIntN := randIntN } w hpin0]
      rfl
    · intro hubEntry w1 hget
      rw [hget] at hsel
      rw [update_of_selectHub_ok t r w w1 _ hprog hsel]
      exact ⟨rfl, rfl⟩
    · intro err w1 hget
      rw [hget] at hsel
      rw [update_of_selectHub_error t r w w1 err _ hprog hsel]
      exact ⟨rfl, rfl⟩
  · intro hpin
    have hpin0 : (vmStatus ({ t with vm := setDefaults r.conditionTypeName t.vm } : Task).vm).hub
        = "" := by rw [hhub]; exact hpin
    refine ⟨?_, ?_, ?_⟩
    · intro err w1 hlist
      rw [update_of_selectHub_error t r w w1 err _ hprog
        (selectHub_list_error _ r w w1 err hpin0 hlist)]
      exact ⟨rfl, rfl, hpin0⟩
    · intro w1 hlist
      rw [update_of_selectHub_error t r w w1 _ _ hprog
        (selectHub_list_empty _ r w w1 hpin0 hlist)]
      exact ⟨rfl, rfl, hpin0⟩
    · intro items w1 hlist hne
      have hsel := selectHub_list_some { t with vm := setDefaults r.conditionTypeName t.vm }
        r w w1 items hpin0 hlist hne
      have hlen : 0 < items.length := List.length_pos.mpr hne
      have hidx := hrand items.length w1 hlen
      have hmem : items.getD (r.randIntN items.length w1).1 "" ∈ items := by
        rw [List.getD_eq_getElem _ _ hidx]
        exact List.getElem_mem _
      cases hget : r.hubCacheGet (items.getD (r.randIntN items.length w1).1 "")
          (r.randIntN items.length w1).2 with
      | mk res w3 =>
        rw [hget] at hsel
        cases res with
        | error err =>
          rw [update_of_selectHub_error t r w w3 err _ hprog hsel]
          exact ⟨hmem, Or.inr ⟨by simp, hpin0⟩⟩
        | ok hubEntry =>
          rw [update_of_selectHub_ok t r w w3 _ hprog hsel]
          exact ⟨hmem, Or.inl rfl⟩

theorem update_selects_hub_witness :
    (demoReconciler.hubsList [] = (Except.ok ["hub-1"], [DemoCall.hubsList])) ∧
    (demoTask.update demoReconciler []).2.1.hubId ∈ ["hub-1"] ∧
    ((vmStatus (demoTask.update demoReconciler []).2.1.vm).hub =
        (demoTask.update demoReconciler []).2.1.hubId ∨
      ((demoTask.update demoReconciler []).1 ≠ none ∧
        (vmStatus (demoTask.update demoReconciler []).2.1.vm).hub = "")) :=
  ⟨rfl,
    ((update_selects_hub demoReconciler demoTask [] (by decide) (fun n _ hn => hn)).2
      rfl).2.2 ["hub-1"] [DemoCall.hubsList] rfl (by decide)⟩

/-! ## Properties of the calls of the hub -/

/-- Claim C22, as stated, fails: two consecutive reconciliations of a `PROGRESSING` virtual
machine, the second one of the virtual machine that the first one stored, starting from a
hub without objects, call `Create` once and `Patch` once. -/
theorem second_reconciliation_patches :
    demoFirstRun.1 = none ∧
    demoFirstRun.2.2.calls =
      [DemoCall.hubsList, DemoCall.hubCacheGet "hub-1", DemoCall.kubeList 7,
        DemoCall.kubeCreate 7, DemoCall.vmsUpdate demoFirstRun.2.1] ∧
    demoSecondRun.1 = none ∧
    demoSecondRun.2.1 = demoFirstRun.2.1 ∧
    demoSecondRun.2.2.calls =
      demoFirstRun.2.2.calls ++
        [DemoCall.hubCacheGet "hub-1", DemoCall.kubeList 7, DemoCall.kubePatch 7,
          DemoCall.vmsUpdate demoFirstRun.2.1] ∧
    demoSecondRun.2.2.objects = demoFirstRun.2.2.objects ∧
    (demoSecondRun.2.2.calls.filter fun call => decide (call = DemoCall.kubeCreate 7)).length = 1 ∧
    (demoSecondRun.2.2.calls.filter fun call => decide (call = DemoCall.kubePatch 7)).length = 1 := by
  decide

/-- Claim C22, amended: in the update of a `PROGRESSING` virtual machine whose hub has been
selected and whose template parameters convert, the hub gets one call after the listing:
`Create`, of an object with the spec of the virtual machine, when the listing finds no
object, and `Patch`, of the object that was found with that spec set, when it finds one,
whatever the spec of that object is; the error and the state of the world are the ones of
that call. -/
theorem update_creates_or_patches {W : Type} (r : ReconcilerFunction W) (t t1 : Task)
    (w w1 : W) (template templateParameters : String) (spec : VirtualMachineSpec)
    (hprog : (vmStatus (setDefaults r.conditionTypeName t.vm)).state =
      VirtualMachineState.VIRTUAL_MACHINE_STATE_PROGRESSING)
    (hsel : ({ t with vm := setDefaults r.conditionTypeName t.vm } : Task).selectHub r w =
      (none, t1, w1))
    (hspec : t1.vm.spec = some spec) (htemplate : spec.template = template)
    (hconv : r.convertTemplateParametersToJSON spec.templateParameters =
      Except.ok templateParameters) :
    (∀ w2, r.kubeList t1.hubClient t1.hubNamespace t1.vm.id w1 = (Except.ok [], w2) →
      (t.update r w).1 =
        (r.kubeCreate t1.hubClient
          { kind := r.virtualMachineKind, ns := t1.hubNamespace, name := ""
            generateName := objectPrefix, labels := [(r.virtualMachineUuid, t1.vm.id)]
            spec := some (template, templateParameters) } w2).1 ∧
      (t.update r w).2.2 =
        (r.kubeCreate t1.hubClient
          { kind := r.virtualMachineKind, ns := t1.hubNamespace, name := ""
            generateName := objectPrefix, labels := [(r.virtualMachineUuid, t1.vm.id)]
            spec := some (template, templateParameters) } w2).2) ∧
    (∀ existing w2,
      r.kubeList t1.hubClient t1.hubNamespace t1.vm.id w1 = (Except.ok [existing], w2) →
      (t.update r w).1 =
        (r.kubePatch t1.hubClient { existing with spec := some (template, templateParameters) }
          existing w2).1 ∧
      (t.update r w).2.2 =
        (r.kubePatch t1.hubClient { existing with spec := some (template, templateParameters) }
          existing w2).2) := by
  subst htemplate
  constructor
  · intro w2 hlist
    simp [Task.update, hprog, hsel, Task.getKubeObject, hlist, hspec, hconv]
  · intro existing w2 hlist
    simp [Task.update, hprog, hsel, Task.getKubeObject, hlist, hspec, hconv]

theorem update_creates_or_patches_witness :
    (demoTask.update demoHubReconciler { objects := [], calls := [] }).2.2.calls =
      [DemoCall.hubsList, DemoCall.hubCacheGet "hub-1", DemoCall.kubeList 7,
        DemoCall.kubeCreate 7] ∧
    (demoSecondTask.update demoHubReconciler demoFirstRun.2.2).2.2.calls =
      demoFirstRun.2.2.calls ++
        [DemoCall.hubCacheGet "hub-1", DemoCall.kubeList 7, DemoCall.kubePatch 7] :=
  ⟨congrArg DemoHub.calls
      ((update_creates_or_patches demoHubReconciler demoTask demoSelected.2.1
        { objects := [], calls := [] } demoSelected.2.2 "vt0" "\x7b\x7d" demoVirtualMachineSpec
        (by decide) (by decide) rfl rfl rfl).1 _ rfl).2,
    congrArg DemoHub.calls
      ((update_creates_or_patches demoHubReconciler demoSecondTask demoSecondSelected.2.1
        demoFirstRun.2.2 demoSecondSelected.2.2 "vt0" "\x7b\x7d" demoVirtualMachineSpec
        (by decide) (by decide) rfl rfl rfl).2 _ _ rfl).2⟩

/-! ## Properties of the finalizers -/

theorem charsLe_antisymm (x : List Char) :
    ∀ y, charsLe x y = true → charsLe y x = true → x = y := by
  induction x with
  | nil =>
    intro y _ hyx
    cases y with
    | nil => rfl
    | cons b bs => simp [charsLe] at hyx
  | cons a as ih =>
    intro y hxy hyx
    cases y with
    | nil => simp [charsLe] at hxy
    | cons b bs =>
      simp only [charsLe, Bool.or_eq_true, Bool.and_eq_true, decide_eq_true_eq] at hxy hyx
      rcases hxy with h1 | ⟨h1, h2⟩
      · rcases hyx with h3 | ⟨h3, _⟩ <;> omega
      · rcases hyx with h3 | ⟨_, h4⟩
        · omega
        · have hab : a = b := by
            apply Char.ext
            apply UInt32.ext
            exact h1
          rw [hab, ih bs h2 h4]

theorem stringLe_antisymm (a b : String) (hab : stringLe a b = true) (hba : stringLe b a = true) :
    a = b := by
  have h := charsLe_antisymm a.data b.data hab hba
  cases a
  cases b
  simp only at h
  rw [h]

/-- Claim C27: for metadata that is present, `getFinalizers` returns a list that is strictly
increasing in the order of `sort.Strings` (each element is before every later one and
differs from it), whose elements are exactly the finalizers of the metadata, and that it
returns again when it gets its own result as the finalizers; for absent metadata it returns
the empty list. The result is a list, which has no nil. -/
theorem getFinalizers_strictly_sorted_set :
    (∀ md : Metadata,
      (getFinalizers (some md)).Pairwise (fun a b => stringLe a b = true ∧ a ≠ b) ∧
      (∀ x, x ∈ getFinalizers (some md) ↔ x ∈ md.finalizers) ∧
      getFinalizers (some { md with finalizers := getFinalizers (some md) }) =
        getFinalizers (some md)) ∧
    getFinalizers none = [] := by
  refine ⟨fun md => ?_, rfl⟩
  have hperm : (getFinalizers (some md)).Perm md.finalizers.dedup :=
    List.perm_insertionSort _ _
  have hsorted : (getFinalizers (some md)).Sorted fun a b => stringLe a b = true :=
    sortStrings_sorted _
  have hnodup : (getFinalizers (some md)).Nodup :=
    hperm.nodup_iff.mpr (List.nodup_dedup _)
  refine ⟨?_, ?_, ?_⟩
  · exact List.Pairwise.and hsorted hnodup
  · intro x
    rw [hperm.mem_iff, List.mem_dedup]
  · show ((getFinalizers (some md)).dedup).insertionSort _ = _
    rw [hnodup.dedup]
    exact List.Sorted.insertionSort_eq hsorted

/-! ## Properties of `update` on rows of other tenants -/

/-- Claim C28: the row `a` has the tenant `shared` and the caller sees the tenant `other`
only, so `get` does not find the row; `update` with an object of that identifier replaces
the finalizers and the data of the row all the same, fires the event `updated` for both
callbacks and returns the object. -/
theorem update_modifies_invisible_row :
    demoOtherDAO.tenancyLogic.determineVisibleTenants demoContext = Except.ok (some ["other"]) ∧
    overlaps demoRowA.tenants ["other"] = false ∧
    visibleTo (some ["other"]) demoRowA = false ∧
    (demoOtherDAO.get demoContext "a" demoState).1 = Except.ok none ∧
    (demoOtherDAO.update demoContext demoForeignObject demoState).state.db.rows =
      [{ demoRowA with finalizers := ["grab"], data := "huge" }, demoRowB] ∧
    (demoOtherDAO.update demoContext demoForeignObject demoState).state.calls.map
        (fun call => (call.1, call.2.type)) =
      [(0, EventType.updated), (1, EventType.updated)] ∧
    ∃ object,
      (demoOtherDAO.update demoContext demoForeignObject demoState).result =
        Except.ok (some object) := by
  refine ⟨rfl, by decide, by decide, rfl, by decide, by decide, _, rfl⟩

/-! ## Properties of the cluster that a failed validation leaves -/

/-- Claim C29, as stated, fails: the validation of the template parameters refuses the
cluster after the node sets have been replaced, so the function returns an error and leaves
a cluster with the three node sets of the template instead of the one that the caller
gave. -/
theorem validateAndTransformCluster_error_changes_node_sets :
    (demoStrictClustersServer.validateAndTransformCluster demoContext (some demoCluster) []).err =
      some { code := Code.InvalidArgument, message := "parameters are not valid" } ∧
    (demoStrictClustersServer.validateAndTransformCluster demoContext (some demoCluster)
        []).object =
      some
        { demoCluster with
          spec :=
            some
              { demoClusterSpec with
                nodeSets :=
                  [("worker", ⟨"acme", 5⟩), ("compute", ⟨"gpu", 2⟩), ("infra", ⟨"acme", 1⟩)] } } ∧
    (demoStrictClustersServer.validateAndTransformCluster demoContext (some demoCluster)
        []).object ≠ some demoCluster := by
  decide

/-- Claim C29, amended: when `validateAndTransformCluster` returns an error, either the
cluster is left as it was passed in, or the error is the one of the validation of the
template parameters, which comes after the checks of the node sets have passed, and the
cluster is the one passed in with its node sets replaced by the final ones; the template
parameters are the ones that the caller supplied in both cases. -/
theorem validateAndTransformCluster_error_object {W : Type} (s : PrivateClustersServer W)
    (ctx : Context) (cluster : Option Cluster) (w : W) (err : Status)
    (herr : (s.validateAndTransformCluster ctx cluster w).err = some err) :
    (s.validateAndTransformCluster ctx cluster w).object = cluster ∨
    ∃ c spec template w1, cluster = some c ∧ c.spec = some spec ∧
      s.templatesGet ctx spec.template w = (Except.ok (some template), w1) ∧
      hasDeletionTimestamp template.metadata = false ∧
      checkNodeSets spec.template template.nodeSets spec.nodeSets = none ∧
      s.validateClusterTemplateParameters template spec.templateParameters = some err ∧
      (s.validateAndTransformCluster ctx cluster w).object =
        some
          { c with
            spec :=
              some { spec with nodeSets := actualNodeSets template.nodeSets spec.nodeSets } } := by
  cases cluster with
  | none => left; rfl
  | some c =>
    cases hspec : c.spec with
    | none =>
      left
      simp [PrivateClustersServer.validateAndTransformCluster, hspec]
    | some spec =>
      by_cases hid : spec.template = ""
      · left
        simp [PrivateClustersServer.validateAndTransformCluster, hspec, hid]
      · cases hget : s.templatesGet ctx spec.template w with
        | mk res w1 =>
          cases res with
          | error e =>
            left
            simp [PrivateClustersServer.validateAndTransformCluster, hspec, hid, hget]
          | ok found =>
            cases found with
            | none =>
              left
              simp [PrivateClustersServer.validateAndTransformCluster, hspec, hid, hget]
            | some template =>
              cases hlive : hasDeletionTimestamp template.metadata with
              | true =>
                left
                simp [PrivateClustersServer.validateAndTransformCluster, hspec, hid, hget,
                  hlive]
              | false =>
                rw [validateAndTransformCluster_of_template s ctx c spec template w w1 hspec
                  hid hget hlive] at herr ⊢
                cases hc : checkNodeSets spec.template template.nodeSets spec.nodeSets with
                | some e =>
                  left
                  rfl
                | none =>
                  rw [hc] at herr
                  dsimp only at herr ⊢
                  cases hv : s.validateClusterTemplateParameters template
                    spec.templateParameters with
                  | none =>
                    rw [hv] at herr
                    cases herr
                  | some e =>
                    rw [hv] at herr
                    right
                    have he : e = err := Option.some.inj herr
                    subst he
                    exact ⟨c, spec, template, w1, rfl, hspec, hget, hlive, hc, hv, rfl⟩

theorem validateAndTransformCluster_error_object_witness :
    (demoStrictClustersServer.validateAndTransformCluster demoContext (some demoCluster) []).err =
      some { code := Code.InvalidArgument, message := "parameters are not valid" } ∧
    ((demoStrictClustersServer.validateAndTransformCluster demoContext (some demoCluster)
        []).object = some demoCluster ∨
      ∃ c spec template w1, some demoCluster = some c ∧ c.spec = some spec ∧
        demoStrictClustersServer.templatesGet demoContext spec.template [] =
          (Except.ok (some template), w1) ∧
        hasDeletionTimestamp template.metadata = false ∧
        checkNodeSets spec.template template.nodeSets spec.nodeSets = none ∧
        demoStrictClustersServer.validateClusterTemplateParameters template
          spec.templateParameters =
          some { code := Code.InvalidArgument, message := "parameters are not valid" } ∧
        (demoStrictClustersServer.validateAndTransformCluster demoContext (some demoCluster)
          []).object =
          some
            { c with
              spec :=
                some
                  { spec with nodeSets := actualNodeSets template.nodeSets spec.nodeSets } }) :=
  ⟨by decide,
    validateAndTransformCluster_error_object demoStrictClustersServer demoContext
      (some demoCluster) [] _ (by decide)⟩

/-! ## Properties of the feedback reconciler -/

/-- Claim C23: with the conditions `Progressing` (true, `provisioning`), `Available` and
`Deleting` (false, `not deleting`) of the hub, in that order, the internal condition
`PROGRESSING` ends with the status `FALSE` and the message `not deleting` of the condition
`Deleting`, not with those of `Progressing`; the internal condition `READY` has those of
`Available`. For every condition of the hub, the functions for `Accepted` and `Deleting`
do what the function for `Progressing` does. -/
theorem syncConditions_deleting_overwrites_progressing :
    (∀ (W : Type) (r : VirtualMachineFeedbackReconciler W) (condition : MetaCondition)
        (status : VirtualMachineStatus) (w : W),
      syncConditionAccepted r condition status w =
        syncConditionProgressing r condition status w ∧
      syncConditionDeleting r condition status w =
        syncConditionProgressing r condition status w) ∧
    (syncConditions demoFeedbackReconciler demoReorderedConditions demoEmptyStatus
        demoFeedbackWorld).1.conditions =
      [{ type := 1, status := ConditionStatus.CONDITION_STATUS_FALSE, message := "not deleting"
         lastTransitionTime := some 202 },
       { type := 2, status := ConditionStatus.CONDITION_STATUS_TRUE, message := "ready"
         lastTransitionTime := some 201 }] ∧
    mapConditionStatus "True" = ConditionStatus.CONDITION_STATUS_TRUE ∧
    demoFeedbackReconciler.conditionTypeProgressing = 1 ∧
    demoFeedbackReconciler.conditionTypeReady = 2 :=
  ⟨fun _ _ _ _ _ => ⟨rfl, rfl⟩, by decide⟩

/-- Claim C24: the feedback reconciler runs twice on the unchanged object of the hub with
the four conditions of the operator, and the result of the first run is stored. Both runs
issue an update: in the second run the conditions `Deleting` and `Progressing` switch the
internal condition `PROGRESSING` off and on again, which gives it a new transition time, so
the object that the second run computes differs from the stored one. -/
theorem feedback_reconciler_updates_twice :
    (demoFeedbackReconciler.reconcile "vms/vm-abc" demoFeedbackWorld).1 = none ∧
    (demoFeedbackReconciler.reconcile "vms/vm-abc" demoFeedbackWorld).2.object =
      demoFeedbackWorld.object ∧
    (demoFeedbackReconciler.reconcile "vms/vm-abc" demoFeedbackWorld).2.updates.length = 1 ∧
    (demoFeedbackReconciler.reconcile "vms/vm-abc"
      (demoFeedbackReconciler.reconcile "vms/vm-abc" demoFeedbackWorld).2).2.updates.length = 2 ∧
    (demoFeedbackReconciler.reconcile "vms/vm-abc"
        (demoFeedbackReconciler.reconcile "vms/vm-abc" demoFeedbackWorld).2).2.stored ≠
      (demoFeedbackReconciler.reconcile "vms/vm-abc" demoFeedbackWorld).2.stored ∧
    ((demoFeedbackReconciler.reconcile "vms/vm-abc" demoFeedbackWorld).2.stored.status.map
        fun status => status.conditions) =
      some
        [{ type := 1, status := ConditionStatus.CONDITION_STATUS_TRUE, message := ""
           lastTransitionTime := some 202 },
         { type := 2, status := ConditionStatus.CONDITION_STATUS_FALSE, message := ""
           lastTransitionTime := none }] ∧
    ((demoFeedbackReconciler.reconcile "vms/vm-abc"
          (demoFeedbackReconciler.reconcile "vms/vm-abc" demoFeedbackWorld).2).2.stored.status.map
        fun status => status.conditions) =
      some
        [{ type := 1, status := ConditionStatus.CONDITION_STATUS_TRUE, message := ""
           lastTransitionTime := some 204 },
         { type := 2, status := ConditionStatus.CONDITION_STATUS_FALSE, message := ""
           lastTransitionTime := none }] := by
  decide

/-! ## Properties of the webhook of the cluster orders -/

/-- Claim C25: with a request in the cache that is three seconds old and a minimum interval
of ten seconds, `triggerWebHook` sends nothing and returns three seconds, the age of the
request, while the remaining time is seven seconds; with a request of age zero it sends the
request. For every cache that holds a request for the name first, `checkForExistingRequest`
returns the age of the request when it is below the interval, and 0 otherwise. -/
theorem triggerWebHook_returns_age :
    (∀ (W : Type) (env : WebhookEnv W) (clusterOrderName : String) (request : InflightRequest)
        (rest : List (String × InflightRequest)) (sent : List HttpRequest)
        (minimumRequestInterval : Int) (w : W),
      (checkForExistingRequest env clusterOrderName minimumRequestInterval
          { inflightRequests := (clusterOrderName, request) :: rest, sent := sent
            world := w }).1 =
        if (env.now w).1 - request.createTime ≥ minimumRequestInterval then 0
        else (env.now w).1 - request.createTime) ∧
    (triggerWebHook demoWebhookEnv "http://hook" demoClusterOrder 10000000000
        demoWebhookState).1 = (3000000000, none) ∧
    (triggerWebHook demoWebhookEnv "http://hook" demoClusterOrder 10000000000
        demoWebhookState).2.sent = [] ∧
    (10000000000 : Int) - 3000000000 = 7000000000 ∧
    (triggerWebHook demoWebhookEnv "http://hook" demoClusterOrder 10000000000
        demoWebhookStateAtOnce).1 = (0, none) ∧
    (triggerWebHook demoWebhookEnv "http://hook" demoClusterOrder 10000000000
        demoWebhookStateAtOnce).2.sent =
      [{ method := "POST", url := "http://hook", body := "\x7b\"name\":\"order-1\"\x7d"
         contentType := "application/json" }] := by
  refine ⟨?_, by decide, by decide, by decide, by decide, by decide⟩
  intro W env clusterOrderName request rest sent minimumRequestInterval w
  simp [checkForExistingRequest, mapGet]

/-! ## Properties of the reconciler of the operator -/

/-- Claim C26, as stated, fails: with a webhook client that fails, `handleUpdate` and
`handleDelete` return the result `Requeue: true` without a delay and without an error,
whatever duration the client returns with its error. -/
theorem webhook_failure_requeues_without_delay :
    ((demoVirtualMachineReconciler (7000000000, some "boom")).handleUpdate demoManagedObject
        demoOperatorWorld).map (fun done => (done.result, done.err, done.world.calls)) =
      some ({ requeue := true, requeueAfter := 0 }, none, ["webhook http://create"]) ∧
    ((demoVirtualMachineReconciler (7000000000, some "boom")).handleDelete demoDeletingObject
        demoDeletingWorld).map (fun done => (done.result, done.err, done.world.calls)) =
      some ({ requeue := true, requeueAfter := 0 }, none, ["webhook http://delete"]) := by
  decide

theorem handleUpdate_result {W : Type} (r : VirtualMachineReconciler W)
    (object : V1alpha1.VirtualMachine) (w : W) (done : Handled W)
    (h : r.handleUpdate object w = some done) :
    done.result = { requeue := false, requeueAfter := 0 } ∨
    ∃ o1 w1, done.err = none ∧ done.result = (r.webhook r.createVMWebhook o1 w1).1 ∧
      done.world = (r.webhook r.createVMWebhook o1 w1).2 := by
  unfold VirtualMachineReconciler.handleUpdate at h
  dsimp only at h
  split at h
  · cases h; left; rfl
  · split at h
    · cases h; left; rfl
    · split at h
      · cases h; left; rfl
      · split at h
        · cases h; left; rfl
        · cases h
        · split at h
          · cases h; left; rfl
          · cases h
            right
            exact ⟨_, _, rfl, rfl, rfl⟩

/-- Claim C26, amended: when the address of the webhook is set and the management state is
not manual, a call of the webhook that fails gives the result `Requeue: true` with no delay
and no error, and a call that does not fail gives the delay that the client returns, which
is no delay when it returns zero. This is the end of `handleUpdate` and of `handleDelete`:
`handleDelete` of an instance with the finalizer whose namespace exists returns it for the
delete webhook, and a result of `handleUpdate` that is not the zero result is the one of
the create webhook, with no error. -/
theorem webhook_result {W : Type} (r : VirtualMachineReconciler W) (url : String)
    (object : V1alpha1.VirtualMachine) (w : W) (hurl : url ≠ "")
    (hmanual : mapGet object.annotations r.cloudkitVirtualMachineManagementStateAnnotation ≠
      some r.managementStateManual) :
    (∀ remainingTime err w1, r.triggerWebhook url object w = ((remainingTime, some err), w1) →
      r.webhook url object w = ({ requeue := true, requeueAfter := 0 }, w1)) ∧
    (∀ remainingTime w1, r.triggerWebhook url object w = ((remainingTime, none), w1) →
      r.webhook url object w = ({ requeue := false, requeueAfter := remainingTime }, w1)) ∧
    (∀ (deleted : V1alpha1.VirtualMachine) (w0 w1 : W) (nsName : String),
      r.cloudkitVirtualMachineFinalizer ∈ deleted.finalizers →
      r.findNamespace
          { deleted with status := { deleted.status with phase := virtualMachinePhaseDeleting } }
          w0 = (Except.ok (some nsName), w1) →
      r.handleDelete deleted w0 =
        some
          ⟨(r.webhook r.deleteVMWebhook
              { deleted with
                status := { deleted.status with phase := virtualMachinePhaseDeleting } } w1).1,
            none,
            { deleted with status := { deleted.status with phase := virtualMachinePhaseDeleting } },
            (r.webhook r.deleteVMWebhook
              { deleted with
                status := { deleted.status with phase := virtualMachinePhaseDeleting } }
              w1).2⟩) ∧
    (∀ (updated : V1alpha1.VirtualMachine) (w0 : W) (done : Handled W),
      r.handleUpdate updated w0 = some done →
      done.result = { requeue := false, requeueAfter := 0 } ∨
      ∃ o1 w1, done.err = none ∧ done.result = (r.webhook r.createVMWebhook o1 w1).1 ∧
        done.world = (r.webhook r.createVMWebhook o1 w1).2) := by
  refine ⟨?_, ?_, ?_, ?_⟩
  · intro remainingTime err w1 htrigger
    simp [VirtualMachineReconciler.webhook, hurl, hmanual, htrigger]
  · intro remainingTime w1 htrigger
    by_cases hzero : remainingTime = 0
    · simp [VirtualMachineReconciler.webhook, hurl, hmanual, htrigger, hzero]
    · simp [VirtualMachineReconciler.webhook, hurl, hmanual, htrigger, hzero]
  · intro deleted w0 w1 nsName hfin hns
    unfold VirtualMachineReconciler.handleDelete
    simp only [hfin, not_true_eq_false, if_false, hns]
  · intro updated w0 done h
    exact handleUpdate_result r updated w0 done h

theorem webhook_result_witness :
    (demoVirtualMachineReconciler (7000000000, some "boom")).webhook "http://create"
        demoManagedObject demoOperatorWorld =
      ({ requeue := true, requeueAfter := 0 },
        { demoOperatorWorld with calls := ["webhook http://create"] }) ∧
    (demoVirtualMachineReconciler (7000000000, none)).webhook "http://create"
        demoManagedObject demoOperatorWorld =
      ({ requeue := false, requeueAfter := 7000000000 },
        { demoOperatorWorld with calls := ["webhook http://create"] }) :=
  ⟨(webhook_result (demoVirtualMachineReconciler (7000000000, some "boom")) "http://create"
      demoManagedObject demoOperatorWorld (by decide) (by decide)).1 7000000000 "boom" _ rfl,
    (webhook_result (demoVirtualMachineReconciler (7000000000, none)) "http://create"
      demoManagedObject demoOperatorWorld (by decide) (by decide)).2.1 7000000000 _ rfl⟩

theorem reconcile_calls_statusUpdate {W : Type} (r : VirtualMachineReconciler W) (req : String)
    (w w1 : W) (object : V1alpha1.VirtualMachine) (done : Handled W)
    (hget : r.clientGet req w = (Fetched.found object, w1))
    (hann : mapGet object.annotations r.cloudkitVirtualMachineManagementStateAnnotation ≠
      some r.managementStateUnmanaged)
    (hdone : (if object.deletionTimestampIsZero = true then r.handleUpdate object w1
      else r.handleDelete object w1) = some done)
    (herr : done.err = none) :
    r.reconcile req w =
      some ((done.result, (r.statusUpdate done.object done.world).1),
        (r.statusUpdate done.object done.world).2) := by
  unfold VirtualMachineReconciler.reconcile
  simp only [hget, hann, if_false]
  rw [hdone]
  simp only [herr, semanticDeepEqual, if_true]
  cases r.statusUpdate done.object done.world with
  | mk e w2 => cases e <;> rfl

/-- Claim C30: `Reconcile` compares the status of the instance, a value, with `oldstatus`, a
pointer, which `DeepEqual` finds different whatever they hold. For the instance that is
being deleted and is already in the phase `Deleting`, with a delete webhook inside its
minimum interval, `handleDelete` returns no error and leaves the status as it was, and
`Reconcile` calls `Status().Update` all the same. -/
theorem reconcile_updates_unchanged_status :
    (∀ x y, semanticDeepEqual (StatusArgument.value x) (StatusArgument.pointer y) = false) ∧
    ((demoVirtualMachineReconciler (5000000000, none)).handleDelete demoDeletingObject
        demoDeletingWorld).map (fun done => (done.err, done.object.status)) =
      some (none, demoDeletingObject.status) ∧
    ((demoVirtualMachineReconciler (5000000000, none)).reconcile "vms/vm-abc"
        demoDeletingWorld).map (fun out => (out.1, out.2.calls)) =
      some (({ requeue := false, requeueAfter := 5000000000 }, none),
        ["webhook http://delete", "status update"]) :=
  ⟨fun _ _ => rfl, by decide, by decide⟩

end Osac
